import Mathlib

/-!
# go-block: the start-up driver `mainWithExitCode`

Shallow embedding of `src/base.go` (`mainWithExitCode`, lines 120-375) and of
`src/db/db.go` (`RepairRocksDB`, lines 10-14).

`mainWithExitCode` is straight-line code with early returns. Everything it
does is a call into another package, an assignment to the in-memory
`internalState`, a `go` statement, or a channel operation. The embedding
keeps that shape:

* the command-line flags and the outcome of every external call are the
  fields of `Env` (one outcome per call, the calls of one run being made at
  most once each; `StoreInternalState` has two call sites, of which a run
  reaches at most one);
* a run yields the exit code, the ordered list of the events of the main
  goroutine (`Event`), and the in-memory internal state at return.

Not modelled: log output (`glog`), `flag.Parse`, `rand.Seed`, `signal.Notify`,
and what the started goroutines themselves do. A blocking channel receive is
recorded as an event of the main goroutine when it completes. External calls
are taken not to write the fields of `internalState` that `mainWithExitCode`
reads.
-/

namespace GoBlock

/-- exit codes from the main function (base.go 32). -/
def exitCodeOK : Int := 0

/-- exit codes from the main function (base.go 33). -/
def exitCodeFatal : Int := 255

/-- Modelled from the spec: the error values of package `db`, whose declaration
of `ErrOperationInterrupted` is not part of the sources at hand. A Go `error`
is `Option Err`, `none` being `nil`; `ErrOperationInterrupted` is the
distinguished "interrupted" error, every other error is `other`. -/
inductive Err where
  | ErrOperationInterrupted
  | other (msg : String)
  deriving DecidableEq, Repr

deriving instance DecidableEq for Except

/-- Modelled from the spec: the database lifecycle state of package `common`
(`DbStateClosed`, `DbStateOpen`, `DbStateInconsistent`). -/
inductive DbState where
  | DbStateClosed
  | DbStateOpen
  | DbStateInconsistent
  deriving DecidableEq, Repr

/-- Modelled from the spec: the fields of `common.InternalState` that
`mainWithExitCode` reads or assigns. -/
structure InternalState where
  DbState : DbState
  UtxoChecked : Bool
  SortedAddressContracts : Bool
  SyncMode : Bool
  InitialSync : Bool
  deriving DecidableEq, Repr

/-- The trigger and acknowledgement channels (base.go 82-88). -/
inductive Chan where
  | chanSyncIndex
  | chanSyncMempool
  | chanStoreInternalState
  | chanSyncIndexDone
  | chanSyncMempoolDone
  | chanStoreInternalStateDone
  deriving DecidableEq, Repr

/-- Go's conversion `uint32(x)` of an `int`: the low 32 bits. -/
def uint32 (x : Int) : Nat := (x % 4294967296).toNat

/-- What the main goroutine does, in order. A call carries the arguments that
matter and the value it returned. -/
inductive Event where
  | goProfServer (addr : String)
  | RepairRocksDB (name : String) (r : Option Err)
  | ReadFile (path : String) (r : Option Err)
  | GetCoinNameFromConfig (r : Option Err)
  | GetMetrics (r : Option Err)
  | getBlockChainWithRetry (r : Option Err)
  | NewRocksDB (path : String) (r : Option Err)
  | indexClose
  | newInternalState (r : Except Err InternalState)
  | FixUtxos (r : Option Err)
  | setUtxoChecked (b : Bool)
  | SortAddressContracts (r : Option Err)
  | setSortedAddressContracts (b : Bool)
  | SetInternalState (s : InternalState)
  | StoreInternalState (s : InternalState) (r : Option Err)
  | setDbState (d : DbState)
  | computeFeeStats (blockFrom blockUntil : Int) (r : Option Err)
  | ComputeInternalStateColumnStats (r : Option Err)
  | NewSyncWorker (r : Option Err)
  | performRollback (r : Option Err)
  | NewTxCache (r : Option Err)
  | NewFiatRates (r : Option Err)
  | blockbookAppInfoMetric (r : Option Err)
  | startInternalServer (r : Option Err)
  | startPublicServer (r : Option Err)
  | setSyncMode (b : Bool)
  | setInitialSync (b : Bool)
  | ResyncIndex (r : Option Err)
  | InitializeMempool (addrDescForOutpoint : Bool) (r : Option Err)
  | mempoolResync (r : Except Err Int)
  | FinishedMempoolSync (mempoolCount : Int)
  | goSyncIndexLoop
  | goSyncMempoolLoop
  | goStoreInternalStateLoop
  | ConnectFullPublicInterface
  | ConnectBlocksParallel (height until_ : Nat) (r : Option Err)
  | initDownloaders
  | waitForSignalAndShutdown
  | close (c : Chan)
  | recv (c : Chan)
  deriving DecidableEq, Repr

/-- The flags of base.go 35-80 that `mainWithExitCode` branches on, and the
outcome of each external call of a run. -/
structure Env where
  configFile : String
  dbPath : String
  blockFrom : Int
  blockUntil : Int
  rollbackHeight : Int
  synchronize : Bool
  repair : Bool
  fixUtxo : Bool
  prof : String
  internalBinding : String
  publicBinding : String
  computeColumnStats : Bool
  computeFeeStatsFlag : Bool
  RepairDb : String → Option Err
  ReadFile : Option Err
  GetCoinNameFromConfig : Option Err
  GetMetrics : Option Err
  getBlockChainWithRetry : Option Err
  chainNotNil : Bool
  chainIsBitcoinType : Bool
  NewRocksDB : Option Err
  newInternalState : Except Err InternalState
  FixUtxos : Option Err
  SortAddressContracts : Option Err
  StoreInternalState : Option Err
  computeFeeStats : Option Err
  ComputeInternalStateColumnStats : Option Err
  NewSyncWorker : Option Err
  performRollback : Option Err
  NewTxCache : Option Err
  NewFiatRates : Option Err
  blockbookAppInfoMetric : Option Err
  startInternalServer : Option Err
  internalServerNotNil : Bool
  startPublicServer : Option Err
  publicServerNotNil : Bool
  ResyncIndex : Option Err
  InitializeMempool : Option Err
  mempoolResync : Except Err Int
  ConnectBlocksParallel : Nat → Nat → Option Err

/-- The outcome of a run: exit code, events of the main goroutine in order,
and the in-memory `internalState` at return (`none` when never loaded). -/
structure Run where
  exit : Int
  trace : List Event
  is : Option InternalState
  deriving DecidableEq, Repr

/-- A `return code` before the store is open. -/
def ret (code : Int) (st : Option InternalState) : Run := ⟨code, [], st⟩

/-- A `return code` once the store is open: the deferred `index.Close()` of
base.go 179 runs as the function returns. -/
def retClose (code : Int) (st : Option InternalState) : Run := ⟨code, [Event.indexClose], st⟩

/-- An event followed by the rest of the run. -/
def emit (e : Event) (r : Run) : Run := { r with trace := e :: r.trace }

/-- `RepairRocksDB` (db.go 10-14): `gorocksdb.RepairDb(name, opts)` with the
default options. -/
def RepairRocksDB (RepairDb : String → Option Err) (name : String) : Option Err :=
  RepairDb name

/-- base.go 366-374: with `-sync`, close the trigger channels and wait for the
loops; return. -/
def closeLoops (env : Env) (st : InternalState) : Run :=
  if env.synchronize then
    emit (Event.close Chan.chanSyncIndex) <|
    emit (Event.close Chan.chanSyncMempool) <|
    emit (Event.close Chan.chanStoreInternalState) <|
    emit (Event.recv Chan.chanSyncIndexDone) <|
    emit (Event.recv Chan.chanSyncMempoolDone) <|
    emit (Event.recv Chan.chanStoreInternalStateDone) <|
    retClose exitCodeOK (some st)
  else retClose exitCodeOK (some st)

/-- base.go 360-364: the downloaders, and the wait for the signal. -/
def shutdown (env : Env) (st : InternalState) (internalServer publicServer : Bool) : Run :=
  if internalServer || publicServer || env.chainNotNil then
    emit Event.initDownloaders <| emit Event.waitForSignalAndShutdown <| closeLoops env st
  else closeLoops env st

/-- base.go 342-358: the range connect. -/
def rangeConnect (env : Env) (st : InternalState) (internalServer publicServer : Bool) : Run :=
  if env.blockFrom ≥ 0 then
    let blockUntil := if env.blockUntil < 0 then env.blockFrom else env.blockUntil
    let height := uint32 env.blockFrom
    let until_ := uint32 blockUntil
    if !env.synchronize then
      match env.ConnectBlocksParallel height until_ with
      | some err =>
        emit (Event.ConnectBlocksParallel height until_ (some err))
          (if err ≠ Err.ErrOperationInterrupted then retClose exitCodeFatal (some st)
           else retClose exitCodeOK (some st))
      | none =>
        emit (Event.ConnectBlocksParallel height until_ none)
          (shutdown env st internalServer publicServer)
    else shutdown env st internalServer publicServer
  else shutdown env st internalServer publicServer

/-- base.go 331-340: the store loop and the full public interface. -/
def storeLoop (env : Env) (st : InternalState) (internalServer publicServer : Bool) : Run :=
  emit Event.goStoreInternalStateLoop
    (if publicServer then
       emit Event.ConnectFullPublicInterface (rangeConnect env st internalServer publicServer)
     else rangeConnect env st internalServer publicServer)

/-- base.go 301-330: the initial sync and the mempool. -/
def initialSync (env : Env) (st : InternalState) (internalServer publicServer : Bool) : Run :=
  if env.synchronize then
    let st1 := { st with SyncMode := true }
    let st2 := { st1 with InitialSync := true }
    emit (Event.setSyncMode true) <| emit (Event.setInitialSync true) <|
    match env.ResyncIndex with
    | some err =>
      emit (Event.ResyncIndex (some err))
        (if err ≠ Err.ErrOperationInterrupted then retClose exitCodeFatal (some st2)
         else retClose exitCodeOK (some st2))
    | none =>
      emit (Event.ResyncIndex none) <|
      match env.InitializeMempool with
      | some err =>
        emit (Event.InitializeMempool env.chainIsBitcoinType (some err))
          (retClose exitCodeFatal (some st2))
      | none =>
        emit (Event.InitializeMempool env.chainIsBitcoinType none) <|
        match env.mempoolResync with
        | .error err =>
          emit (Event.mempoolResync (.error err)) (retClose exitCodeFatal (some st2))
        | .ok mempoolCount =>
          emit (Event.mempoolResync (.ok mempoolCount)) <|
          emit (Event.FinishedMempoolSync mempoolCount) <|
          emit Event.goSyncIndexLoop <| emit Event.goSyncMempoolLoop <|
          emit (Event.setInitialSync false) <|
          storeLoop env { st2 with InitialSync := false } internalServer publicServer
  else storeLoop env st internalServer publicServer

/-- base.go 292-299: the public server. -/
def publicServerStart (env : Env) (st : InternalState) (internalServer : Bool) : Run :=
  if env.publicBinding ≠ "" then
    match env.startPublicServer with
    | some err => emit (Event.startPublicServer (some err)) (retClose exitCodeFatal (some st))
    | none =>
      emit (Event.startPublicServer none)
        (initialSync env st internalServer env.publicServerNotNil)
  else initialSync env st internalServer false

/-- base.go 283-290: the internal server. -/
def internalServerStart (env : Env) (st : InternalState) : Run :=
  if env.internalBinding ≠ "" then
    match env.startInternalServer with
    | some err => emit (Event.startInternalServer (some err)) (retClose exitCodeFatal (some st))
    | none =>
      emit (Event.startInternalServer none) (publicServerStart env st env.internalServerNotNil)
  else publicServerStart env st false

/-- base.go 260-281: the rollback, the transaction cache, the fiat rates. -/
def rollbackOrCaches (env : Env) (st : InternalState) : Run :=
  if env.rollbackHeight ≥ 0 then
    match env.performRollback with
    | some err => emit (Event.performRollback (some err)) (retClose exitCodeFatal (some st))
    | none => emit (Event.performRollback none) (retClose exitCodeOK (some st))
  else
    match env.NewTxCache with
    | some err => emit (Event.NewTxCache (some err)) (retClose exitCodeFatal (some st))
    | none =>
      emit (Event.NewTxCache none) <|
      match env.NewFiatRates with
      | some err => emit (Event.NewFiatRates (some err)) (retClose exitCodeFatal (some st))
      | none =>
        emit (Event.NewFiatRates none) <|
        emit (Event.blockbookAppInfoMetric env.blockbookAppInfoMetric) <|
        internalServerStart env st

/-- base.go 246-258: the sync worker, then the state is set to open and stored. -/
def openDb (env : Env) (st : InternalState) : Run :=
  match env.NewSyncWorker with
  | some err => emit (Event.NewSyncWorker (some err)) (retClose exitCodeFatal (some st))
  | none =>
    emit (Event.NewSyncWorker none) <|
    let st1 := { st with DbState := DbState.DbStateOpen }
    emit (Event.setDbState DbState.DbStateOpen) <|
    match env.StoreInternalState with
    | some err => emit (Event.StoreInternalState st1 (some err)) (retClose exitCodeFatal (some st1))
    | none => emit (Event.StoreInternalState st1 none) (rollbackOrCaches env st1)

/-- base.go 225-244: the one-shot statistics. -/
def statistics (env : Env) (st : InternalState) : Run :=
  if env.computeFeeStatsFlag then
    let st1 := { st with DbState := DbState.DbStateOpen }
    emit (Event.setDbState DbState.DbStateOpen) <|
    emit (Event.computeFeeStats env.blockFrom env.blockUntil env.computeFeeStats) <|
    match env.computeFeeStats with
    | some err =>
      if err ≠ Err.ErrOperationInterrupted then retClose exitCodeFatal (some st1)
      else retClose exitCodeOK (some st1)
    | none => retClose exitCodeOK (some st1)
  else if env.computeColumnStats then
    let st1 := { st with DbState := DbState.DbStateOpen }
    emit (Event.setDbState DbState.DbStateOpen) <|
    emit (Event.ComputeInternalStateColumnStats env.ComputeInternalStateColumnStats) <|
    match env.ComputeInternalStateColumnStats with
    | some _ => retClose exitCodeFatal (some st1)
    | none => retClose exitCodeOK (some st1)
  else openDb env st

/-- base.go 207-223: the state is handed to the index; `-fixutxo` stores and
quits; an inconsistent database is refused. -/
def checkDbState (env : Env) (st : InternalState) : Run :=
  emit (Event.SetInternalState st) <|
  if env.fixUtxo then
    match env.StoreInternalState with
    | some err => emit (Event.StoreInternalState st (some err)) (retClose exitCodeFatal (some st))
    | none => emit (Event.StoreInternalState st none) (retClose exitCodeOK (some st))
  else if st.DbState ≠ DbState.DbStateClosed then
    if st.DbState = DbState.DbStateInconsistent then retClose exitCodeFatal (some st)
    else statistics env st
  else statistics env st

/-- base.go 197-205: sort addressContracts if necessary. -/
def sortAddressContracts (env : Env) (st : InternalState) : Run :=
  if !st.SortedAddressContracts then
    match env.SortAddressContracts with
    | some err => emit (Event.SortAddressContracts (some err)) (retClose exitCodeFatal (some st))
    | none =>
      emit (Event.SortAddressContracts none) <|
      emit (Event.setSortedAddressContracts true) <|
      checkDbState env { st with SortedAddressContracts := true }
  else checkDbState env st

/-- base.go 187-195: fix possible inconsistencies in the UTXO index. -/
def fixUtxos (env : Env) (st : InternalState) : Run :=
  if env.fixUtxo || !st.UtxoChecked then
    match env.FixUtxos with
    | some err => emit (Event.FixUtxos (some err)) (retClose exitCodeFatal (some st))
    | none =>
      emit (Event.FixUtxos none) <|
      emit (Event.setUtxoChecked true) <|
      sortAddressContracts env { st with UtxoChecked := true }
  else sortAddressContracts env st

/-- base.go 181-185: the internal state is loaded. -/
def withIndex (env : Env) : Run :=
  match env.newInternalState with
  | .error err => emit (Event.newInternalState (.error err)) (retClose exitCodeFatal none)
  | .ok st => emit (Event.newInternalState (.ok st)) (fixUtxos env st)

/-- base.go 146-179: configuration, metrics, chain adapter, store. -/
def startup (env : Env) : Run :=
  if env.configFile = "" then ret exitCodeFatal none
  else
    match env.ReadFile with
    | some err => emit (Event.ReadFile env.configFile (some err)) (ret exitCodeFatal none)
    | none =>
      emit (Event.ReadFile env.configFile none) <|
      match env.GetCoinNameFromConfig with
      | some err => emit (Event.GetCoinNameFromConfig (some err)) (ret exitCodeFatal none)
      | none =>
        emit (Event.GetCoinNameFromConfig none) <|
        match env.GetMetrics with
        | some err => emit (Event.GetMetrics (some err)) (ret exitCodeFatal none)
        | none =>
          emit (Event.GetMetrics none) <|
          match env.getBlockChainWithRetry with
          | some err => emit (Event.getBlockChainWithRetry (some err)) (ret exitCodeFatal none)
          | none =>
            emit (Event.getBlockChainWithRetry none) <|
            match env.NewRocksDB with
            | some err => emit (Event.NewRocksDB env.dbPath (some err)) (ret exitCodeFatal none)
            | none =>
              emit (Event.NewRocksDB env.dbPath none) (withIndex env)

/-- base.go 138-144: the repair run. -/
def repairOrStartup (env : Env) : Run :=
  if env.repair then
    match RepairRocksDB env.RepairDb env.dbPath with
    | some err => emit (Event.RepairRocksDB env.dbPath (some err)) (ret exitCodeFatal none)
    | none => emit (Event.RepairRocksDB env.dbPath none) (ret exitCodeOK none)
  else startup env

/-- `mainWithExitCode` (base.go 120-375). -/
def mainWithExitCode (env : Env) : Run :=
  if env.prof ≠ "" then emit (Event.goProfServer env.prof) (repairOrStartup env)
  else repairOrStartup env

/-- A run in which every call succeeds: a fresh store (state `Closed`, all
flags false), no optional flag set. -/
def envDefault : Env where
  configFile := "cfg.json"
  dbPath := "./mydb"
  blockFrom := -1
  blockUntil := -1
  rollbackHeight := -1
  synchronize := false
  repair := false
  fixUtxo := false
  prof := ""
  internalBinding := ""
  publicBinding := ""
  computeColumnStats := false
  computeFeeStatsFlag := false
  RepairDb := fun _ => none
  ReadFile := none
  GetCoinNameFromConfig := none
  GetMetrics := none
  getBlockChainWithRetry := none
  chainNotNil := true
  chainIsBitcoinType := true
  NewRocksDB := none
  newInternalState := .ok ⟨DbState.DbStateClosed, false, false, false, false⟩
  FixUtxos := none
  SortAddressContracts := none
  StoreInternalState := none
  computeFeeStats := none
  ComputeInternalStateColumnStats := none
  NewSyncWorker := none
  performRollback := none
  NewTxCache := none
  NewFiatRates := none
  blockbookAppInfoMetric := none
  startInternalServer := none
  internalServerNotNil := true
  startPublicServer := none
  publicServerNotNil := true
  ResyncIndex := none
  InitializeMempool := none
  mempoolResync := .ok 0
  ConnectBlocksParallel := fun _ _ => none


/-! ## Properties of traces -/

/-- No event of the class `P` happens. -/
def never (P : Event → Bool) (tr : List Event) : Prop :=
  ∀ x ∈ tr, P x = false

/-- An event of the class `B` happens only after an event of the class `A`. -/
def onlyAfter (A B : Event → Bool) (tr : List Event) : Prop :=
  ∀ l e r, tr = l ++ e :: r → B e = true → ∃ x ∈ l, A x = true

/-- No event of the class `A` happens before an event of the class `B`. -/
def notBefore (A B : Event → Bool) (tr : List Event) : Prop :=
  ∀ l e r, tr = l ++ e :: r → B e = true → ∀ x ∈ l, A x = false

/-- After an event of the class `P` only the deferred `index.Close()` follows. -/
def thenReturns (P : Event → Bool) (tr : List Event) : Prop :=
  ∀ l e r, tr = l ++ e :: r → P e = true → r = [Event.indexClose]

/-- The effect of one event on the in-memory `internalState`. -/
def applyEvent (s : Option InternalState) : Event → Option InternalState
  | .newInternalState (.ok st) => some st
  | .setUtxoChecked b => s.map fun st => { st with UtxoChecked := b }
  | .setSortedAddressContracts b => s.map fun st => { st with SortedAddressContracts := b }
  | .setDbState d => s.map fun st => { st with DbState := d }
  | .setSyncMode b => s.map fun st => { st with SyncMode := b }
  | .setInitialSync b => s.map fun st => { st with InitialSync := b }
  | _ => s

/-- The in-memory `internalState` after the events of `tr`, from `s`. -/
def replay (s : Option InternalState) (tr : List Event) : Option InternalState :=
  tr.foldl applyEvent s

/-- Whenever an event of the class `P` happens, the in-memory state, as the
events before it left it, satisfies `Q`. -/
def holdsAt (P : Event → Bool) (Q : InternalState → Prop) (s : Option InternalState)
    (tr : List Event) : Prop :=
  ∀ l e r, tr = l ++ e :: r → P e = true → ∃ st, replay s l = some st ∧ Q st


/-- The last line of base.go at which the event can happen (the deferred
`index.Close()` happens at the return). -/
def Event.line : Event → Nat
  | .goProfServer _ => 133
  | .RepairRocksDB _ _ => 139
  | .ReadFile _ _ => 151
  | .GetCoinNameFromConfig _ => 157
  | .GetMetrics _ => 163
  | .getBlockChainWithRetry _ => 169
  | .NewRocksDB _ _ => 174
  | .newInternalState _ => 181
  | .FixUtxos _ => 189
  | .setUtxoChecked _ => 194
  | .SortAddressContracts _ => 199
  | .setSortedAddressContracts _ => 204
  | .SetInternalState _ => 207
  | .computeFeeStats _ _ _ => 227
  | .ComputeInternalStateColumnStats _ => 237
  | .NewSyncWorker _ => 246
  | .setDbState _ => 253
  | .StoreInternalState _ _ => 254
  | .performRollback _ => 261
  | .NewTxCache _ => 268
  | .NewFiatRates _ => 273
  | .blockbookAppInfoMetric _ => 279
  | .startInternalServer _ => 285
  | .startPublicServer _ => 294
  | .setSyncMode _ => 302
  | .ResyncIndex _ => 304
  | .InitializeMempool _ _ => 316
  | .mempoolResync _ => 322
  | .FinishedMempoolSync _ => 326
  | .goSyncIndexLoop => 327
  | .goSyncMempoolLoop => 328
  | .setInitialSync _ => 329
  | .goStoreInternalStateLoop => 331
  | .ConnectFullPublicInterface => 339
  | .ConnectBlocksParallel _ _ _ => 350
  | .initDownloaders => 362
  | .waitForSignalAndShutdown => 363
  | .close _ => 369
  | .recv _ => 372
  | .indexClose => 375

/-- Every event of the trace happens at line `n` or later. -/
def fromLine (n : Nat) (tr : List Event) : Prop :=
  ∀ x ∈ tr, n ≤ x.line

/-- The start-up repair passes. -/
def isRepairPass : Event → Bool
  | .FixUtxos _ => true
  | .SortAddressContracts _ => true
  | _ => false

/-- The operations of synchronisation: the sync worker and what it runs, and
the mempool. -/
def isSyncOp : Event → Bool
  | .NewSyncWorker _ => true
  | .performRollback _ => true
  | .ResyncIndex _ => true
  | .ConnectBlocksParallel _ _ _ => true
  | .InitializeMempool _ _ => true
  | .mempoolResync _ => true
  | _ => false

/-- The one-shot statistics passes. -/
def isStatsOp : Event → Bool
  | .computeFeeStats _ _ _ => true
  | .ComputeInternalStateColumnStats _ => true
  | _ => false

/-- A repair of the store, a repair pass, a sync operation or a statistics pass. -/
def isEngineOp (e : Event) : Bool :=
  isRepairPass e || isSyncOp e || isStatsOp e ||
    match e with
    | .RepairRocksDB _ _ => true
    | _ => false

/-- The run returned one of the two exit codes. -/
def okOrFatal (r : Run) : Prop :=
  r.exit = exitCodeOK ∨ r.exit = exitCodeFatal

/-- The assignment `internalState.DbState = common.DbStateOpen`, or a sync
operation. -/
def isOpenOrSync (e : Event) : Bool :=
  isSyncOp e ||
    match e with
    | .setDbState DbState.DbStateOpen => true
    | _ => false

/-- The in-memory state at return, when there is one, is inconsistent. -/
def staysInconsistent (r : Run) : Prop :=
  ∀ s, r.is = some s → s.DbState = DbState.DbStateInconsistent

/-- A call of `index.StoreInternalState` that returned an error. -/
def isFailedStore : Event → Bool
  | .StoreInternalState _ (some _) => true
  | _ => false

/-- A failed store ends the run: only the deferred close follows it, and the
exit code is `exitCodeFatal`. -/
def failedStoreIsFatal (r : Run) : Prop :=
  thenReturns isFailedStore r.trace ∧ (never isFailedStore r.trace ∨ r.exit = exitCodeFatal)

/-- `syncWorker.ResyncIndex(nil, true)` returned nil. -/
def isResyncOk : Event → Bool
  | .ResyncIndex none => true
  | _ => false

/-- `syncWorker.ResyncIndex(nil, true)` returned an error. -/
def isResyncFailed : Event → Bool
  | .ResyncIndex (some _) => true
  | _ => false

/-- `chain.InitializeMempool` or `mempool.Resync`. -/
def isMempoolOp : Event → Bool
  | .InitializeMempool _ _ => true
  | .mempoolResync _ => true
  | _ => false

/-- `mempool.Resync` returned without error. -/
def isMempoolResyncOk : Event → Bool
  | .mempoolResync (.ok _) => true
  | _ => false

/-- The start of `syncIndexLoop` or of `syncMempoolLoop`. -/
def isSyncLoop : Event → Bool
  | .goSyncIndexLoop => true
  | .goSyncMempoolLoop => true
  | _ => false

/-- The start of `syncIndexLoop`. -/
def isGoSyncIndexLoop : Event → Bool
  | .goSyncIndexLoop => true
  | _ => false

/-- The start of `syncMempoolLoop`. -/
def isGoSyncMempoolLoop : Event → Bool
  | .goSyncMempoolLoop => true
  | _ => false

/-- The steps from the call of `ResyncIndex` to the start of the two loops
(base.go 304-328). -/
def isInitialSyncStep : Event → Bool
  | .ResyncIndex _ => true
  | .InitializeMempool _ _ => true
  | .mempoolResync _ => true
  | .FinishedMempoolSync _ => true
  | .goSyncIndexLoop => true
  | .goSyncMempoolLoop => true
  | _ => false

/-- The assignment `internalState.InitialSync = false`. -/
def isClearInitialSync : Event → Bool
  | .setInitialSync false => true
  | _ => false

/-- The order of the initial sync, for a run that starts with the in-memory
state `s`. -/
def syncOrder (s : Option InternalState) (r : Run) : Prop :=
  onlyAfter isResyncOk isMempoolOp r.trace ∧
  onlyAfter isMempoolResyncOk isSyncLoop r.trace ∧
  holdsAt isInitialSyncStep (fun st => st.InitialSync = true) s r.trace ∧
  onlyAfter isGoSyncIndexLoop isClearInitialSync r.trace ∧
  onlyAfter isGoSyncMempoolLoop isClearInitialSync r.trace ∧
  (never isResyncFailed r.trace ∨ never isMempoolOp r.trace) ∧
  (never isSyncLoop r.trace ∨ ∃ st, r.is = some st ∧ st.InitialSync = false)

/-- A sync operation or a statistics pass. -/
def isSyncOrStats (e : Event) : Bool :=
  isSyncOp e || isStatsOp e

/-- `index.FixUtxos` returned nil. -/
def isFixUtxosOk : Event → Bool
  | .FixUtxos none => true
  | _ => false

/-- `index.SortAddressContracts` returned nil. -/
def isSortAddressContractsOk : Event → Bool
  | .SortAddressContracts none => true
  | _ => false

/-- The assignment `internalState.UtxoChecked = true`. -/
def isSetUtxoChecked : Event → Bool
  | .setUtxoChecked true => true
  | _ => false

/-- The assignment `internalState.SortedAddressContracts = true`. -/
def isSetSortedAddressContracts : Event → Bool
  | .setSortedAddressContracts true => true
  | _ => false

/-- A call of `index.StoreInternalState`. -/
def isStore : Event → Bool
  | .StoreInternalState _ _ => true
  | _ => false

/-- The order of the repair passes: no sync operation or statistics pass
comes before a repair pass, and a flag is set only after its pass returned
nil. -/
def repairOrder (r : Run) : Prop :=
  notBefore isSyncOrStats isRepairPass r.trace ∧
  onlyAfter isFixUtxosOk isSetUtxoChecked r.trace ∧
  onlyAfter isSortAddressContractsOk isSetSortedAddressContracts r.trace

/-- The events of a start-up without fault, up to the load of the internal
state `st0` (base.go 132-185). -/
def startupEvents (env : Env) (st0 : InternalState) : List Event :=
  (if env.prof ≠ "" then [Event.goProfServer env.prof] else []) ++
    [Event.ReadFile env.configFile none, Event.GetCoinNameFromConfig none,
     Event.GetMetrics none, Event.getBlockChainWithRetry none,
     Event.NewRocksDB env.dbPath none, Event.newInternalState (.ok st0)]

/-- The assignment `internalState.DbState = common.DbStateOpen`. -/
def isSetDbStateOpen : Event → Bool
  | .setDbState DbState.DbStateOpen => true
  | _ => false

/-- A call of `db.NewSyncWorker`. -/
def isNewSyncWorker : Event → Bool
  | .NewSyncWorker _ => true
  | _ => false

/-- `db.NewSyncWorker` returned without error. -/
def isNewSyncWorkerOk : Event → Bool
  | .NewSyncWorker none => true
  | _ => false

/-- A repair pass returned an error. -/
def isFailedRepairPass : Event → Bool
  | .FixUtxos (some _) => true
  | .SortAddressContracts (some _) => true
  | _ => false

/-- When `DbState` is set to `Open`: never after a failed repair pass; without
the statistics flags, only after the sync worker was constructed; with one of
them, before the statistics pass and without any sync worker. -/
def openOrder (env : Env) (r : Run) : Prop :=
  notBefore isFailedRepairPass isSetDbStateOpen r.trace ∧
  (env.computeFeeStatsFlag = false → env.computeColumnStats = false →
    onlyAfter isNewSyncWorkerOk isSetDbStateOpen r.trace) ∧
  (env.computeFeeStatsFlag = true ∨ env.computeColumnStats = true →
    never isNewSyncWorker r.trace ∧ onlyAfter isSetDbStateOpen isStatsOp r.trace)

/-- The run of `-computefeestats` on a fresh store, every call succeeding. -/
def envFeeStats : Env :=
  { envDefault with computeFeeStatsFlag := true }

/-- What holds of a call `ConnectBlocksParallel(a, b)` that returned `q`:
`-blockheight` is not negative, `-sync` is not set, `a` is
`uint32(blockheight)`, `b` is `uint32(blockuntil)` after `blockuntil` was
replaced by `blockheight` when negative, and `q` is what the call returns. -/
def rangeArgs (env : Env) (a b : Nat) (q : Option Err) : Prop :=
  env.blockFrom ≥ 0 ∧ env.synchronize = false ∧ a = uint32 env.blockFrom ∧
    b = uint32 (if env.blockUntil < 0 then env.blockFrom else env.blockUntil) ∧
    q = env.ConnectBlocksParallel a b

/-- Every call of `ConnectBlocksParallel` in the run is as `rangeArgs` says;
without `-sync` the mempool is not touched. -/
def rangeCall (env : Env) (r : Run) : Prop :=
  (∀ a b q, Event.ConnectBlocksParallel a b q ∈ r.trace → rangeArgs env a b q) ∧
  (env.synchronize = false → never isMempoolOp r.trace)

/-- A run that gets to the range connect with `-blockheight` not negative and
without `-sync` calls `ConnectBlocksParallel`. -/
def rangeCalled (env : Env) (r : Run) : Prop :=
  Event.goStoreInternalStateLoop ∈ r.trace → env.blockFrom ≥ 0 → env.synchronize = false →
    ∃ a b q, Event.ConnectBlocksParallel a b q ∈ r.trace

/-- The run of `-blockheight 10 -blockuntil 5` on a fresh store, every call
succeeding. -/
def envRange : Env :=
  { envDefault with blockFrom := 10, blockUntil := 5 }

/-- After an event of the class `P` exactly the events `rest` follow. -/
def followedBy (P : Event → Bool) (rest : List Event) (tr : List Event) : Prop :=
  ∀ l e r, tr = l ++ e :: r → P e = true → r = rest

/-- The return of `waitForSignalAndShutdown`. -/
def isWaitForSignalAndShutdown : Event → Bool
  | .waitForSignalAndShutdown => true
  | _ => false

/-- The start of `storeInternalStateLoop`. -/
def isGoStoreInternalStateLoop : Event → Bool
  | .goStoreInternalStateLoop => true
  | _ => false

/-- What base.go 366-374 does after the shutdown: with `-sync` the three
trigger channels are closed and the three acknowledgements received; then the
function returns. -/
def closing (env : Env) : List Event :=
  if env.synchronize then
    [Event.close Chan.chanSyncIndex, Event.close Chan.chanSyncMempool,
     Event.close Chan.chanStoreInternalState, Event.recv Chan.chanSyncIndexDone,
     Event.recv Chan.chanSyncMempoolDone, Event.recv Chan.chanStoreInternalStateDone,
     Event.indexClose]
  else [Event.indexClose]

/-- The shutdown of a run: `waitForSignalAndShutdown` comes after the start of
`storeInternalStateLoop`, is followed by `closing`, and the run returns
`exitCodeOK`. -/
def shutdownOrder (env : Env) (r : Run) : Prop :=
  followedBy isWaitForSignalAndShutdown (closing env) r.trace ∧
  onlyAfter isGoStoreInternalStateLoop isWaitForSignalAndShutdown r.trace ∧
  (never isWaitForSignalAndShutdown r.trace ∨ r.exit = exitCodeOK)

/-- A pass whose interruption `mainWithExitCode` tests for
(`err != db.ErrOperationInterrupted`, base.go 228, 305, 351) returned the
interrupted error. -/
def isInterruptedTested : Event → Bool
  | .computeFeeStats _ _ (some Err.ErrOperationInterrupted) => true
  | .ResyncIndex (some Err.ErrOperationInterrupted) => true
  | .ConnectBlocksParallel _ _ (some Err.ErrOperationInterrupted) => true
  | _ => false

/-- A pass whose error `mainWithExitCode` does not compare with
`db.ErrOperationInterrupted` (base.go 190, 200, 238, 262) returned an error. -/
def isFailedUntested : Event → Bool
  | .FixUtxos (some _) => true
  | .SortAddressContracts (some _) => true
  | .ComputeInternalStateColumnStats (some _) => true
  | .performRollback (some _) => true
  | _ => false

/-- How the exit code follows the outcome of the passes. -/
def interruptExit (r : Run) : Prop :=
  (never isInterruptedTested r.trace ∨ r.exit = exitCodeOK) ∧
  (never isFailedUntested r.trace ∨ r.exit = exitCodeFatal)

/-- The run in which `FixUtxos` is interrupted. -/
def envFixUtxosInterrupted : Env :=
  { envDefault with FixUtxos := some Err.ErrOperationInterrupted }

/-- The run in which `SortAddressContracts` is interrupted. -/
def envSortInterrupted : Env :=
  { envDefault with SortAddressContracts := some Err.ErrOperationInterrupted }

/-- The run of `-computedbstats` in which `ComputeInternalStateColumnStats` is
interrupted. -/
def envColumnStatsInterrupted : Env :=
  { envDefault with
    computeColumnStats := true
    ComputeInternalStateColumnStats := some Err.ErrOperationInterrupted }

/-- The run of `-rollback 5` in which `performRollback` is interrupted. -/
def envRollbackInterrupted : Env :=
  { envDefault with
    rollbackHeight := 5
    performRollback := some Err.ErrOperationInterrupted }

/-- The run of `-sync` in which `ResyncIndex` is interrupted. -/
def envResyncInterrupted : Env :=
  { envDefault with
    synchronize := true
    ResyncIndex := some Err.ErrOperationInterrupted }

/-- The run of `-sync` on a fresh store, every call succeeding. -/
def envSync : Env :=
  { envDefault with synchronize := true }

/-- The state of a fresh store: `Closed`, all flags false. -/
def stFresh : InternalState :=
  ⟨DbState.DbStateClosed, false, false, false, false⟩

/-- A checked and sorted store that was marked inconsistent. -/
def stInconsistent : InternalState :=
  ⟨DbState.DbStateInconsistent, true, true, false, false⟩

/-- The run of `-sync` on a store marked inconsistent. -/
def envInconsistent : Env :=
  { envDefault with
    synchronize := true
    newInternalState := .ok stInconsistent }

/-- The run in which the store of the internal state fails. -/
def envStoreFails : Env :=
  { envDefault with StoreInternalState := some (Err.other "write failed") }

/-- The run of `-repair` without `-blockchaincfg`. -/
def envRepair : Env :=
  { envDefault with
    repair := true
    configFile := "" }

/-- The run without `-blockchaincfg`. -/
def envNoConfig : Env :=
  { envDefault with configFile := "" }

/-- The run of `-blockheight 5 -blockuntil 10` on a fresh store, every call
succeeding. -/
def envRangeUp : Env :=
  { envDefault with
    blockFrom := 5
    blockUntil := 10 }

/-- The start-up succeeds and loads the internal state `st0` (base.go
138-185): no `-repair`, a configuration path, and every call up to
`newInternalState` returns without error. -/
def startsUp (env : Env) (st0 : InternalState) : Prop :=
  env.repair = false ∧ env.configFile ≠ "" ∧ env.ReadFile = none ∧
    env.GetCoinNameFromConfig = none ∧ env.GetMetrics = none ∧
    env.getBlockChainWithRetry = none ∧ env.NewRocksDB = none ∧
    env.newInternalState = .ok st0

/-- The test of base.go 188: `FixUtxos` is to be called. -/
def needsFixUtxos (env : Env) (st : InternalState) : Prop :=
  env.fixUtxo = true ∨ st.UtxoChecked = false

/-- `FixUtxos`, when it is to be called, returns nil. -/
def fixUtxosOk (env : Env) (st : InternalState) : Prop :=
  needsFixUtxos env st → env.FixUtxos = none

/-- Each repair pass that is to be called returns nil. -/
def repairsOk (env : Env) (st : InternalState) : Prop :=
  fixUtxosOk env st ∧ (st.SortedAddressContracts = false → env.SortAddressContracts = none)

/-- The run in which `FixUtxos` fails with an error other than the
interrupted one. -/
def envFixUtxosFails : Env :=
  { envDefault with FixUtxos := some (Err.other "utxo mismatch") }

/-- The run in which `SortAddressContracts` fails with an error other than the
interrupted one. -/
def envSortFails : Env :=
  { envDefault with SortAddressContracts := some (Err.other "sort failed") }

/-- The run gets to the statistics test of base.go 225 from the state `st`
loaded at start-up: the repair passes return nil, `-fixutxo` is not set, and
the state is not `Inconsistent`. -/
def getsToStatistics (env : Env) (st : InternalState) : Prop :=
  repairsOk env st ∧ env.fixUtxo = false ∧ st.DbState ≠ DbState.DbStateInconsistent

/-- One of the two statistics flags is set. -/
def statsFlag (env : Env) : Prop :=
  env.computeFeeStatsFlag = true ∨ env.computeColumnStats = true

/-- The run gets to one of the two calls of `StoreInternalState` (base.go 209,
254) from the state `st` loaded at start-up. -/
def getsToStore (env : Env) (st : InternalState) : Prop :=
  repairsOk env st ∧
    (env.fixUtxo = true ∨
      (st.DbState ≠ DbState.DbStateInconsistent ∧ ¬ statsFlag env ∧ env.NewSyncWorker = none))

/-- The run of `-fixutxo` in which the store of the internal state fails. -/
def envFixUtxoStoreFails : Env :=
  { envDefault with
    fixUtxo := true
    StoreInternalState := some (Err.other "write failed") }

/-- The run in which `NewSyncWorker` fails. -/
def envSyncWorkerFails : Env :=
  { envDefault with NewSyncWorker := some (Err.other "no worker") }

/-- The initial sync and the mempool succeed: `ResyncIndex`,
`InitializeMempool` and `mempool.Resync` return without error. -/
def mempoolSynced (env : Env) : Prop :=
  env.ResyncIndex = none ∧ env.InitializeMempool = none ∧ ∃ n, env.mempoolResync = .ok n

/-- From base.go 292 to the synchronisation: the public server starts, and
`-sync` is set. -/
def syncFromPublic (env : Env) : Prop :=
  (env.publicBinding = "" ∨ env.startPublicServer = none) ∧ env.synchronize = true

/-- From base.go 283 to the synchronisation. -/
def syncFromInternal (env : Env) : Prop :=
  (env.internalBinding = "" ∨ env.startInternalServer = none) ∧ syncFromPublic env

/-- From base.go 260 to the synchronisation. -/
def syncFromCaches (env : Env) : Prop :=
  env.rollbackHeight < 0 ∧ env.NewTxCache = none ∧ env.NewFiatRates = none ∧
    syncFromInternal env

/-- From base.go 246 to the synchronisation. -/
def syncFromOpenDb (env : Env) : Prop :=
  env.NewSyncWorker = none ∧ env.StoreInternalState = none ∧ syncFromCaches env

/-- From base.go 225 to the synchronisation. -/
def syncFromStatistics (env : Env) : Prop :=
  ¬ statsFlag env ∧ syncFromOpenDb env

/-- From base.go 207 to the synchronisation, with the state `st` in memory. -/
def syncFromCheck (env : Env) (st : InternalState) : Prop :=
  env.fixUtxo = false ∧ st.DbState ≠ DbState.DbStateInconsistent ∧ syncFromStatistics env

/-- From base.go 197 to the synchronisation, with the state `st` in memory. -/
def syncFromSort (env : Env) (st : InternalState) : Prop :=
  (st.SortedAddressContracts = false → env.SortAddressContracts = none) ∧ syncFromCheck env st

/-- The run with `-sync` gets from the state `st` loaded at start-up to the
synchronisation of base.go 301: every call on the way returns without error,
no one-shot flag is set, and the state is not `Inconsistent`. -/
def getsToSync (env : Env) (st : InternalState) : Prop :=
  fixUtxosOk env st ∧ syncFromSort env st

/-- What is called in the synchronisation of base.go 301-330, what each call
is recorded with, and the exit code after an error, for a run that gets to
the synchronisation exactly under the condition `c`. -/
def syncCalls (env : Env) (c : Prop) (r : Run) : Prop :=
  (∀ q, Event.ResyncIndex q ∈ r.trace ↔ (q = env.ResyncIndex ∧ c)) ∧
  (∀ b q, Event.InitializeMempool b q ∈ r.trace ↔
    (b = env.chainIsBitcoinType ∧ q = env.InitializeMempool ∧ c ∧ env.ResyncIndex = none)) ∧
  (∀ q, Event.mempoolResync q ∈ r.trace ↔
    (q = env.mempoolResync ∧ c ∧ env.ResyncIndex = none ∧ env.InitializeMempool = none)) ∧
  (Event.goSyncIndexLoop ∈ r.trace ↔ (c ∧ mempoolSynced env)) ∧
  (Event.goSyncMempoolLoop ∈ r.trace ↔ (c ∧ mempoolSynced env)) ∧
  (∀ b, Event.setInitialSync b ∈ r.trace ↔ (c ∧ (b = true ∨ mempoolSynced env))) ∧
  (c → ∀ e, env.ResyncIndex = some e →
    r.exit = if e = Err.ErrOperationInterrupted then exitCodeOK else exitCodeFatal) ∧
  (c → env.ResyncIndex = none → ∀ e, env.InitializeMempool = some e →
    r.exit = exitCodeFatal) ∧
  (c → env.ResyncIndex = none → env.InitializeMempool = none →
    ∀ e, env.mempoolResync = .error e → r.exit = exitCodeFatal)

/-- The run of `-sync` in which `ResyncIndex` fails with an error other than
the interrupted one. -/
def envResyncFails : Env :=
  { envDefault with
    synchronize := true
    ResyncIndex := some (Err.other "rpc") }

/-- The run of `-sync` in which `mempool.Resync` fails. -/
def envMempoolFails : Env :=
  { envDefault with
    synchronize := true
    mempoolResync := .error (Err.other "rpc") }
/-! ## Lemmas on traces -/

set_option linter.unreachableTactic false

set_option linter.unusedTactic false

theorem never_nil (P : Event → Bool) : never P [] := by
  intro x hx; cases hx

theorem never_cons (P : Event → Bool) (x : Event) (tr : List Event) :
    never P (x :: tr) ↔ P x = false ∧ never P tr := by
  simp [never]

theorem onlyAfter_nil (A B : Event → Bool) : onlyAfter A B [] := by
  intro l e r h; simp at h

theorem onlyAfter_cons (A B : Event → Bool) (x : Event) (tr : List Event) :
    onlyAfter A B (x :: tr) ↔ B x = false ∧ (A x = true ∨ onlyAfter A B tr) := by
  constructor
  · intro h
    refine ⟨?_, ?_⟩
    · by_contra hb
      obtain ⟨y, hy, _⟩ := h [] x tr rfl (by simpa using hb)
      cases hy
    · by_cases ha : A x = true
      · exact Or.inl ha
      · refine Or.inr ?_
        intro l e r hl hb
        obtain ⟨y, hy, hya⟩ := h (x :: l) e r (by simp [hl]) hb
        rcases List.mem_cons.mp hy with rfl | hy
        · exact absurd hya ha
        · exact ⟨y, hy, hya⟩
  · rintro ⟨hb, h⟩ l e r hl he
    rcases List.cons_eq_append_iff.mp hl with ⟨rfl, h2⟩ | ⟨l2, rfl, h2⟩
    · injection h2 with h3 h4
      subst h3
      simp [hb] at he
    · rcases h with ha | h
      · exact ⟨x, List.mem_cons_self _ _, ha⟩
      · obtain ⟨y, hy, hya⟩ := h l2 e r h2 he
        exact ⟨y, List.mem_cons_of_mem _ hy, hya⟩

theorem onlyAfter_of_never (A B : Event → Bool) (tr : List Event) (h : never B tr) :
    onlyAfter A B tr := by
  intro l e r hl he
  have := h e (by simp [hl])
  simp [this] at he

theorem notBefore_nil (A B : Event → Bool) : notBefore A B [] := by
  intro l e r h; simp at h

theorem notBefore_cons (A B : Event → Bool) (x : Event) (tr : List Event) :
    notBefore A B (x :: tr) ↔ (A x = false ∨ never B tr) ∧ notBefore A B tr := by
  constructor
  · intro h
    refine ⟨?_, ?_⟩
    · by_cases ha : A x = false
      · exact Or.inl ha
      · refine Or.inr ?_
        intro y hy
        by_contra hb
        obtain ⟨l, r, rfl⟩ := List.append_of_mem hy
        exact ha (h (x :: l) y r rfl (by simpa using hb) x (List.mem_cons_self _ _))
    · intro l e r hl he y hy
      exact h (x :: l) e r (by simp [hl]) he y (List.mem_cons_of_mem _ hy)
  · rintro ⟨h1, h2⟩ l e r hl he y hy
    rcases List.cons_eq_append_iff.mp hl with ⟨rfl, _⟩ | ⟨l2, rfl, h3⟩
    · cases hy
    · rcases List.mem_cons.mp hy with rfl | hy
      · rcases h1 with h1 | h1
        · exact h1
        · have := h1 e (by simp [h3])
          simp [this] at he
      · exact h2 l2 e r h3 he y hy

theorem notBefore_of_never (A B : Event → Bool) (tr : List Event) (h : never B tr) :
    notBefore A B tr := by
  intro l e r hl he
  have := h e (by simp [hl])
  simp [this] at he

theorem thenReturns_nil (P : Event → Bool) : thenReturns P [] := by
  intro l e r h; simp at h

theorem thenReturns_cons (P : Event → Bool) (x : Event) (tr : List Event) :
    thenReturns P (x :: tr) ↔
      (P x = false ∨ tr = [Event.indexClose]) ∧ thenReturns P tr := by
  constructor
  · intro h
    refine ⟨?_, ?_⟩
    · by_cases hp : P x = false
      · exact Or.inl hp
      · exact Or.inr (h [] x tr rfl (by simpa using hp))
    · intro l e r hl he
      exact h (x :: l) e r (by simp [hl]) he
  · rintro ⟨h1, h2⟩ l e r hl he
    rcases List.cons_eq_append_iff.mp hl with ⟨rfl, h3⟩ | ⟨l2, rfl, h3⟩
    · injection h3 with h4 h5
      subst h4 h5
      rcases h1 with h1 | h1
      · simp [h1] at he
      · exact h1
    · exact h2 l2 e r h3 he

theorem thenReturns_of_never (P : Event → Bool) (tr : List Event) (h : never P tr) :
    thenReturns P tr := by
  intro l e r hl he
  have := h e (by simp [hl])
  simp [this] at he

theorem holdsAt_nil (P : Event → Bool) (Q : InternalState → Prop) (s : Option InternalState) :
    holdsAt P Q s [] := by
  intro l e r h; simp at h

theorem holdsAt_cons (P : Event → Bool) (Q : InternalState → Prop) (s : Option InternalState)
    (x : Event) (tr : List Event) :
    holdsAt P Q s (x :: tr) ↔
      (P x = false ∨ ∃ st, s = some st ∧ Q st) ∧ holdsAt P Q (applyEvent s x) tr := by
  constructor
  · intro h
    refine ⟨?_, ?_⟩
    · by_cases hp : P x = false
      · exact Or.inl hp
      · exact Or.inr (by simpa [replay] using h [] x tr rfl (by simpa using hp))
    · intro l e r hl he
      simpa [replay] using h (x :: l) e r (by simp [hl]) he
  · rintro ⟨h1, h2⟩ l e r hl he
    rcases List.cons_eq_append_iff.mp hl with ⟨rfl, h3⟩ | ⟨l2, rfl, h3⟩
    · injection h3 with h4 h5
      subst h4 h5
      rcases h1 with h1 | h1
      · simp [h1] at he
      · simpa [replay] using h1
    · simpa [replay] using h2 l2 e r h3 he

theorem holdsAt_of_never (P : Event → Bool) (Q : InternalState → Prop)
    (s : Option InternalState) (tr : List Event) (h : never P tr) : holdsAt P Q s tr := by
  intro l e r hl he
  have := h e (by simp [hl])
  simp [this] at he

theorem fromLine_nil (n : Nat) : fromLine n [] := by
  intro x hx; cases hx

theorem fromLine_cons (n : Nat) (x : Event) (tr : List Event) :
    fromLine n (x :: tr) ↔ n ≤ x.line ∧ fromLine n tr := by
  simp [fromLine]

theorem fromLine_mono (m n : Nat) (tr : List Event) (hmn : m ≤ n) (h : fromLine n tr) :
    fromLine m tr :=
  fun x hx => le_trans hmn (h x hx)

theorem never_of_fromLine (P : Event → Bool) (n : Nat) (tr : List Event)
    (hP : ∀ x, P x = true → x.line < n) (h : fromLine n tr) : never P tr := by
  intro x hx
  by_contra hp
  have h1 := hP x (by simpa using hp)
  have h2 := h x hx
  omega

/-! ## The model: projections -/

@[simp] theorem emit_trace (e : Event) (r : Run) : (emit e r).trace = e :: r.trace := rfl

@[simp] theorem emit_exit (e : Event) (r : Run) : (emit e r).exit = r.exit := rfl

@[simp] theorem emit_is (e : Event) (r : Run) : (emit e r).is = r.is := rfl

@[simp] theorem ret_trace (c : Int) (s : Option InternalState) : (ret c s).trace = [] := rfl

@[simp] theorem ret_exit (c : Int) (s : Option InternalState) : (ret c s).exit = c := rfl

@[simp] theorem ret_is (c : Int) (s : Option InternalState) : (ret c s).is = s := rfl

@[simp] theorem retClose_trace (c : Int) (s : Option InternalState) :
    (retClose c s).trace = [Event.indexClose] := rfl

@[simp] theorem retClose_exit (c : Int) (s : Option InternalState) : (retClose c s).exit = c := rfl

@[simp] theorem retClose_is (c : Int) (s : Option InternalState) : (retClose c s).is = s := rfl

/-! ## Where the events of each part of `mainWithExitCode` lie -/

theorem line_closeLoops (env : Env) (st : InternalState) :
    fromLine 366 (closeLoops env st).trace := by
  unfold closeLoops
  split <;> simp [fromLine_cons, fromLine_nil, Event.line]

theorem line_shutdown (env : Env) (st : InternalState) (i p : Bool) :
    fromLine 360 (shutdown env st i p).trace := by
  have h := fun st => fromLine_mono 360 366 _ (by decide) (line_closeLoops env st)
  unfold shutdown
  split <;> simp [fromLine_cons, fromLine_nil, Event.line, h]

theorem line_rangeConnect (env : Env) (st : InternalState) (i p : Bool) :
    fromLine 342 (rangeConnect env st i p).trace := by
  have h := fun st i p => fromLine_mono 342 360 _ (by decide) (line_shutdown env st i p)
  simp only [rangeConnect]
  repeat' split
  all_goals simp [fromLine_cons, fromLine_nil, Event.line, h]

theorem line_storeLoop (env : Env) (st : InternalState) (i p : Bool) :
    fromLine 331 (storeLoop env st i p).trace := by
  have h := fun st i p => fromLine_mono 331 342 _ (by decide) (line_rangeConnect env st i p)
  unfold storeLoop
  repeat' split
  all_goals simp [fromLine_cons, fromLine_nil, Event.line, h]

theorem line_initialSync (env : Env) (st : InternalState) (i p : Bool) :
    fromLine 301 (initialSync env st i p).trace := by
  have h := fun st i p => fromLine_mono 301 331 _ (by decide) (line_storeLoop env st i p)
  simp only [initialSync]
  repeat' split
  all_goals simp [fromLine_cons, fromLine_nil, Event.line, h]

theorem line_publicServerStart (env : Env) (st : InternalState) (i : Bool) :
    fromLine 292 (publicServerStart env st i).trace := by
  have h := fun st i p => fromLine_mono 292 301 _ (by decide) (line_initialSync env st i p)
  unfold publicServerStart
  repeat' split
  all_goals simp [fromLine_cons, fromLine_nil, Event.line, h]

theorem line_internalServerStart (env : Env) (st : InternalState) :
    fromLine 283 (internalServerStart env st).trace := by
  have h := fun st i => fromLine_mono 283 292 _ (by decide) (line_publicServerStart env st i)
  unfold internalServerStart
  repeat' split
  all_goals simp [fromLine_cons, fromLine_nil, Event.line, h]

theorem line_rollbackOrCaches (env : Env) (st : InternalState) :
    fromLine 260 (rollbackOrCaches env st).trace := by
  have h := fun st => fromLine_mono 260 283 _ (by decide) (line_internalServerStart env st)
  unfold rollbackOrCaches
  repeat' split
  all_goals simp [fromLine_cons, fromLine_nil, Event.line, h]

theorem line_openDb (env : Env) (st : InternalState) :
    fromLine 246 (openDb env st).trace := by
  have h := fun st => fromLine_mono 246 260 _ (by decide) (line_rollbackOrCaches env st)
  simp only [openDb]
  repeat' split
  all_goals simp [fromLine_cons, fromLine_nil, Event.line, h]

theorem line_statistics (env : Env) (st : InternalState) :
    fromLine 225 (statistics env st).trace := by
  have h := fun st => fromLine_mono 225 246 _ (by decide) (line_openDb env st)
  simp only [statistics]
  repeat' split
  all_goals simp [fromLine_cons, fromLine_nil, Event.line, h]

theorem line_checkDbState (env : Env) (st : InternalState) :
    fromLine 207 (checkDbState env st).trace := by
  have h := fun st => fromLine_mono 207 225 _ (by decide) (line_statistics env st)
  simp only [checkDbState]
  repeat' split
  all_goals simp [fromLine_cons, fromLine_nil, Event.line, h]

theorem line_sortAddressContracts (env : Env) (st : InternalState) :
    fromLine 197 (sortAddressContracts env st).trace := by
  have h := fun st => fromLine_mono 197 207 _ (by decide) (line_checkDbState env st)
  simp only [sortAddressContracts]
  repeat' split
  all_goals simp [fromLine_cons, fromLine_nil, Event.line, h]

theorem line_fixUtxos (env : Env) (st : InternalState) :
    fromLine 187 (fixUtxos env st).trace := by
  have h := fun st => fromLine_mono 187 197 _ (by decide) (line_sortAddressContracts env st)
  simp only [fixUtxos]
  repeat' split
  all_goals simp [fromLine_cons, fromLine_nil, Event.line, h]

theorem line_withIndex (env : Env) :
    fromLine 181 (withIndex env).trace := by
  have h := fun st => fromLine_mono 181 187 _ (by decide) (line_fixUtxos env st)
  simp only [withIndex]
  repeat' split
  all_goals simp [fromLine_cons, fromLine_nil, Event.line, h]

/-! ## The exit code is one of the two constants -/

theorem okOrFatal_emit (e : Event) (r : Run) : okOrFatal (emit e r) ↔ okOrFatal r := Iff.rfl

theorem okOrFatal_ret (c : Int) (s : Option InternalState) :
    okOrFatal (ret c s) ↔ (c = exitCodeOK ∨ c = exitCodeFatal) := Iff.rfl

theorem okOrFatal_retClose (c : Int) (s : Option InternalState) :
    okOrFatal (retClose c s) ↔ (c = exitCodeOK ∨ c = exitCodeFatal) := Iff.rfl

theorem exit_closeLoops (env : Env) (st : InternalState) : okOrFatal (closeLoops env st) := by
  simp only [closeLoops]
  repeat' split
  all_goals simp [okOrFatal_emit, okOrFatal_ret, okOrFatal_retClose]

theorem exit_shutdown (env : Env) (st : InternalState) (i p : Bool) :
    okOrFatal (shutdown env st i p) := by
  have h := exit_closeLoops env
  simp only [shutdown]
  repeat' split
  all_goals simp [okOrFatal_emit, okOrFatal_ret, okOrFatal_retClose, h]

theorem exit_rangeConnect (env : Env) (st : InternalState) (i p : Bool) :
    okOrFatal (rangeConnect env st i p) := by
  have h := exit_shutdown env
  simp only [rangeConnect]
  repeat' split
  all_goals simp [okOrFatal_emit, okOrFatal_ret, okOrFatal_retClose, h]

theorem exit_storeLoop (env : Env) (st : InternalState) (i p : Bool) :
    okOrFatal (storeLoop env st i p) := by
  have h := exit_rangeConnect env
  simp only [storeLoop]
  repeat' split
  all_goals simp [okOrFatal_emit, okOrFatal_ret, okOrFatal_retClose, h]

theorem exit_initialSync (env : Env) (st : InternalState) (i p : Bool) :
    okOrFatal (initialSync env st i p) := by
  have h := exit_storeLoop env
  simp only [initialSync]
  repeat' split
  all_goals simp [okOrFatal_emit, okOrFatal_ret, okOrFatal_retClose, h]

theorem exit_publicServerStart (env : Env) (st : InternalState) (i : Bool) :
    okOrFatal (publicServerStart env st i) := by
  have h := exit_initialSync env
  simp only [publicServerStart]
  repeat' split
  all_goals simp [okOrFatal_emit, okOrFatal_ret, okOrFatal_retClose, h]

theorem exit_internalServerStart (env : Env) (st : InternalState) :
    okOrFatal (internalServerStart env st) := by
  have h := exit_publicServerStart env
  simp only [internalServerStart]
  repeat' split
  all_goals simp [okOrFatal_emit, okOrFatal_ret, okOrFatal_retClose, h]

theorem exit_rollbackOrCaches (env : Env) (st : InternalState) :
    okOrFatal (rollbackOrCaches env st) := by
  have h := exit_internalServerStart env
  simp only [rollbackOrCaches]
  repeat' split
  all_goals simp [okOrFatal_emit, okOrFatal_ret, okOrFatal_retClose, h]

theorem exit_openDb (env : Env) (st : InternalState) : okOrFatal (openDb env st) := by
  have h := exit_rollbackOrCaches env
  simp only [openDb]
  repeat' split
  all_goals simp [okOrFatal_emit, okOrFatal_ret, okOrFatal_retClose, h]

theorem exit_statistics (env : Env) (st : InternalState) : okOrFatal (statistics env st) := by
  have h := exit_openDb env
  simp only [statistics]
  repeat' split
  all_goals simp [okOrFatal_emit, okOrFatal_ret, okOrFatal_retClose, h]

theorem exit_checkDbState (env : Env) (st : InternalState) : okOrFatal (checkDbState env st) := by
  have h := exit_statistics env
  simp only [checkDbState]
  repeat' split
  all_goals simp [okOrFatal_emit, okOrFatal_ret, okOrFatal_retClose, h]

theorem exit_sortAddressContracts (env : Env) (st : InternalState) :
    okOrFatal (sortAddressContracts env st) := by
  have h := exit_checkDbState env
  simp only [sortAddressContracts]
  repeat' split
  all_goals simp [okOrFatal_emit, okOrFatal_ret, okOrFatal_retClose, h]

theorem exit_fixUtxos (env : Env) (st : InternalState) : okOrFatal (fixUtxos env st) := by
  have h := exit_sortAddressContracts env
  simp only [fixUtxos]
  repeat' split
  all_goals simp [okOrFatal_emit, okOrFatal_ret, okOrFatal_retClose, h]

theorem exit_withIndex (env : Env) : okOrFatal (withIndex env) := by
  have h := exit_fixUtxos env
  simp only [withIndex]
  repeat' split
  all_goals simp [okOrFatal_emit, okOrFatal_ret, okOrFatal_retClose, h]

theorem exit_startup (env : Env) : okOrFatal (startup env) := by
  have h := exit_withIndex env
  simp only [startup]
  repeat' split
  all_goals simp [okOrFatal_emit, okOrFatal_ret, okOrFatal_retClose, h]

theorem exit_repairOrStartup (env : Env) : okOrFatal (repairOrStartup env) := by
  have h := exit_startup env
  simp only [repairOrStartup]
  repeat' split
  all_goals simp [okOrFatal_emit, okOrFatal_ret, okOrFatal_retClose, h]

theorem exit_mainWithExitCode (env : Env) : okOrFatal (mainWithExitCode env) := by
  have h := exit_repairOrStartup env
  simp only [mainWithExitCode]
  repeat' split
  all_goals simp [okOrFatal_emit, okOrFatal_ret, okOrFatal_retClose, h]

/-! ## The assignments of the trace and the state at return agree -/

theorem replay_nil (s : Option InternalState) : replay s [] = s := rfl

theorem replay_cons (s : Option InternalState) (x : Event) (tr : List Event) :
    replay s (x :: tr) = replay (applyEvent s x) tr := rfl

theorem replay_closeLoops (env : Env) (st : InternalState) :
    replay (some st) (closeLoops env st).trace = (closeLoops env st).is := by
  simp only [closeLoops]
  repeat' split
  all_goals simp [replay_cons, replay_nil, applyEvent]

theorem replay_shutdown (env : Env) (st : InternalState) (i p : Bool) :
    replay (some st) (shutdown env st i p).trace = (shutdown env st i p).is := by
  have h := fun st => replay_closeLoops env st
  simp only [shutdown]
  repeat' split
  all_goals simp [replay_cons, replay_nil, applyEvent, h]

theorem replay_rangeConnect (env : Env) (st : InternalState) (i p : Bool) :
    replay (some st) (rangeConnect env st i p).trace = (rangeConnect env st i p).is := by
  have h := fun st i p => replay_shutdown env st i p
  simp only [rangeConnect]
  repeat' split
  all_goals simp [replay_cons, replay_nil, applyEvent, h]

theorem replay_storeLoop (env : Env) (st : InternalState) (i p : Bool) :
    replay (some st) (storeLoop env st i p).trace = (storeLoop env st i p).is := by
  have h := fun st i p => replay_rangeConnect env st i p
  simp only [storeLoop]
  repeat' split
  all_goals simp [replay_cons, replay_nil, applyEvent, h]

theorem replay_initialSync (env : Env) (st : InternalState) (i p : Bool) :
    replay (some st) (initialSync env st i p).trace = (initialSync env st i p).is := by
  have h := fun st i p => replay_storeLoop env st i p
  simp only [initialSync]
  repeat' split
  all_goals simp [replay_cons, replay_nil, applyEvent, h]

theorem replay_publicServerStart (env : Env) (st : InternalState) (i : Bool) :
    replay (some st) (publicServerStart env st i).trace = (publicServerStart env st i).is := by
  have h := fun st i p => replay_initialSync env st i p
  simp only [publicServerStart]
  repeat' split
  all_goals simp [replay_cons, replay_nil, applyEvent, h]

theorem replay_internalServerStart (env : Env) (st : InternalState) :
    replay (some st) (internalServerStart env st).trace = (internalServerStart env st).is := by
  have h := fun st i => replay_publicServerStart env st i
  simp only [internalServerStart]
  repeat' split
  all_goals simp [replay_cons, replay_nil, applyEvent, h]

theorem replay_rollbackOrCaches (env : Env) (st : InternalState) :
    replay (some st) (rollbackOrCaches env st).trace = (rollbackOrCaches env st).is := by
  have h := fun st => replay_internalServerStart env st
  simp only [rollbackOrCaches]
  repeat' split
  all_goals simp [replay_cons, replay_nil, applyEvent, h]

theorem replay_openDb (env : Env) (st : InternalState) :
    replay (some st) (openDb env st).trace = (openDb env st).is := by
  have h := fun st => replay_rollbackOrCaches env st
  simp only [openDb]
  repeat' split
  all_goals simp [replay_cons, replay_nil, applyEvent, h]

theorem replay_statistics (env : Env) (st : InternalState) :
    replay (some st) (statistics env st).trace = (statistics env st).is := by
  have h := fun st => replay_openDb env st
  simp only [statistics]
  repeat' split
  all_goals simp [replay_cons, replay_nil, applyEvent, h]

theorem replay_checkDbState (env : Env) (st : InternalState) :
    replay (some st) (checkDbState env st).trace = (checkDbState env st).is := by
  have h := fun st => replay_statistics env st
  simp only [checkDbState]
  repeat' split
  all_goals simp [replay_cons, replay_nil, applyEvent, h]

theorem replay_sortAddressContracts (env : Env) (st : InternalState) :
    replay (some st) (sortAddressContracts env st).trace = (sortAddressContracts env st).is := by
  have h := fun st => replay_checkDbState env st
  simp only [sortAddressContracts]
  repeat' split
  all_goals simp [replay_cons, replay_nil, applyEvent, h]

theorem replay_fixUtxos (env : Env) (st : InternalState) :
    replay (some st) (fixUtxos env st).trace = (fixUtxos env st).is := by
  have h := fun st => replay_sortAddressContracts env st
  simp only [fixUtxos]
  repeat' split
  all_goals simp [replay_cons, replay_nil, applyEvent, h]

/-- Replaying the assignments recorded in the trace of a run gives the
in-memory state the run returns with. -/
theorem replay_mainWithExitCode (env : Env) :
    replay none (mainWithExitCode env).trace = (mainWithExitCode env).is := by
  have h := fun st => replay_fixUtxos env st
  simp only [mainWithExitCode, repairOrStartup, startup, withIndex, RepairRocksDB]
  repeat' split
  all_goals simp [replay_cons, replay_nil, applyEvent, h]

/-! ## C6: the repair run -/

/-- C6: with `-repair`, whatever the other flags (an empty `-blockchaincfg`
included), the run consists of one call of `RepairRocksDB` with the `-datadir`
path (after the start of the profiling listener when `-prof` is given) and of
nothing else: no configuration read, no chain adapter, no store open, no
internal-state load. It returns `exitCodeOK` exactly when the repair returned
nil and `exitCodeFatal` otherwise, and `RepairRocksDB name` is the result of the
store's `RepairDb` on `name`. -/
theorem C6_repair_run (env : Env) (h : env.repair = true) :
    (mainWithExitCode env).trace =
        (if env.prof ≠ "" then [Event.goProfServer env.prof] else []) ++
          [Event.RepairRocksDB env.dbPath (env.RepairDb env.dbPath)] ∧
      ((mainWithExitCode env).exit = exitCodeOK ↔ env.RepairDb env.dbPath = none) ∧
      ((mainWithExitCode env).exit = exitCodeFatal ↔ env.RepairDb env.dbPath ≠ none) ∧
      (mainWithExitCode env).is = none ∧
      ∀ name, RepairRocksDB env.RepairDb name = env.RepairDb name := by
  simp only [mainWithExitCode, repairOrStartup, RepairRocksDB, h]
  cases hr : env.RepairDb env.dbPath <;> by_cases hp : env.prof = "" <;>
    simp [hp, exitCodeOK, exitCodeFatal]

theorem C6_repair_run_witness :
    envRepair.repair = true ∧
      (mainWithExitCode envRepair).trace = [Event.RepairRocksDB "./mydb" none] ∧
      (mainWithExitCode envRepair).exit = exitCodeOK := by
  have h := C6_repair_run envRepair rfl
  exact ⟨rfl, by simpa [envRepair, envDefault] using h.1, h.2.1.mpr rfl⟩

/-! ## C8: faults at start-up -/

/-- C8: without `-repair`, when the `-blockchaincfg` path is empty, or reading
the configuration file fails, or the coin name cannot be read, or `NewRocksDB`
fails, `mainWithExitCode` returns `exitCodeFatal`, which is 255, is not zero and
differs from `exitCodeOK`; no repair, repair pass, sync operation, rollback or
statistics pass is invoked. Every run returns 0 or 255. -/
theorem C8_startup_fault (env : Env) (hr : env.repair = false)
    (hf : env.configFile = "" ∨ env.ReadFile ≠ none ∨ env.GetCoinNameFromConfig ≠ none ∨
      env.NewRocksDB ≠ none) :
    (mainWithExitCode env).exit = exitCodeFatal ∧
      exitCodeFatal = 255 ∧ exitCodeFatal ≠ 0 ∧ exitCodeFatal ≠ exitCodeOK ∧
      never isEngineOp (mainWithExitCode env).trace ∧
      (mainWithExitCode env).is = none ∧
      ∀ env2 : Env, (mainWithExitCode env2).exit = 0 ∨ (mainWithExitCode env2).exit = 255 := by
  refine ⟨?_, rfl, by decide, by decide, ?_, ?_, fun env2 => exit_mainWithExitCode env2⟩
  all_goals
    simp only [mainWithExitCode, repairOrStartup, hr, startup]
    repeat' split
    all_goals simp_all [never_cons, never_nil, isEngineOp, isRepairPass, isSyncOp, isStatsOp]

theorem C8_startup_fault_witness :
    envNoConfig.repair = false ∧ envNoConfig.configFile = "" ∧
      (mainWithExitCode envNoConfig).exit = exitCodeFatal ∧
      never isEngineOp (mainWithExitCode envNoConfig).trace := by
  have h := C8_startup_fault envNoConfig rfl (Or.inl rfl)
  exact ⟨rfl, rfl, h.1, h.2.2.2.2.1⟩

/-! ## C3: an inconsistent database is refused -/

theorem refused_checkDbState (env : Env) (st : InternalState)
    (h : st.DbState = DbState.DbStateInconsistent) :
    never isOpenOrSync (checkDbState env st).trace ∧ staysInconsistent (checkDbState env st) ∧
      (env.fixUtxo = false → (checkDbState env st).exit = exitCodeFatal) := by
  simp only [checkDbState]
  repeat' split
  all_goals simp_all [never_cons, never_nil, isOpenOrSync, isSyncOp, staysInconsistent]

theorem refused_sortAddressContracts (env : Env) (st : InternalState)
    (h : st.DbState = DbState.DbStateInconsistent) :
    never isOpenOrSync (sortAddressContracts env st).trace ∧
      staysInconsistent (sortAddressContracts env st) ∧
      (env.fixUtxo = false → (sortAddressContracts env st).exit = exitCodeFatal) := by
  have h1 := refused_checkDbState env st h
  have h2 := refused_checkDbState env { st with SortedAddressContracts := true } h
  simp only [sortAddressContracts]
  repeat' split
  all_goals simp_all [never_cons, never_nil, isOpenOrSync, isSyncOp, staysInconsistent]

theorem refused_fixUtxos (env : Env) (st : InternalState)
    (h : st.DbState = DbState.DbStateInconsistent) :
    never isOpenOrSync (fixUtxos env st).trace ∧ staysInconsistent (fixUtxos env st) ∧
      (env.fixUtxo = false → (fixUtxos env st).exit = exitCodeFatal) := by
  have h1 := refused_sortAddressContracts env st h
  have h2 := refused_sortAddressContracts env { st with UtxoChecked := true } h
  simp only [fixUtxos]
  repeat' split
  all_goals simp_all [never_cons, never_nil, isOpenOrSync, isSyncOp, staysInconsistent]

/-- C3: in a run without `-repair` whose loaded internal state has
`DbState = Inconsistent`, whatever the other flags and the outcomes of the
calls, `DbState` is never assigned `Open`, none of `NewSyncWorker`,
`performRollback`, `ResyncIndex`, `ConnectBlocksParallel`, `InitializeMempool`
and `mempool.Resync` is called, and the state in memory at return is still
`Inconsistent`; unless `-fixutxo` is given the run ends with `exitCodeFatal`. -/
theorem C3_inconsistent_refused (env : Env) (st0 : InternalState) (hr : env.repair = false)
    (hl : env.newInternalState = .ok st0) (hi : st0.DbState = DbState.DbStateInconsistent) :
    never isOpenOrSync (mainWithExitCode env).trace ∧
      staysInconsistent (mainWithExitCode env) ∧
      (env.fixUtxo = false → (mainWithExitCode env).exit = exitCodeFatal) := by
  have h1 := refused_fixUtxos env st0 hi
  simp only [mainWithExitCode, repairOrStartup, hr, startup, withIndex, hl]
  repeat' split
  all_goals simp_all [never_cons, never_nil, isOpenOrSync, isSyncOp, staysInconsistent]

theorem C3_inconsistent_refused_witness :
    envInconsistent.repair = false ∧ envInconsistent.newInternalState = .ok stInconsistent ∧
      stInconsistent.DbState = DbState.DbStateInconsistent ∧
      never isOpenOrSync (mainWithExitCode envInconsistent).trace ∧
      (mainWithExitCode envInconsistent).exit = exitCodeFatal := by
  have h := C3_inconsistent_refused envInconsistent stInconsistent rfl rfl rfl
  exact ⟨rfl, rfl, rfl, h.1, h.2.2 rfl⟩

/-! ## C4: the repair passes and their flags -/

theorem not_mem_of_fromLine (n : Nat) (tr : List Event) (x : Event) (h : fromLine n tr)
    (hx : x.line < n) : x ∉ tr := by
  intro hm
  have := h x hm
  omega

theorem noRepair_checkDbState (env : Env) (st : InternalState) :
    never isRepairPass (checkDbState env st).trace ∧
      never isSetUtxoChecked (checkDbState env st).trace ∧
      never isSetSortedAddressContracts (checkDbState env st).trace := by
  have hl := line_checkDbState env st
  refine ⟨?_, ?_, ?_⟩
  · exact never_of_fromLine _ 207 _
      (by intro x hx; cases x <;> simp_all [isRepairPass, Event.line]) hl
  · exact never_of_fromLine _ 207 _
      (by intro x hx; cases x <;> simp_all [isSetUtxoChecked, Event.line]) hl
  · exact never_of_fromLine _ 207 _
      (by intro x hx; cases x <;> simp_all [isSetSortedAddressContracts, Event.line]) hl

theorem repairOrder_checkDbState (env : Env) (st : InternalState) :
    repairOrder (checkDbState env st) := by
  obtain ⟨n1, n2, n3⟩ := noRepair_checkDbState env st
  exact ⟨notBefore_of_never _ _ _ n1, onlyAfter_of_never _ _ _ n2, onlyAfter_of_never _ _ _ n3⟩

theorem repairOrder_sortAddressContracts (env : Env) (st : InternalState) :
    repairOrder (sortAddressContracts env st) := by
  have h := fun st => repairOrder_checkDbState env st
  have hn := fun st => noRepair_checkDbState env st
  simp only [repairOrder] at h ⊢
  simp only [sortAddressContracts]
  repeat' split
  all_goals simp [notBefore_cons, notBefore_nil, onlyAfter_cons, onlyAfter_nil, never_cons,
    never_nil, isSyncOrStats, isSyncOp, isStatsOp, isRepairPass, isFixUtxosOk,
    isSortAddressContractsOk, isSetUtxoChecked, isSetSortedAddressContracts, hn, h]

theorem repairOrder_fixUtxos (env : Env) (st : InternalState) :
    repairOrder (fixUtxos env st) := by
  have h := fun st => repairOrder_sortAddressContracts env st
  simp only [repairOrder] at h ⊢
  simp only [fixUtxos]
  repeat' split
  all_goals simp [notBefore_cons, notBefore_nil, onlyAfter_cons, onlyAfter_nil, never_cons,
    never_nil, isSyncOrStats, isSyncOp, isStatsOp, isRepairPass, isFixUtxosOk,
    isSortAddressContractsOk, isSetUtxoChecked, isSetSortedAddressContracts, h]

theorem repairOrder_mainWithExitCode (env : Env) : repairOrder (mainWithExitCode env) := by
  have h := fun st => repairOrder_fixUtxos env st
  simp only [repairOrder] at h ⊢
  simp only [mainWithExitCode, repairOrStartup, startup, withIndex, RepairRocksDB]
  repeat' split
  all_goals simp [notBefore_cons, notBefore_nil, onlyAfter_cons, onlyAfter_nil, never_cons,
    never_nil, isSyncOrStats, isSyncOp, isStatsOp, isRepairPass, isFixUtxosOk,
    isSortAddressContractsOk, isSetUtxoChecked, isSetSortedAddressContracts, h]

theorem never_append (P : Event → Bool) (a b : List Event) :
    never P (a ++ b) ↔ never P a ∧ never P b := by
  simp only [never, List.mem_append]
  constructor
  · intro h
    exact ⟨fun x hx => h x (Or.inl hx), fun x hx => h x (Or.inr hx)⟩
  · rintro ⟨h1, h2⟩ x (hx | hx)
    · exact h1 x hx
    · exact h2 x hx

theorem noStore_startupEvents (env : Env) (st0 : InternalState) :
    never isStore (startupEvents env st0) := by
  unfold startupEvents
  split <;> simp [never_cons, never_nil, isStore]

/-! ## The start-up and the repair passes, from the outcomes of the calls -/

theorem run_of_startsUp (env : Env) (st0 : InternalState) (h : startsUp env st0) :
    (mainWithExitCode env).trace = startupEvents env st0 ++ (fixUtxos env st0).trace ∧
      (mainWithExitCode env).exit = (fixUtxos env st0).exit ∧
      (mainWithExitCode env).is = (fixUtxos env st0).is := by
  obtain ⟨h1, h2, h3, h4, h5, h6, h7, h8⟩ := h
  simp only [mainWithExitCode, repairOrStartup, startup, withIndex, startupEvents]
  simp only [h1, h2, h3, h4, h5, h6, h7, h8]
  split <;> simp

theorem line_startupEvents (env : Env) (st0 : InternalState) :
    ∀ x ∈ startupEvents env st0, x.line ≤ 181 := by
  unfold startupEvents
  split <;> simp [Event.line]

theorem mem_after_startup (env : Env) (st0 : InternalState) (t : List Event) (x : Event)
    (hx : 181 < x.line) : x ∈ startupEvents env st0 ++ t ↔ x ∈ t := by
  rw [List.mem_append]
  constructor
  · rintro (h | h)
    · have := line_startupEvents env st0 x h
      omega
    · exact h
  · exact Or.inr

theorem calls_sortAddressContracts (env : Env) (st : InternalState) :
    (∀ x, Event.SortAddressContracts x ∈ (sortAddressContracts env st).trace ↔
        (st.SortedAddressContracts = false ∧ x = env.SortAddressContracts)) ∧
      (∀ b, Event.setSortedAddressContracts b ∈ (sortAddressContracts env st).trace ↔
        (b = true ∧ st.SortedAddressContracts = false ∧ env.SortAddressContracts = none)) ∧
      (∀ e, st.SortedAddressContracts = false → env.SortAddressContracts = some e →
        (sortAddressContracts env st).trace =
            [Event.SortAddressContracts (some e), Event.indexClose] ∧
          (sortAddressContracts env st).exit = exitCodeFatal ∧
          (sortAddressContracts env st).is = some st) := by
  have hl := fun st => line_checkDbState env st
  have h1 := fun st x => not_mem_of_fromLine 207 _ (Event.SortAddressContracts x) (hl st)
    (by simp [Event.line])
  have h2 := fun st b => not_mem_of_fromLine 207 _ (Event.setSortedAddressContracts b) (hl st)
    (by simp [Event.line])
  refine ⟨?_, ?_, ?_⟩
  all_goals
    simp only [sortAddressContracts]
    repeat' split
    all_goals simp_all

theorem calls_fixUtxos (env : Env) (st : InternalState) :
    (∀ x, Event.FixUtxos x ∈ (fixUtxos env st).trace ↔
        (needsFixUtxos env st ∧ x = env.FixUtxos)) ∧
      (∀ b, Event.setUtxoChecked b ∈ (fixUtxos env st).trace ↔
        (b = true ∧ needsFixUtxos env st ∧ env.FixUtxos = none)) ∧
      (∀ e, needsFixUtxos env st → env.FixUtxos = some e →
        (fixUtxos env st).trace = [Event.FixUtxos (some e), Event.indexClose] ∧
          (fixUtxos env st).exit = exitCodeFatal ∧ (fixUtxos env st).is = some st) ∧
      (∀ x, Event.SortAddressContracts x ∈ (fixUtxos env st).trace ↔
        (st.SortedAddressContracts = false ∧ fixUtxosOk env st ∧
          x = env.SortAddressContracts)) ∧
      (∀ b, Event.setSortedAddressContracts b ∈ (fixUtxos env st).trace ↔
        (b = true ∧ st.SortedAddressContracts = false ∧ fixUtxosOk env st ∧
          env.SortAddressContracts = none)) ∧
      (∀ e, fixUtxosOk env st → st.SortedAddressContracts = false →
        env.SortAddressContracts = some e →
        (fixUtxos env st).exit = exitCodeFatal ∧
          (∃ s, (fixUtxos env st).is = some s ∧ s.SortedAddressContracts = false) ∧
          never isStore (fixUtxos env st).trace) := by
  have hl := fun st => line_sortAddressContracts env st
  have h1 := fun st x => not_mem_of_fromLine 197 _ (Event.FixUtxos x) (hl st)
    (by simp [Event.line])
  have h2 := fun st b => not_mem_of_fromLine 197 _ (Event.setUtxoChecked b) (hl st)
    (by simp [Event.line])
  have s1 := fun st => (calls_sortAddressContracts env st).1
  have s2 := fun st => (calls_sortAddressContracts env st).2.1
  have s3 := fun st => (calls_sortAddressContracts env st).2.2
  refine ⟨?_, ?_, ?_, ?_, ?_, ?_⟩
  · simp only [fixUtxos, needsFixUtxos]
    repeat' split
    all_goals simp_all
  · simp only [fixUtxos, needsFixUtxos]
    repeat' split
    all_goals simp_all
  · simp only [fixUtxos, needsFixUtxos]
    repeat' split
    all_goals simp_all
  · simp only [fixUtxos, needsFixUtxos, fixUtxosOk]
    repeat' split
    all_goals simp_all
  · simp only [fixUtxos, needsFixUtxos, fixUtxosOk]
    repeat' split
    all_goals simp_all
  · intro e hf hs he
    simp only [fixUtxos, needsFixUtxos, fixUtxosOk] at hf ⊢
    repeat' split
    all_goals simp_all [never_cons, never_nil, isStore]

theorem noStore_of_failed_fix (e : Err) :
    never isStore [Event.FixUtxos (some e), Event.indexClose] := by
  simp [never_cons, never_nil, isStore]

/-- C4, as the code has it: in a run whose start-up succeeds and loads the
internal state `st0`, `FixUtxos` is called exactly when `-fixutxo` is set or
`UtxoChecked` is false, and `SortAddressContracts` exactly when
`SortedAddressContracts` is false and `FixUtxos` was not to be called or
returned nil; each recorded call carries what the call returned; no sync
operation or statistics pass comes before a repair pass; a flag is set to true
exactly when its pass was called and returned nil; and when a pass returns an
error (the interrupted error included) the run returns `exitCodeFatal` with
that flag at its loaded value and without any call of `StoreInternalState`. -/
theorem C4_repair_gated_by_flags (env : Env) (st0 : InternalState) (hu : startsUp env st0) :
    (∀ x, Event.FixUtxos x ∈ (mainWithExitCode env).trace ↔
        (needsFixUtxos env st0 ∧ x = env.FixUtxos)) ∧
      (∀ x, Event.SortAddressContracts x ∈ (mainWithExitCode env).trace ↔
        (st0.SortedAddressContracts = false ∧ fixUtxosOk env st0 ∧
          x = env.SortAddressContracts)) ∧
      notBefore isSyncOrStats isRepairPass (mainWithExitCode env).trace ∧
      (∀ b, Event.setUtxoChecked b ∈ (mainWithExitCode env).trace ↔
        (b = true ∧ needsFixUtxos env st0 ∧ env.FixUtxos = none)) ∧
      (∀ b, Event.setSortedAddressContracts b ∈ (mainWithExitCode env).trace ↔
        (b = true ∧ st0.SortedAddressContracts = false ∧ fixUtxosOk env st0 ∧
          env.SortAddressContracts = none)) ∧
      onlyAfter isFixUtxosOk isSetUtxoChecked (mainWithExitCode env).trace ∧
      onlyAfter isSortAddressContractsOk isSetSortedAddressContracts
        (mainWithExitCode env).trace ∧
      (∀ e, needsFixUtxos env st0 → env.FixUtxos = some e →
        (mainWithExitCode env).exit = exitCodeFatal ∧
          (mainWithExitCode env).is = some st0 ∧
          never isStore (mainWithExitCode env).trace) ∧
      (∀ e, fixUtxosOk env st0 → st0.SortedAddressContracts = false →
        env.SortAddressContracts = some e →
        (mainWithExitCode env).exit = exitCodeFatal ∧
          (∃ s, (mainWithExitCode env).is = some s ∧ s.SortedAddressContracts = false) ∧
          never isStore (mainWithExitCode env).trace) := by
  obtain ⟨o1, o2, o3⟩ := repairOrder_mainWithExitCode env
  obtain ⟨ht, he, hi⟩ := run_of_startsUp env st0 hu
  obtain ⟨f1, f2, f3, f4, f5, f6⟩ := calls_fixUtxos env st0
  have hn : never isStore (mainWithExitCode env).trace ↔
      never isStore (fixUtxos env st0).trace := by
    rw [ht, never_append]
    simp [noStore_startupEvents]
  refine ⟨?_, ?_, o1, ?_, ?_, o2, o3, ?_, ?_⟩
  · intro x
    rw [ht, mem_after_startup _ _ _ _ (by simp [Event.line])]
    exact f1 x
  · intro x
    rw [ht, mem_after_startup _ _ _ _ (by simp [Event.line])]
    exact f4 x
  · intro b
    rw [ht, mem_after_startup _ _ _ _ (by simp [Event.line])]
    exact f2 b
  · intro b
    rw [ht, mem_after_startup _ _ _ _ (by simp [Event.line])]
    exact f5 b
  · intro e h1 h2
    obtain ⟨a, b, c⟩ := f3 e h1 h2
    rw [hn, he, hi, a]
    exact ⟨b, c, noStore_of_failed_fix e⟩
  · intro e h1 h2 h3
    rw [hn, he, hi]
    exact f6 e h1 h2 h3

theorem C4_repair_gated_by_flags_witness :
    (startsUp envDefault stFresh ∧
        Event.FixUtxos none ∈ (mainWithExitCode envDefault).trace ∧
        Event.setUtxoChecked true ∈ (mainWithExitCode envDefault).trace ∧
        Event.SortAddressContracts none ∈ (mainWithExitCode envDefault).trace ∧
        Event.setSortedAddressContracts true ∈ (mainWithExitCode envDefault).trace) ∧
      (startsUp envFixUtxosFails stFresh ∧
        (mainWithExitCode envFixUtxosFails).exit = exitCodeFatal ∧
        (mainWithExitCode envFixUtxosFails).is = some stFresh ∧
        never isStore (mainWithExitCode envFixUtxosFails).trace ∧
        Event.setUtxoChecked true ∉ (mainWithExitCode envFixUtxosFails).trace) ∧
      (startsUp envSortFails stFresh ∧
        (mainWithExitCode envSortFails).exit = exitCodeFatal ∧
        (∃ s, (mainWithExitCode envSortFails).is = some s ∧
          s.SortedAddressContracts = false) ∧
        never isStore (mainWithExitCode envSortFails).trace ∧
        Event.setSortedAddressContracts true ∉ (mainWithExitCode envSortFails).trace) := by
  have u1 : startsUp envDefault stFresh := ⟨rfl, by decide, rfl, rfl, rfl, rfl, rfl, rfl⟩
  have u2 : startsUp envFixUtxosFails stFresh := ⟨rfl, by decide, rfl, rfl, rfl, rfl, rfl, rfl⟩
  have u3 : startsUp envSortFails stFresh := ⟨rfl, by decide, rfl, rfl, rfl, rfl, rfl, rfl⟩
  have h1 := C4_repair_gated_by_flags envDefault stFresh u1
  have h2 := C4_repair_gated_by_flags envFixUtxosFails stFresh u2
  have h3 := C4_repair_gated_by_flags envSortFails stFresh u3
  have n1 : needsFixUtxos envDefault stFresh := Or.inr rfl
  have n2 : needsFixUtxos envFixUtxosFails stFresh := Or.inr rfl
  have k1 : fixUtxosOk envDefault stFresh := fun _ => rfl
  have k3 : fixUtxosOk envSortFails stFresh := fun _ => rfl
  refine ⟨⟨u1, ?_, ?_, ?_, ?_⟩, ⟨u2, ?_, ?_, ?_, ?_⟩, ⟨u3, ?_, ?_, ?_, ?_⟩⟩
  · exact (h1.1 none).mpr ⟨n1, rfl⟩
  · exact (h1.2.2.2.1 true).mpr ⟨rfl, n1, rfl⟩
  · exact (h1.2.1 none).mpr ⟨rfl, k1, rfl⟩
  · exact (h1.2.2.2.2.1 true).mpr ⟨rfl, rfl, k1, rfl⟩
  · exact (h2.2.2.2.2.2.2.2.1 _ n2 rfl).1
  · exact (h2.2.2.2.2.2.2.2.1 _ n2 rfl).2.1
  · exact (h2.2.2.2.2.2.2.2.1 _ n2 rfl).2.2
  · intro hm
    have := ((h2.2.2.2.1 true).mp hm).2.2
    simp [envFixUtxosFails, envDefault] at this
  · exact (h3.2.2.2.2.2.2.2.2 _ k3 rfl rfl).1
  · exact (h3.2.2.2.2.2.2.2.2 _ k3 rfl rfl).2.1
  · exact (h3.2.2.2.2.2.2.2.2 _ k3 rfl rfl).2.2
  · intro hm
    have := ((h3.2.2.2.2.1 true).mp hm).2.2.2
    simp [envSortFails, envDefault] at this

/-- C4 as stated fails: on a fresh store (`SortedAddressContracts` false) on
which `FixUtxos` returns an error, `SortAddressContracts` is not called at
all. -/
theorem C4_sort_skipped_after_failed_fix :
    startsUp envFixUtxosFails stFresh ∧ stFresh.SortedAddressContracts = false ∧
      Event.FixUtxos (some (Err.other "utxo mismatch")) ∈
        (mainWithExitCode envFixUtxosFails).trace ∧
      ∀ x, Event.SortAddressContracts x ∉ (mainWithExitCode envFixUtxosFails).trace := by
  refine ⟨⟨rfl, by decide, rfl, rfl, rfl, rfl, rfl, rfl⟩, rfl, by decide, ?_⟩
  have ht : (mainWithExitCode envFixUtxosFails).trace =
      [Event.ReadFile "cfg.json" none, Event.GetCoinNameFromConfig none, Event.GetMetrics none,
        Event.getBlockChainWithRetry none, Event.NewRocksDB "./mydb" none,
        Event.newInternalState (.ok stFresh),
        Event.FixUtxos (some (Err.other "utxo mismatch")), Event.indexClose] := by
    decide
  intro x
  rw [ht]
  simp

/-! ## The state is opened and stored, from the outcomes of the calls -/

theorem late_notin_rollbackOrCaches (env : Env) (st : InternalState) :
    (∀ d, Event.setDbState d ∉ (rollbackOrCaches env st).trace) ∧
      (∀ q, Event.NewSyncWorker q ∉ (rollbackOrCaches env st).trace) ∧
      (∀ s q, Event.StoreInternalState s q ∉ (rollbackOrCaches env st).trace) := by
  have hl := line_rollbackOrCaches env st
  exact ⟨fun d => not_mem_of_fromLine 260 _ _ hl (by simp [Event.line]),
    fun q => not_mem_of_fromLine 260 _ _ hl (by simp [Event.line]),
    fun s q => not_mem_of_fromLine 260 _ _ hl (by simp [Event.line])⟩

theorem opens_openDb (env : Env) (st : InternalState) :
    (∀ d, Event.setDbState d ∈ (openDb env st).trace ↔
        (d = DbState.DbStateOpen ∧ env.NewSyncWorker = none)) ∧
      (∀ q, Event.NewSyncWorker q ∈ (openDb env st).trace ↔ q = env.NewSyncWorker) ∧
      (∀ q, (∃ s, Event.StoreInternalState s q ∈ (openDb env st).trace) ↔
        (q = env.StoreInternalState ∧ env.NewSyncWorker = none)) ∧
      (env.NewSyncWorker = none → ∀ e, env.StoreInternalState = some e →
        (openDb env st).exit = exitCodeFatal) ∧
      (∀ e, env.NewSyncWorker = some e → (openDb env st).exit = exitCodeFatal) := by
  have h1 := fun st => (late_notin_rollbackOrCaches env st).1
  have h2 := fun st => (late_notin_rollbackOrCaches env st).2.1
  have h3 := fun st => (late_notin_rollbackOrCaches env st).2.2
  refine ⟨?_, ?_, ?_, ?_, ?_⟩
  all_goals
    simp only [openDb]
    repeat' split
    all_goals simp_all

theorem opens_statistics (env : Env) (st : InternalState) :
    (∀ d, Event.setDbState d ∈ (statistics env st).trace ↔
        (d = DbState.DbStateOpen ∧ (statsFlag env ∨ env.NewSyncWorker = none))) ∧
      (∀ q, Event.NewSyncWorker q ∈ (statistics env st).trace ↔
        (q = env.NewSyncWorker ∧ ¬ statsFlag env)) ∧
      (∀ q, (∃ s, Event.StoreInternalState s q ∈ (statistics env st).trace) ↔
        (q = env.StoreInternalState ∧ ¬ statsFlag env ∧ env.NewSyncWorker = none)) ∧
      (¬ statsFlag env → env.NewSyncWorker = none → ∀ e, env.StoreInternalState = some e →
        (statistics env st).exit = exitCodeFatal) := by
  obtain ⟨h1, h2, h3, h4, _⟩ := opens_openDb env st
  refine ⟨?_, ?_, ?_, ?_⟩
  all_goals
    simp only [statistics, statsFlag]
    repeat' split
    all_goals simp_all

theorem opens_checkDbState (env : Env) (st : InternalState) :
    (∀ d, Event.setDbState d ∈ (checkDbState env st).trace ↔
        (d = DbState.DbStateOpen ∧ env.fixUtxo = false ∧
          st.DbState ≠ DbState.DbStateInconsistent ∧
          (statsFlag env ∨ env.NewSyncWorker = none))) ∧
      (∀ q, Event.NewSyncWorker q ∈ (checkDbState env st).trace ↔
        (q = env.NewSyncWorker ∧ env.fixUtxo = false ∧
          st.DbState ≠ DbState.DbStateInconsistent ∧ ¬ statsFlag env)) ∧
      (∀ q, (∃ s, Event.StoreInternalState s q ∈ (checkDbState env st).trace) ↔
        (q = env.StoreInternalState ∧
          (env.fixUtxo = true ∨
            (st.DbState ≠ DbState.DbStateInconsistent ∧ ¬ statsFlag env ∧
              env.NewSyncWorker = none)))) ∧
      ((env.fixUtxo = true ∨
          (st.DbState ≠ DbState.DbStateInconsistent ∧ ¬ statsFlag env ∧
            env.NewSyncWorker = none)) →
        ∀ e, env.StoreInternalState = some e →
          (checkDbState env st).exit = exitCodeFatal) := by
  obtain ⟨h1, h2, h3, h4⟩ := opens_statistics env st
  refine ⟨?_, ?_, ?_, ?_⟩
  all_goals
    simp only [checkDbState]
    repeat' split
    all_goals simp_all

theorem opens_sortAddressContracts (env : Env) (st : InternalState) :
    (∀ d, Event.setDbState d ∈ (sortAddressContracts env st).trace ↔
        (d = DbState.DbStateOpen ∧
          (st.SortedAddressContracts = false → env.SortAddressContracts = none) ∧
          env.fixUtxo = false ∧ st.DbState ≠ DbState.DbStateInconsistent ∧
          (statsFlag env ∨ env.NewSyncWorker = none))) ∧
      (∀ q, Event.NewSyncWorker q ∈ (sortAddressContracts env st).trace ↔
        (q = env.NewSyncWorker ∧
          (st.SortedAddressContracts = false → env.SortAddressContracts = none) ∧
          env.fixUtxo = false ∧ st.DbState ≠ DbState.DbStateInconsistent ∧
          ¬ statsFlag env)) ∧
      (∀ q, (∃ s, Event.StoreInternalState s q ∈ (sortAddressContracts env st).trace) ↔
        (q = env.StoreInternalState ∧
          (st.SortedAddressContracts = false → env.SortAddressContracts = none) ∧
          (env.fixUtxo = true ∨
            (st.DbState ≠ DbState.DbStateInconsistent ∧ ¬ statsFlag env ∧
              env.NewSyncWorker = none)))) ∧
      ((st.SortedAddressContracts = false → env.SortAddressContracts = none) →
        (env.fixUtxo = true ∨
          (st.DbState ≠ DbState.DbStateInconsistent ∧ ¬ statsFlag env ∧
            env.NewSyncWorker = none)) →
        ∀ e, env.StoreInternalState = some e →
          (sortAddressContracts env st).exit = exitCodeFatal) := by
  have h1 := fun st => (opens_checkDbState env st).1
  have h2 := fun st => (opens_checkDbState env st).2.1
  have h3 := fun st => (opens_checkDbState env st).2.2.1
  have h4 := fun st => (opens_checkDbState env st).2.2.2
  refine ⟨?_, ?_, ?_, ?_⟩
  all_goals
    simp only [sortAddressContracts]
    repeat' split
    all_goals simp_all

theorem opens_fixUtxos (env : Env) (st : InternalState) :
    (∀ d, Event.setDbState d ∈ (fixUtxos env st).trace ↔
        (d = DbState.DbStateOpen ∧ getsToStatistics env st ∧
          (statsFlag env ∨ env.NewSyncWorker = none))) ∧
      (∀ q, Event.NewSyncWorker q ∈ (fixUtxos env st).trace ↔
        (q = env.NewSyncWorker ∧ getsToStatistics env st ∧ ¬ statsFlag env)) ∧
      (∀ q, (∃ s, Event.StoreInternalState s q ∈ (fixUtxos env st).trace) ↔
        (q = env.StoreInternalState ∧ getsToStore env st)) ∧
      (getsToStore env st → ∀ e, env.StoreInternalState = some e →
        (fixUtxos env st).exit = exitCodeFatal) := by
  have h1 := fun st => (opens_sortAddressContracts env st).1
  have h2 := fun st => (opens_sortAddressContracts env st).2.1
  have h3 := fun st => (opens_sortAddressContracts env st).2.2.1
  have h4 := fun st => (opens_sortAddressContracts env st).2.2.2
  refine ⟨?_, ?_, ?_, ?_⟩
  all_goals
    simp only [fixUtxos, getsToStatistics, getsToStore, repairsOk, fixUtxosOk, needsFixUtxos]
    repeat' split
    all_goals simp_all
  all_goals tauto

/-! ## C5: a failed store of the internal state -/

theorem noStore_rollbackOrCaches (env : Env) (st : InternalState) :
    never isFailedStore (rollbackOrCaches env st).trace := by
  refine never_of_fromLine _ 260 _ ?_ (line_rollbackOrCaches env st)
  intro x hx
  cases x <;> simp_all [isFailedStore, Event.line]

theorem failedStore_openDb (env : Env) (st : InternalState) :
    failedStoreIsFatal (openDb env st) := by
  have h1 := fun st => noStore_rollbackOrCaches env st
  have h2 := fun st => thenReturns_of_never _ _ (noStore_rollbackOrCaches env st)
  simp only [openDb, failedStoreIsFatal]
  repeat' split
  all_goals simp [thenReturns_cons, thenReturns_nil, never_cons, never_nil, isFailedStore, h1, h2]

theorem failedStore_statistics (env : Env) (st : InternalState) :
    failedStoreIsFatal (statistics env st) := by
  have h := fun st => failedStore_openDb env st
  simp only [failedStoreIsFatal] at h ⊢
  simp only [statistics]
  repeat' split
  all_goals simp [thenReturns_cons, thenReturns_nil, never_cons, never_nil, isFailedStore, h]

theorem failedStore_checkDbState (env : Env) (st : InternalState) :
    failedStoreIsFatal (checkDbState env st) := by
  have h := fun st => failedStore_statistics env st
  simp only [failedStoreIsFatal] at h ⊢
  simp only [checkDbState]
  repeat' split
  all_goals simp [thenReturns_cons, thenReturns_nil, never_cons, never_nil, isFailedStore, h]

theorem failedStore_sortAddressContracts (env : Env) (st : InternalState) :
    failedStoreIsFatal (sortAddressContracts env st) := by
  have h := fun st => failedStore_checkDbState env st
  simp only [failedStoreIsFatal] at h ⊢
  simp only [sortAddressContracts]
  repeat' split
  all_goals simp [thenReturns_cons, thenReturns_nil, never_cons, never_nil, isFailedStore, h]

theorem failedStore_fixUtxos (env : Env) (st : InternalState) :
    failedStoreIsFatal (fixUtxos env st) := by
  have h := fun st => failedStore_sortAddressContracts env st
  simp only [failedStoreIsFatal] at h ⊢
  simp only [fixUtxos]
  repeat' split
  all_goals simp [thenReturns_cons, thenReturns_nil, never_cons, never_nil, isFailedStore, h]

theorem failedStore_mainWithExitCode (env : Env) :
    failedStoreIsFatal (mainWithExitCode env) := by
  have h := fun st => failedStore_fixUtxos env st
  simp only [failedStoreIsFatal] at h ⊢
  simp only [mainWithExitCode, repairOrStartup, startup, withIndex, RepairRocksDB]
  repeat' split
  all_goals simp [thenReturns_cons, thenReturns_nil, never_cons, never_nil, isFailedStore, h]

theorem store_mainWithExitCode (env : Env) (st0 : InternalState) (hu : startsUp env st0) :
    (∀ q, (∃ s, Event.StoreInternalState s q ∈ (mainWithExitCode env).trace) ↔
        (q = env.StoreInternalState ∧ getsToStore env st0)) ∧
      (getsToStore env st0 → ∀ e, env.StoreInternalState = some e →
        (mainWithExitCode env).exit = exitCodeFatal) := by
  obtain ⟨ht, he, -⟩ := run_of_startsUp env st0 hu
  obtain ⟨-, -, h3, h4⟩ := opens_fixUtxos env st0
  refine ⟨fun q => ?_, ?_⟩
  · rw [← h3 q, ht]
    constructor
    · rintro ⟨s, h⟩
      exact ⟨s, (mem_after_startup _ _ _ _ (by simp [Event.line])).mp h⟩
    · rintro ⟨s, h⟩
      exact ⟨s, (mem_after_startup _ _ _ _ (by simp [Event.line])).mpr h⟩
  · rw [he]
    exact h4

/-- C5: in a run whose start-up succeeds and that gets to one of the two calls
of `index.StoreInternalState` (base.go 209 with `-fixutxo`, base.go 254
otherwise), when that call returns an error `mainWithExitCode` returns
`exitCodeFatal` at once: the call is in the trace with the error it returned,
after it nothing happens but the deferred `index.Close()`, so no
`performRollback`, `NewTxCache`, `ResyncIndex`, `mempool.Resync` or
`ConnectBlocksParallel` follows it. A call of `StoreInternalState` is made
exactly in the runs that get to one of the two call sites. -/
theorem C5_failed_store_is_fatal (env : Env) (st0 : InternalState) (e : Err)
    (hu : startsUp env st0) (hc : getsToStore env st0)
    (he : env.StoreInternalState = some e) :
    (mainWithExitCode env).exit = exitCodeFatal ∧
      (∃ l s, (mainWithExitCode env).trace =
        l ++ [Event.StoreInternalState s (some e), Event.indexClose]) ∧
      (∀ l s q r, (mainWithExitCode env).trace = l ++ Event.StoreInternalState s q :: r →
        q = some e ∧ r = [Event.indexClose] ∧ never isSyncOp r ∧
          ∀ x, Event.NewTxCache x ∉ r) ∧
      (∀ q, (∃ s, Event.StoreInternalState s q ∈ (mainWithExitCode env).trace) ↔
        (q = env.StoreInternalState ∧ getsToStore env st0)) := by
  obtain ⟨h1, h2⟩ := store_mainWithExitCode env st0 hu
  obtain ⟨f1, -⟩ := failedStore_mainWithExitCode env
  have hd : ∀ l s q r, (mainWithExitCode env).trace = l ++ Event.StoreInternalState s q :: r →
      q = some e ∧ r = [Event.indexClose] := by
    intro l s q r h
    have hq : q = some e := by
      rw [← he]
      exact ((h1 q).mp ⟨s, by simp [h]⟩).1
    subst hq
    exact ⟨rfl, f1 l _ r h rfl⟩
  refine ⟨h2 hc e he, ?_, ?_, h1⟩
  · obtain ⟨s, hs⟩ := (h1 (some e)).mpr ⟨he.symm, hc⟩
    obtain ⟨l, r, hl⟩ := List.append_of_mem hs
    obtain ⟨-, hr⟩ := hd l s _ r hl
    subst hr
    exact ⟨l, s, hl⟩
  · intro l s q r h
    obtain ⟨hq, hr⟩ := hd l s q r h
    subst hr
    refine ⟨hq, rfl, ?_, ?_⟩
    · simp [never_cons, never_nil, isSyncOp]
    · simp

theorem C5_failed_store_is_fatal_witness :
    (startsUp envStoreFails stFresh ∧ getsToStore envStoreFails stFresh ∧
        envStoreFails.fixUtxo = false ∧
        envStoreFails.StoreInternalState = some (Err.other "write failed") ∧
        (mainWithExitCode envStoreFails).exit = exitCodeFatal) ∧
      (startsUp envFixUtxoStoreFails stFresh ∧ getsToStore envFixUtxoStoreFails stFresh ∧
        envFixUtxoStoreFails.fixUtxo = true ∧
        envFixUtxoStoreFails.StoreInternalState = some (Err.other "write failed") ∧
        (mainWithExitCode envFixUtxoStoreFails).exit = exitCodeFatal ∧
        ∃ l s, (mainWithExitCode envFixUtxoStoreFails).trace =
          l ++ [Event.StoreInternalState s (some (Err.other "write failed")),
            Event.indexClose]) := by
  have u1 : startsUp envStoreFails stFresh := ⟨rfl, by decide, rfl, rfl, rfl, rfl, rfl, rfl⟩
  have u2 : startsUp envFixUtxoStoreFails stFresh :=
    ⟨rfl, by decide, rfl, rfl, rfl, rfl, rfl, rfl⟩
  have c1 : getsToStore envStoreFails stFresh :=
    ⟨⟨fun _ => rfl, fun _ => rfl⟩, Or.inr ⟨by decide, by simp [statsFlag, envStoreFails,
      envDefault], rfl⟩⟩
  have c2 : getsToStore envFixUtxoStoreFails stFresh :=
    ⟨⟨fun _ => rfl, fun _ => rfl⟩, Or.inl rfl⟩
  have h1 := C5_failed_store_is_fatal envStoreFails stFresh _ u1 c1 rfl
  have h2 := C5_failed_store_is_fatal envFixUtxoStoreFails stFresh _ u2 c2 rfl
  exact ⟨⟨u1, c1, rfl, rfl, h1.1⟩, ⟨u2, c2, rfl, rfl, h2.1, h2.2.1⟩⟩

/-! ## C2: when `DbState` is set to `Open` -/

theorem onlyAfter_append_of_never (A B : Event → Bool) (a b : List Event) (ha : never B a)
    (hb : onlyAfter A B b) : onlyAfter A B (a ++ b) := by
  induction a with
  | nil => simpa using hb
  | cons x a ih =>
    rw [never_cons] at ha
    rw [List.cons_append, onlyAfter_cons]
    exact ⟨ha.1, Or.inr (ih ha.2)⟩

theorem notBefore_append_of_never (A B : Event → Bool) (a b : List Event) (ha : never A a)
    (hb : notBefore A B b) : notBefore A B (a ++ b) := by
  induction a with
  | nil => simpa using hb
  | cons x a ih =>
    rw [never_cons] at ha
    rw [List.cons_append, notBefore_cons]
    exact ⟨Or.inl ha.1, ih ha.2⟩

theorem noOpen_rollbackOrCaches (env : Env) (st : InternalState) :
    never isSetDbStateOpen (rollbackOrCaches env st).trace ∧
      never isNewSyncWorker (rollbackOrCaches env st).trace ∧
      never isStatsOp (rollbackOrCaches env st).trace := by
  have hl := line_rollbackOrCaches env st
  refine ⟨?_, ?_, ?_⟩
  · exact never_of_fromLine _ 260 _
      (by intro x hx; cases x <;> simp_all [isSetDbStateOpen, Event.line]) hl
  · exact never_of_fromLine _ 260 _
      (by intro x hx; cases x <;> simp_all [isNewSyncWorker, Event.line]) hl
  · exact never_of_fromLine _ 260 _
      (by intro x hx; cases x <;> simp_all [isStatsOp, Event.line]) hl

theorem openOrder_openDb (env : Env) (st : InternalState) :
    notBefore isFailedRepairPass isSetDbStateOpen (openDb env st).trace ∧
      onlyAfter isNewSyncWorkerOk isSetDbStateOpen (openDb env st).trace := by
  have hn := fun st => noOpen_rollbackOrCaches env st
  have ha := fun st => notBefore_of_never isFailedRepairPass _ _ (hn st).1
  have hb := fun st => onlyAfter_of_never isNewSyncWorkerOk _ _ (hn st).1
  simp only [openDb]
  repeat' split
  all_goals simp [notBefore_cons, notBefore_nil, onlyAfter_cons, onlyAfter_nil, never_cons,
    never_nil, isFailedRepairPass, isSetDbStateOpen, isNewSyncWorkerOk, ha, hb, hn]

theorem openOrder_statistics (env : Env) (st : InternalState) :
    openOrder env (statistics env st) := by
  simp only [openOrder]
  by_cases h1 : env.computeFeeStatsFlag = true
  · simp only [statistics, h1]
    repeat' split
    all_goals simp_all [notBefore_cons, notBefore_nil, onlyAfter_cons, onlyAfter_nil, never_cons,
      never_nil, isFailedRepairPass, isSetDbStateOpen, isNewSyncWorker, isStatsOp]
  · by_cases h2 : env.computeColumnStats = true
    · simp only [statistics, h1, h2]
      repeat' split
      all_goals simp_all [notBefore_cons, notBefore_nil, onlyAfter_cons, onlyAfter_nil, never_cons,
        never_nil, isFailedRepairPass, isSetDbStateOpen, isNewSyncWorker, isStatsOp]
    · have h := openOrder_openDb env st
      simp [statistics, h1, h2, h]

theorem openOrder_checkDbState (env : Env) (st : InternalState) :
    openOrder env (checkDbState env st) := by
  have h := fun st => openOrder_statistics env st
  simp only [openOrder] at h ⊢
  refine ⟨?_, fun c1 c2 => ?_, fun c => ?_⟩
  · have hh := fun st => (h st).1
    simp only [checkDbState]
    repeat' split
    all_goals simp [notBefore_cons, notBefore_nil, onlyAfter_cons, onlyAfter_nil, never_cons,
      never_nil, isFailedRepairPass, isSetDbStateOpen, isNewSyncWorkerOk, isNewSyncWorker,
      isStatsOp, hh]
  · have hh := fun st => (h st).2.1 c1 c2
    simp only [checkDbState]
    repeat' split
    all_goals simp [notBefore_cons, notBefore_nil, onlyAfter_cons, onlyAfter_nil, never_cons,
      never_nil, isFailedRepairPass, isSetDbStateOpen, isNewSyncWorkerOk, isNewSyncWorker,
      isStatsOp, hh]
  · have hh := fun st => (h st).2.2 c
    simp only [checkDbState]
    repeat' split
    all_goals simp [notBefore_cons, notBefore_nil, onlyAfter_cons, onlyAfter_nil, never_cons,
      never_nil, isFailedRepairPass, isSetDbStateOpen, isNewSyncWorkerOk, isNewSyncWorker,
      isStatsOp, hh]

theorem openOrder_sortAddressContracts (env : Env) (st : InternalState) :
    openOrder env (sortAddressContracts env st) := by
  have h := fun st => openOrder_checkDbState env st
  simp only [openOrder] at h ⊢
  refine ⟨?_, fun c1 c2 => ?_, fun c => ?_⟩
  · have hh := fun st => (h st).1
    simp only [sortAddressContracts]
    repeat' split
    all_goals simp [notBefore_cons, notBefore_nil, onlyAfter_cons, onlyAfter_nil, never_cons,
      never_nil, isFailedRepairPass, isSetDbStateOpen, isNewSyncWorkerOk, isNewSyncWorker,
      isStatsOp, hh]
  · have hh := fun st => (h st).2.1 c1 c2
    simp only [sortAddressContracts]
    repeat' split
    all_goals simp [notBefore_cons, notBefore_nil, onlyAfter_cons, onlyAfter_nil, never_cons,
      never_nil, isFailedRepairPass, isSetDbStateOpen, isNewSyncWorkerOk, isNewSyncWorker,
      isStatsOp, hh]
  · have hh := fun st => (h st).2.2 c
    simp only [sortAddressContracts]
    repeat' split
    all_goals simp [notBefore_cons, notBefore_nil, onlyAfter_cons, onlyAfter_nil, never_cons,
      never_nil, isFailedRepairPass, isSetDbStateOpen, isNewSyncWorkerOk, isNewSyncWorker,
      isStatsOp, hh]

theorem openOrder_fixUtxos (env : Env) (st : InternalState) :
    openOrder env (fixUtxos env st) := by
  have h := fun st => openOrder_sortAddressContracts env st
  simp only [openOrder] at h ⊢
  refine ⟨?_, fun c1 c2 => ?_, fun c => ?_⟩
  · have hh := fun st => (h st).1
    simp only [fixUtxos]
    repeat' split
    all_goals simp [notBefore_cons, notBefore_nil, onlyAfter_cons, onlyAfter_nil, never_cons,
      never_nil, isFailedRepairPass, isSetDbStateOpen, isNewSyncWorkerOk, isNewSyncWorker,
      isStatsOp, hh]
  · have hh := fun st => (h st).2.1 c1 c2
    simp only [fixUtxos]
    repeat' split
    all_goals simp [notBefore_cons, notBefore_nil, onlyAfter_cons, onlyAfter_nil, never_cons,
      never_nil, isFailedRepairPass, isSetDbStateOpen, isNewSyncWorkerOk, isNewSyncWorker,
      isStatsOp, hh]
  · have hh := fun st => (h st).2.2 c
    simp only [fixUtxos]
    repeat' split
    all_goals simp [notBefore_cons, notBefore_nil, onlyAfter_cons, onlyAfter_nil, never_cons,
      never_nil, isFailedRepairPass, isSetDbStateOpen, isNewSyncWorkerOk, isNewSyncWorker,
      isStatsOp, hh]

theorem openOrder_mainWithExitCode (env : Env) :
    openOrder env (mainWithExitCode env) := by
  have h := fun st => openOrder_fixUtxos env st
  simp only [openOrder] at h ⊢
  refine ⟨?_, fun c1 c2 => ?_, fun c => ?_⟩
  · have hh := fun st => (h st).1
    simp only [mainWithExitCode, repairOrStartup, startup, withIndex, RepairRocksDB]
    repeat' split
    all_goals simp [notBefore_cons, notBefore_nil, onlyAfter_cons, onlyAfter_nil, never_cons,
      never_nil, isFailedRepairPass, isSetDbStateOpen, isNewSyncWorkerOk, isNewSyncWorker,
      isStatsOp, hh]
  · have hh := fun st => (h st).2.1 c1 c2
    simp only [mainWithExitCode, repairOrStartup, startup, withIndex, RepairRocksDB]
    repeat' split
    all_goals simp [notBefore_cons, notBefore_nil, onlyAfter_cons, onlyAfter_nil, never_cons,
      never_nil, isFailedRepairPass, isSetDbStateOpen, isNewSyncWorkerOk, isNewSyncWorker,
      isStatsOp, hh]
  · have hh := fun st => (h st).2.2 c
    simp only [mainWithExitCode, repairOrStartup, startup, withIndex, RepairRocksDB]
    repeat' split
    all_goals simp [notBefore_cons, notBefore_nil, onlyAfter_cons, onlyAfter_nil, never_cons,
      never_nil, isFailedRepairPass, isSetDbStateOpen, isNewSyncWorkerOk, isNewSyncWorker,
      isStatsOp, hh]

theorem needs_sortAddressContracts (env : Env) (st : InternalState)
    (h : st.SortedAddressContracts = false) :
    onlyAfter isSortAddressContractsOk isSetDbStateOpen (sortAddressContracts env st).trace := by
  simp only [sortAddressContracts, h]
  repeat' split
  all_goals simp_all [onlyAfter_cons, onlyAfter_nil, isSortAddressContractsOk, isSetDbStateOpen]

theorem needs_fixUtxos (env : Env) (st : InternalState) :
    (env.fixUtxo = true ∨ st.UtxoChecked = false →
        onlyAfter isFixUtxosOk isSetDbStateOpen (fixUtxos env st).trace) ∧
      (st.SortedAddressContracts = false →
        onlyAfter isSortAddressContractsOk isSetDbStateOpen (fixUtxos env st).trace) := by
  refine ⟨fun c => ?_, fun c => ?_⟩
  · simp only [fixUtxos]
    repeat' split
    all_goals simp_all [onlyAfter_cons, onlyAfter_nil, isFixUtxosOk, isSetDbStateOpen]
  · have hh := fun st h => needs_sortAddressContracts env st h
    simp only [fixUtxos]
    repeat' split
    all_goals simp_all [onlyAfter_cons, onlyAfter_nil, isSortAddressContractsOk,
      isSetDbStateOpen]

theorem noOpen_startupEvents (env : Env) (st0 : InternalState) :
    never isSetDbStateOpen (startupEvents env st0) := by
  unfold startupEvents
  split <;> simp [never_cons, never_nil, isSetDbStateOpen]

/-- C2, as the code has it: in a run whose start-up succeeds and loads the
internal state `st0`, `DbState` is set to `Open` exactly when each repair pass
that the flags require returned nil, `-fixutxo` is not set, the loaded state is
not `Inconsistent`, and either a statistics flag is set or `NewSyncWorker`
returned nil; it is set only after the successful repair passes and never after
a failed one; in a run with neither `-computefeestats` nor `-computedbstats` it
is set only after `NewSyncWorker` returned without error; in a run with one of
these flags no sync worker is constructed at all and the statistics pass runs
only after `DbState` was set to `Open`. -/
theorem C2_open_after_repair (env : Env) (st0 : InternalState) (hu : startsUp env st0) :
    (∀ d, Event.setDbState d ∈ (mainWithExitCode env).trace ↔
        (d = DbState.DbStateOpen ∧ getsToStatistics env st0 ∧
          (statsFlag env ∨ env.NewSyncWorker = none))) ∧
      (∀ q, Event.NewSyncWorker q ∈ (mainWithExitCode env).trace ↔
        (q = env.NewSyncWorker ∧ getsToStatistics env st0 ∧ ¬ statsFlag env)) ∧
      (needsFixUtxos env st0 →
        onlyAfter isFixUtxosOk isSetDbStateOpen (mainWithExitCode env).trace) ∧
      (st0.SortedAddressContracts = false →
        onlyAfter isSortAddressContractsOk isSetDbStateOpen (mainWithExitCode env).trace) ∧
      notBefore isFailedRepairPass isSetDbStateOpen (mainWithExitCode env).trace ∧
      (¬ statsFlag env →
        onlyAfter isNewSyncWorkerOk isSetDbStateOpen (mainWithExitCode env).trace) ∧
      (statsFlag env →
        never isNewSyncWorker (mainWithExitCode env).trace ∧
          onlyAfter isSetDbStateOpen isStatsOp (mainWithExitCode env).trace) := by
  obtain ⟨o1, o2, o3⟩ := openOrder_mainWithExitCode env
  obtain ⟨ht, -, -⟩ := run_of_startsUp env st0 hu
  obtain ⟨n1, n2⟩ := needs_fixUtxos env st0
  obtain ⟨e1, e2, -, -⟩ := opens_fixUtxos env st0
  refine ⟨fun d => ?_, fun q => ?_, fun c => ?_, fun c => ?_, o1, fun c => ?_, o3⟩
  · rw [ht, mem_after_startup _ _ _ _ (by simp [Event.line])]
    exact e1 d
  · rw [ht, mem_after_startup _ _ _ _ (by simp [Event.line])]
    exact e2 q
  · rw [ht]
    exact onlyAfter_append_of_never _ _ _ _ (noOpen_startupEvents env st0) (n1 c)
  · rw [ht]
    exact onlyAfter_append_of_never _ _ _ _ (noOpen_startupEvents env st0) (n2 c)
  · simp only [statsFlag, not_or, Bool.not_eq_true] at c
    exact o2 c.1 c.2

/-- C2 as stated fails: with `-computefeestats`, on a fresh store and with
every call succeeding, `DbState` is set to `Open` although `NewSyncWorker` is
never called. -/
theorem C2_open_without_sync_worker :
    Event.setDbState DbState.DbStateOpen ∈ (mainWithExitCode envFeeStats).trace ∧
      (∀ r, Event.NewSyncWorker r ∉ (mainWithExitCode envFeeStats).trace) ∧
      ¬ onlyAfter isNewSyncWorkerOk isSetDbStateOpen (mainWithExitCode envFeeStats).trace := by
  have ht : (mainWithExitCode envFeeStats).trace =
      [Event.ReadFile "cfg.json" none, Event.GetCoinNameFromConfig none, Event.GetMetrics none,
        Event.getBlockChainWithRetry none, Event.NewRocksDB "./mydb" none,
        Event.newInternalState (.ok ⟨DbState.DbStateClosed, false, false, false, false⟩),
        Event.FixUtxos none, Event.setUtxoChecked true, Event.SortAddressContracts none,
        Event.setSortedAddressContracts true,
        Event.SetInternalState ⟨DbState.DbStateClosed, true, true, false, false⟩,
        Event.setDbState DbState.DbStateOpen, Event.computeFeeStats (-1) (-1) none,
        Event.indexClose] := by
    rfl
  rw [ht]
  refine ⟨by simp, by simp, ?_⟩
  simp [onlyAfter_cons, onlyAfter_nil, isNewSyncWorkerOk, isSetDbStateOpen]

theorem C2_open_after_repair_witness :
    (startsUp envDefault stFresh ∧
        Event.setDbState DbState.DbStateOpen ∈ (mainWithExitCode envDefault).trace ∧
        onlyAfter isFixUtxosOk isSetDbStateOpen (mainWithExitCode envDefault).trace ∧
        onlyAfter isNewSyncWorkerOk isSetDbStateOpen (mainWithExitCode envDefault).trace) ∧
      (startsUp envFixUtxosFails stFresh ∧
        Event.setDbState DbState.DbStateOpen ∉ (mainWithExitCode envFixUtxosFails).trace) ∧
      (startsUp envSyncWorkerFails stFresh ∧
        Event.setDbState DbState.DbStateOpen ∉ (mainWithExitCode envSyncWorkerFails).trace) ∧
      (startsUp envFeeStats stFresh ∧
        Event.setDbState DbState.DbStateOpen ∈ (mainWithExitCode envFeeStats).trace ∧
        never isNewSyncWorker (mainWithExitCode envFeeStats).trace) := by
  have u1 : startsUp envDefault stFresh := ⟨rfl, by decide, rfl, rfl, rfl, rfl, rfl, rfl⟩
  have u2 : startsUp envFixUtxosFails stFresh := ⟨rfl, by decide, rfl, rfl, rfl, rfl, rfl, rfl⟩
  have u3 : startsUp envSyncWorkerFails stFresh :=
    ⟨rfl, by decide, rfl, rfl, rfl, rfl, rfl, rfl⟩
  have u4 : startsUp envFeeStats stFresh := ⟨rfl, by decide, rfl, rfl, rfl, rfl, rfl, rfl⟩
  have h1 := C2_open_after_repair envDefault stFresh u1
  have h2 := C2_open_after_repair envFixUtxosFails stFresh u2
  have h3 := C2_open_after_repair envSyncWorkerFails stFresh u3
  have h4 := C2_open_after_repair envFeeStats stFresh u4
  have g1 : getsToStatistics envDefault stFresh :=
    ⟨⟨fun _ => rfl, fun _ => rfl⟩, rfl, by decide⟩
  have g4 : getsToStatistics envFeeStats stFresh :=
    ⟨⟨fun _ => rfl, fun _ => rfl⟩, rfl, by decide⟩
  have s1 : ¬ statsFlag envDefault := by simp [statsFlag, envDefault]
  refine ⟨⟨u1, ?_, ?_, ?_⟩, ⟨u2, ?_⟩, ⟨u3, ?_⟩, ⟨u4, ?_, ?_⟩⟩
  · exact (h1.1 _).mpr ⟨rfl, g1, Or.inr rfl⟩
  · exact h1.2.2.1 (Or.inr rfl)
  · exact h1.2.2.2.2.2.1 s1
  · intro hm
    have := ((h2.1 _).mp hm).2.1.1.1 (Or.inr rfl)
    simp [envFixUtxosFails, envDefault] at this
  · intro hm
    rcases ((h3.1 _).mp hm).2.2 with h | h
    · simp [statsFlag, envSyncWorkerFails, envDefault] at h
    · simp [envSyncWorkerFails, envDefault] at h
  · exact (h4.1 _).mpr ⟨rfl, g4, Or.inl (Or.inl rfl)⟩
  · exact (h4.2.2.2.2.2.2 (Or.inl rfl)).1

/-! ## The synchronisation, from the outcomes of the calls -/

theorem late_notin_storeLoop (env : Env) (st : InternalState) (i p : Bool) :
    (∀ q, Event.ResyncIndex q ∉ (storeLoop env st i p).trace) ∧
      (∀ b q, Event.InitializeMempool b q ∉ (storeLoop env st i p).trace) ∧
      (∀ q, Event.mempoolResync q ∉ (storeLoop env st i p).trace) ∧
      Event.goSyncIndexLoop ∉ (storeLoop env st i p).trace ∧
      Event.goSyncMempoolLoop ∉ (storeLoop env st i p).trace ∧
      (∀ b, Event.setInitialSync b ∉ (storeLoop env st i p).trace) := by
  have hl := line_storeLoop env st i p
  exact ⟨fun q => not_mem_of_fromLine 331 _ _ hl (by simp [Event.line]),
    fun b q => not_mem_of_fromLine 331 _ _ hl (by simp [Event.line]),
    fun q => not_mem_of_fromLine 331 _ _ hl (by simp [Event.line]),
    not_mem_of_fromLine 331 _ _ hl (by simp [Event.line]),
    not_mem_of_fromLine 331 _ _ hl (by simp [Event.line]),
    fun b => not_mem_of_fromLine 331 _ _ hl (by simp [Event.line])⟩

theorem syncCalls_initialSync (env : Env) (st : InternalState) (i p : Bool) :
    syncCalls env (env.synchronize = true) (initialSync env st i p) := by
  have h1 := fun st i p => (late_notin_storeLoop env st i p).1
  have h2 := fun st i p => (late_notin_storeLoop env st i p).2.1
  have h3 := fun st i p => (late_notin_storeLoop env st i p).2.2.1
  have h4 := fun st i p => (late_notin_storeLoop env st i p).2.2.2.1
  have h5 := fun st i p => (late_notin_storeLoop env st i p).2.2.2.2.1
  have h6 := fun st i p => (late_notin_storeLoop env st i p).2.2.2.2.2
  simp only [syncCalls, mempoolSynced]
  refine ⟨?_, ?_, ?_, ?_, ?_, ?_, ?_, ?_, ?_⟩
  all_goals
    simp only [initialSync]
    repeat' split
    all_goals simp_all [-Bool.forall_bool]

theorem syncCalls_publicServerStart (env : Env) (st : InternalState) (i : Bool) :
    syncCalls env (syncFromPublic env) (publicServerStart env st i) := by
  have hh := fun st i p => syncCalls_initialSync env st i p
  simp only [syncCalls, syncFromPublic] at hh ⊢
  refine ⟨?_, ?_, ?_, ?_, ?_, ?_, ?_, ?_, ?_⟩
  · have h := fun st i p => (hh st i p).1
    clear hh
    simp only [publicServerStart]
    repeat' split
    all_goals simp_all [-Bool.forall_bool]
    all_goals tauto
  · have h := fun st i p => (hh st i p).2.1
    clear hh
    simp only [publicServerStart]
    repeat' split
    all_goals simp_all [-Bool.forall_bool]
    all_goals tauto
  · have h := fun st i p => (hh st i p).2.2.1
    clear hh
    simp only [publicServerStart]
    repeat' split
    all_goals simp_all [-Bool.forall_bool]
    all_goals tauto
  · have h := fun st i p => (hh st i p).2.2.2.1
    clear hh
    simp only [publicServerStart]
    repeat' split
    all_goals simp_all [-Bool.forall_bool]
    all_goals tauto
  · have h := fun st i p => (hh st i p).2.2.2.2.1
    clear hh
    simp only [publicServerStart]
    repeat' split
    all_goals simp_all [-Bool.forall_bool]
    all_goals tauto
  · have h := fun st i p => (hh st i p).2.2.2.2.2.1
    clear hh
    simp only [publicServerStart]
    repeat' split
    all_goals simp_all [-Bool.forall_bool]
    all_goals tauto
  · have h := fun st i p => (hh st i p).2.2.2.2.2.2.1
    clear hh
    simp only [publicServerStart]
    repeat' split
    all_goals simp_all [-Bool.forall_bool]
    all_goals tauto
  · have h := fun st i p => (hh st i p).2.2.2.2.2.2.2.1
    clear hh
    simp only [publicServerStart]
    repeat' split
    all_goals simp_all [-Bool.forall_bool]
    all_goals tauto
  · have h := fun st i p => (hh st i p).2.2.2.2.2.2.2.2
    clear hh
    simp only [publicServerStart]
    repeat' split
    all_goals simp_all [-Bool.forall_bool]
    all_goals tauto

theorem syncCalls_internalServerStart (env : Env) (st : InternalState) :
    syncCalls env (syncFromInternal env) (internalServerStart env st) := by
  have hh := fun st i => syncCalls_publicServerStart env st i
  simp only [syncCalls, syncFromInternal] at hh ⊢
  refine ⟨?_, ?_, ?_, ?_, ?_, ?_, ?_, ?_, ?_⟩
  · have h := fun st i => (hh st i).1
    clear hh
    simp only [internalServerStart]
    repeat' split
    all_goals simp_all [-Bool.forall_bool]
    all_goals tauto
  · have h := fun st i => (hh st i).2.1
    clear hh
    simp only [internalServerStart]
    repeat' split
    all_goals simp_all [-Bool.forall_bool]
    all_goals tauto
  · have h := fun st i => (hh st i).2.2.1
    clear hh
    simp only [internalServerStart]
    repeat' split
    all_goals simp_all [-Bool.forall_bool]
    all_goals tauto
  · have h := fun st i => (hh st i).2.2.2.1
    clear hh
    simp only [internalServerStart]
    repeat' split
    all_goals simp_all [-Bool.forall_bool]
    all_goals tauto
  · have h := fun st i => (hh st i).2.2.2.2.1
    clear hh
    simp only [internalServerStart]
    repeat' split
    all_goals simp_all [-Bool.forall_bool]
    all_goals tauto
  · have h := fun st i => (hh st i).2.2.2.2.2.1
    clear hh
    simp only [internalServerStart]
    repeat' split
    all_goals simp_all [-Bool.forall_bool]
    all_goals tauto
  · have h := fun st i => (hh st i).2.2.2.2.2.2.1
    clear hh
    simp only [internalServerStart]
    repeat' split
    all_goals simp_all [-Bool.forall_bool]
    all_goals tauto
  · have h := fun st i => (hh st i).2.2.2.2.2.2.2.1
    clear hh
    simp only [internalServerStart]
    repeat' split
    all_goals simp_all [-Bool.forall_bool]
    all_goals tauto
  · have h := fun st i => (hh st i).2.2.2.2.2.2.2.2
    clear hh
    simp only [internalServerStart]
    repeat' split
    all_goals simp_all [-Bool.forall_bool]
    all_goals tauto

theorem syncCalls_rollbackOrCaches (env : Env) (st : InternalState) :
    syncCalls env (syncFromCaches env) (rollbackOrCaches env st) := by
  have hh := fun st => syncCalls_internalServerStart env st
  simp only [syncCalls, syncFromCaches] at hh ⊢
  refine ⟨?_, ?_, ?_, ?_, ?_, ?_, ?_, ?_, ?_⟩
  · have h := fun st => (hh st).1
    clear hh
    simp only [rollbackOrCaches]
    repeat' split
    all_goals simp_all [-Bool.forall_bool]
    all_goals tauto
  · have h := fun st => (hh st).2.1
    clear hh
    simp only [rollbackOrCaches]
    repeat' split
    all_goals simp_all [-Bool.forall_bool]
    all_goals tauto
  · have h := fun st => (hh st).2.2.1
    clear hh
    simp only [rollbackOrCaches]
    repeat' split
    all_goals simp_all [-Bool.forall_bool]
    all_goals tauto
  · have h := fun st => (hh st).2.2.2.1
    clear hh
    simp only [rollbackOrCaches]
    repeat' split
    all_goals simp_all [-Bool.forall_bool]
    all_goals tauto
  · have h := fun st => (hh st).2.2.2.2.1
    clear hh
    simp only [rollbackOrCaches]
    repeat' split
    all_goals simp_all [-Bool.forall_bool]
    all_goals tauto
  · have h := fun st => (hh st).2.2.2.2.2.1
    clear hh
    simp only [rollbackOrCaches]
    repeat' split
    all_goals simp_all [-Bool.forall_bool]
    all_goals tauto
  · have h := fun st => (hh st).2.2.2.2.2.2.1
    clear hh
    simp only [rollbackOrCaches]
    repeat' split
    all_goals simp_all [-Bool.forall_bool]
    all_goals tauto
  · have h := fun st => (hh st).2.2.2.2.2.2.2.1
    clear hh
    simp only [rollbackOrCaches]
    repeat' split
    all_goals simp_all [-Bool.forall_bool]
    all_goals tauto
  · have h := fun st => (hh st).2.2.2.2.2.2.2.2
    clear hh
    simp only [rollbackOrCaches]
    repeat' split
    all_goals simp_all [-Bool.forall_bool]
    all_goals tauto

theorem syncCalls_openDb (env : Env) (st : InternalState) :
    syncCalls env (syncFromOpenDb env) (openDb env st) := by
  have hh := fun st => syncCalls_rollbackOrCaches env st
  simp only [syncCalls, syncFromOpenDb] at hh ⊢
  refine ⟨?_, ?_, ?_, ?_, ?_, ?_, ?_, ?_, ?_⟩
  · have h := fun st => (hh st).1
    clear hh
    simp only [openDb]
    repeat' split
    all_goals simp_all [-Bool.forall_bool]
    all_goals tauto
  · have h := fun st => (hh st).2.1
    clear hh
    simp only [openDb]
    repeat' split
    all_goals simp_all [-Bool.forall_bool]
    all_goals tauto
  · have h := fun st => (hh st).2.2.1
    clear hh
    simp only [openDb]
    repeat' split
    all_goals simp_all [-Bool.forall_bool]
    all_goals tauto
  · have h := fun st => (hh st).2.2.2.1
    clear hh
    simp only [openDb]
    repeat' split
    all_goals simp_all [-Bool.forall_bool]
    all_goals tauto
  · have h := fun st => (hh st).2.2.2.2.1
    clear hh
    simp only [openDb]
    repeat' split
    all_goals simp_all [-Bool.forall_bool]
    all_goals tauto
  · have h := fun st => (hh st).2.2.2.2.2.1
    clear hh
    simp only [openDb]
    repeat' split
    all_goals simp_all [-Bool.forall_bool]
    all_goals tauto
  · have h := fun st => (hh st).2.2.2.2.2.2.1
    clear hh
    simp only [openDb]
    repeat' split
    all_goals simp_all [-Bool.forall_bool]
    all_goals tauto
  · have h := fun st => (hh st).2.2.2.2.2.2.2.1
    clear hh
    simp only [openDb]
    repeat' split
    all_goals simp_all [-Bool.forall_bool]
    all_goals tauto
  · have h := fun st => (hh st).2.2.2.2.2.2.2.2
    clear hh
    simp only [openDb]
    repeat' split
    all_goals simp_all [-Bool.forall_bool]
    all_goals tauto

theorem syncCalls_statistics (env : Env) (st : InternalState) :
    syncCalls env (syncFromStatistics env) (statistics env st) := by
  have hh := fun st => syncCalls_openDb env st
  simp only [syncCalls, syncFromStatistics, statsFlag] at hh ⊢
  refine ⟨?_, ?_, ?_, ?_, ?_, ?_, ?_, ?_, ?_⟩
  · have h := fun st => (hh st).1
    clear hh
    simp only [statistics]
    repeat' split
    all_goals simp_all [-Bool.forall_bool]
    all_goals tauto
  · have h := fun st => (hh st).2.1
    clear hh
    simp only [statistics]
    repeat' split
    all_goals simp_all [-Bool.forall_bool]
    all_goals tauto
  · have h := fun st => (hh st).2.2.1
    clear hh
    simp only [statistics]
    repeat' split
    all_goals simp_all [-Bool.forall_bool]
    all_goals tauto
  · have h := fun st => (hh st).2.2.2.1
    clear hh
    simp only [statistics]
    repeat' split
    all_goals simp_all [-Bool.forall_bool]
    all_goals tauto
  · have h := fun st => (hh st).2.2.2.2.1
    clear hh
    simp only [statistics]
    repeat' split
    all_goals simp_all [-Bool.forall_bool]
    all_goals tauto
  · have h := fun st => (hh st).2.2.2.2.2.1
    clear hh
    simp only [statistics]
    repeat' split
    all_goals simp_all [-Bool.forall_bool]
    all_goals tauto
  · have h := fun st => (hh st).2.2.2.2.2.2.1
    clear hh
    simp only [statistics]
    repeat' split
    all_goals simp_all [-Bool.forall_bool]
    all_goals tauto
  · have h := fun st => (hh st).2.2.2.2.2.2.2.1
    clear hh
    simp only [statistics]
    repeat' split
    all_goals simp_all [-Bool.forall_bool]
    all_goals tauto
  · have h := fun st => (hh st).2.2.2.2.2.2.2.2
    clear hh
    simp only [statistics]
    repeat' split
    all_goals simp_all [-Bool.forall_bool]
    all_goals tauto

theorem syncCalls_checkDbState (env : Env) (st : InternalState) :
    syncCalls env (syncFromCheck env st) (checkDbState env st) := by
  have hh := fun st => syncCalls_statistics env st
  simp only [syncCalls, syncFromCheck] at hh ⊢
  refine ⟨?_, ?_, ?_, ?_, ?_, ?_, ?_, ?_, ?_⟩
  · have h := fun st => (hh st).1
    clear hh
    simp only [checkDbState]
    repeat' split
    all_goals simp_all [-Bool.forall_bool]
    all_goals tauto
  · have h := fun st => (hh st).2.1
    clear hh
    simp only [checkDbState]
    repeat' split
    all_goals simp_all [-Bool.forall_bool]
    all_goals tauto
  · have h := fun st => (hh st).2.2.1
    clear hh
    simp only [checkDbState]
    repeat' split
    all_goals simp_all [-Bool.forall_bool]
    all_goals tauto
  · have h := fun st => (hh st).2.2.2.1
    clear hh
    simp only [checkDbState]
    repeat' split
    all_goals simp_all [-Bool.forall_bool]
    all_goals tauto
  · have h := fun st => (hh st).2.2.2.2.1
    clear hh
    simp only [checkDbState]
    repeat' split
    all_goals simp_all [-Bool.forall_bool]
    all_goals tauto
  · have h := fun st => (hh st).2.2.2.2.2.1
    clear hh
    simp only [checkDbState]
    repeat' split
    all_goals simp_all [-Bool.forall_bool]
    all_goals tauto
  · have h := fun st => (hh st).2.2.2.2.2.2.1
    clear hh
    simp only [checkDbState]
    repeat' split
    all_goals simp_all [-Bool.forall_bool]
    all_goals tauto
  · have h := fun st => (hh st).2.2.2.2.2.2.2.1
    clear hh
    simp only [checkDbState]
    repeat' split
    all_goals simp_all [-Bool.forall_bool]
    all_goals tauto
  · have h := fun st => (hh st).2.2.2.2.2.2.2.2
    clear hh
    simp only [checkDbState]
    repeat' split
    all_goals simp_all [-Bool.forall_bool]
    all_goals tauto

theorem syncCalls_sortAddressContracts (env : Env) (st : InternalState) :
    syncCalls env (syncFromSort env st) (sortAddressContracts env st) := by
  have hh := fun st => syncCalls_checkDbState env st
  simp only [syncCalls, syncFromSort] at hh ⊢
  refine ⟨?_, ?_, ?_, ?_, ?_, ?_, ?_, ?_, ?_⟩
  · have h := fun st => (hh st).1
    clear hh
    simp only [sortAddressContracts]
    repeat' split
    all_goals simp_all [-Bool.forall_bool]
    all_goals tauto
  · have h := fun st => (hh st).2.1
    clear hh
    simp only [sortAddressContracts]
    repeat' split
    all_goals simp_all [-Bool.forall_bool]
    all_goals tauto
  · have h := fun st => (hh st).2.2.1
    clear hh
    simp only [sortAddressContracts]
    repeat' split
    all_goals simp_all [-Bool.forall_bool]
    all_goals tauto
  · have h := fun st => (hh st).2.2.2.1
    clear hh
    simp only [sortAddressContracts]
    repeat' split
    all_goals simp_all [-Bool.forall_bool]
    all_goals tauto
  · have h := fun st => (hh st).2.2.2.2.1
    clear hh
    simp only [sortAddressContracts]
    repeat' split
    all_goals simp_all [-Bool.forall_bool]
    all_goals tauto
  · have h := fun st => (hh st).2.2.2.2.2.1
    clear hh
    simp only [sortAddressContracts]
    repeat' split
    all_goals simp_all [-Bool.forall_bool]
    all_goals tauto
  · have h := fun st => (hh st).2.2.2.2.2.2.1
    clear hh
    simp only [sortAddressContracts]
    repeat' split
    all_goals simp_all [-Bool.forall_bool]
    all_goals tauto
  · have h := fun st => (hh st).2.2.2.2.2.2.2.1
    clear hh
    simp only [sortAddressContracts]
    repeat' split
    all_goals simp_all [-Bool.forall_bool]
    all_goals tauto
  · have h := fun st => (hh st).2.2.2.2.2.2.2.2
    clear hh
    simp only [sortAddressContracts]
    repeat' split
    all_goals simp_all [-Bool.forall_bool]
    all_goals tauto

theorem syncCalls_fixUtxos (env : Env) (st : InternalState) :
    syncCalls env (getsToSync env st) (fixUtxos env st) := by
  have hh := fun st => syncCalls_sortAddressContracts env st
  simp only [syncCalls, getsToSync, fixUtxosOk, needsFixUtxos] at hh ⊢
  refine ⟨?_, ?_, ?_, ?_, ?_, ?_, ?_, ?_, ?_⟩
  · have h := fun st => (hh st).1
    clear hh
    simp only [fixUtxos]
    repeat' split
    all_goals simp_all [-Bool.forall_bool]
    all_goals tauto
  · have h := fun st => (hh st).2.1
    clear hh
    simp only [fixUtxos]
    repeat' split
    all_goals simp_all [-Bool.forall_bool]
    all_goals tauto
  · have h := fun st => (hh st).2.2.1
    clear hh
    simp only [fixUtxos]
    repeat' split
    all_goals simp_all [-Bool.forall_bool]
    all_goals tauto
  · have h := fun st => (hh st).2.2.2.1
    clear hh
    simp only [fixUtxos]
    repeat' split
    all_goals simp_all [-Bool.forall_bool]
    all_goals tauto
  · have h := fun st => (hh st).2.2.2.2.1
    clear hh
    simp only [fixUtxos]
    repeat' split
    all_goals simp_all [-Bool.forall_bool]
    all_goals tauto
  · have h := fun st => (hh st).2.2.2.2.2.1
    clear hh
    simp only [fixUtxos]
    repeat' split
    all_goals simp_all [-Bool.forall_bool]
    all_goals tauto
  · have h := fun st => (hh st).2.2.2.2.2.2.1
    clear hh
    simp only [fixUtxos]
    repeat' split
    all_goals simp_all [-Bool.forall_bool]
    all_goals tauto
  · have h := fun st => (hh st).2.2.2.2.2.2.2.1
    clear hh
    simp only [fixUtxos]
    repeat' split
    all_goals simp_all [-Bool.forall_bool]
    all_goals tauto
  · have h := fun st => (hh st).2.2.2.2.2.2.2.2
    clear hh
    simp only [fixUtxos]
    repeat' split
    all_goals simp_all [-Bool.forall_bool]
    all_goals tauto

theorem syncCalls_mainWithExitCode (env : Env) (st0 : InternalState) (hu : startsUp env st0) :
    syncCalls env (getsToSync env st0) (mainWithExitCode env) := by
  obtain ⟨ht, he, -⟩ := run_of_startsUp env st0 hu
  obtain ⟨h1, h2, h3, h4, h5, h6, h7, h8, h9⟩ := syncCalls_fixUtxos env st0
  refine ⟨fun q => ?_, fun b q => ?_, fun q => ?_, ?_, ?_, fun b => ?_, ?_, ?_, ?_⟩
  · rw [ht, mem_after_startup _ _ _ _ (by simp [Event.line])]
    exact h1 q
  · rw [ht, mem_after_startup _ _ _ _ (by simp [Event.line])]
    exact h2 b q
  · rw [ht, mem_after_startup _ _ _ _ (by simp [Event.line])]
    exact h3 q
  · rw [ht, mem_after_startup _ _ _ _ (by simp [Event.line])]
    exact h4
  · rw [ht, mem_after_startup _ _ _ _ (by simp [Event.line])]
    exact h5
  · rw [ht, mem_after_startup _ _ _ _ (by simp [Event.line])]
    exact h6 b
  · rw [he]
    exact h7
  · rw [he]
    exact h8
  · rw [he]
    exact h9

/-! ## C9: the mempool is initialised after the initial sync -/

theorem is_closeLoops (env : Env) (st : InternalState) : (closeLoops env st).is = some st := by
  simp only [closeLoops]
  repeat' split
  all_goals simp

theorem is_shutdown (env : Env) (st : InternalState) (i p : Bool) :
    (shutdown env st i p).is = some st := by
  simp only [shutdown]
  repeat' split
  all_goals simp [is_closeLoops]

theorem is_rangeConnect (env : Env) (st : InternalState) (i p : Bool) :
    (rangeConnect env st i p).is = some st := by
  simp only [rangeConnect]
  repeat' split
  all_goals simp [is_shutdown]

theorem is_storeLoop (env : Env) (st : InternalState) (i p : Bool) :
    (storeLoop env st i p).is = some st := by
  simp only [storeLoop]
  repeat' split
  all_goals simp [is_rangeConnect]

theorem noSync_storeLoop (env : Env) (st : InternalState) (i p : Bool) :
    never isMempoolOp (storeLoop env st i p).trace ∧
      never isSyncLoop (storeLoop env st i p).trace ∧
      never isInitialSyncStep (storeLoop env st i p).trace ∧
      never isClearInitialSync (storeLoop env st i p).trace ∧
      never isResyncFailed (storeLoop env st i p).trace := by
  have hl := line_storeLoop env st i p
  refine ⟨?_, ?_, ?_, ?_, ?_⟩
  · exact never_of_fromLine _ 331 _
      (by intro x hx; cases x <;> simp_all [isMempoolOp, Event.line]) hl
  · exact never_of_fromLine _ 331 _
      (by intro x hx; cases x <;> simp_all [isSyncLoop, Event.line]) hl
  · exact never_of_fromLine _ 331 _
      (by intro x hx; cases x <;> simp_all [isInitialSyncStep, Event.line]) hl
  · exact never_of_fromLine _ 331 _
      (by intro x hx; cases x <;> simp_all [isClearInitialSync, Event.line]) hl
  · exact never_of_fromLine _ 331 _
      (by intro x hx; cases x <;> simp_all [isResyncFailed, Event.line]) hl

theorem syncOrder_storeLoop (env : Env) (s : Option InternalState) (st : InternalState)
    (i p : Bool) : syncOrder s (storeLoop env st i p) := by
  obtain ⟨n1, n2, n3, n4, _⟩ := noSync_storeLoop env st i p
  exact ⟨onlyAfter_of_never _ _ _ n1, onlyAfter_of_never _ _ _ n2, holdsAt_of_never _ _ _ _ n3,
    onlyAfter_of_never _ _ _ n4, onlyAfter_of_never _ _ _ n4, Or.inr n1, Or.inl n2⟩

theorem syncOrder_initialSync (env : Env) (st : InternalState) (i p : Bool) :
    syncOrder (some st) (initialSync env st i p) := by
  have h := fun st i p => syncOrder_storeLoop env none st i p
  have hs := fun s st i p => (syncOrder_storeLoop env s st i p).2.2.1
  have hn := fun st i p => noSync_storeLoop env st i p
  simp only [syncOrder] at h ⊢
  simp only [initialSync]
  repeat' split
  all_goals simp [onlyAfter_cons, onlyAfter_nil, holdsAt_cons, holdsAt_nil, never_cons,
    never_nil, applyEvent, isResyncOk, isResyncFailed, isMempoolOp, isMempoolResyncOk,
    isSyncLoop, isGoSyncIndexLoop, isGoSyncMempoolLoop, isInitialSyncStep, isClearInitialSync,
    is_storeLoop, hn, hs, h]

theorem syncOrder_publicServerStart (env : Env) (st : InternalState) (i : Bool) :
    syncOrder (some st) (publicServerStart env st i) := by
  have h := fun st i p => syncOrder_initialSync env st i p
  simp only [syncOrder] at h ⊢
  simp only [publicServerStart]
  repeat' split
  all_goals simp [onlyAfter_cons, onlyAfter_nil, holdsAt_cons, holdsAt_nil, never_cons,
    never_nil, applyEvent, isResyncOk, isResyncFailed, isMempoolOp, isMempoolResyncOk,
    isSyncLoop, isGoSyncIndexLoop, isGoSyncMempoolLoop, isInitialSyncStep, isClearInitialSync,
    h]

theorem syncOrder_internalServerStart (env : Env) (st : InternalState) :
    syncOrder (some st) (internalServerStart env st) := by
  have h := fun st i => syncOrder_publicServerStart env st i
  simp only [syncOrder] at h ⊢
  simp only [internalServerStart]
  repeat' split
  all_goals simp [onlyAfter_cons, onlyAfter_nil, holdsAt_cons, holdsAt_nil, never_cons,
    never_nil, applyEvent, isResyncOk, isResyncFailed, isMempoolOp, isMempoolResyncOk,
    isSyncLoop, isGoSyncIndexLoop, isGoSyncMempoolLoop, isInitialSyncStep, isClearInitialSync,
    h]

theorem syncOrder_rollbackOrCaches (env : Env) (st : InternalState) :
    syncOrder (some st) (rollbackOrCaches env st) := by
  have h := fun st => syncOrder_internalServerStart env st
  simp only [syncOrder] at h ⊢
  simp only [rollbackOrCaches]
  repeat' split
  all_goals simp [onlyAfter_cons, onlyAfter_nil, holdsAt_cons, holdsAt_nil, never_cons,
    never_nil, applyEvent, isResyncOk, isResyncFailed, isMempoolOp, isMempoolResyncOk,
    isSyncLoop, isGoSyncIndexLoop, isGoSyncMempoolLoop, isInitialSyncStep, isClearInitialSync,
    h]

theorem syncOrder_openDb (env : Env) (st : InternalState) :
    syncOrder (some st) (openDb env st) := by
  have h := fun st => syncOrder_rollbackOrCaches env st
  simp only [syncOrder] at h ⊢
  simp only [openDb]
  repeat' split
  all_goals simp [onlyAfter_cons, onlyAfter_nil, holdsAt_cons, holdsAt_nil, never_cons,
    never_nil, applyEvent, isResyncOk, isResyncFailed, isMempoolOp, isMempoolResyncOk,
    isSyncLoop, isGoSyncIndexLoop, isGoSyncMempoolLoop, isInitialSyncStep, isClearInitialSync,
    h]

theorem syncOrder_statistics (env : Env) (st : InternalState) :
    syncOrder (some st) (statistics env st) := by
  have h := fun st => syncOrder_openDb env st
  simp only [syncOrder] at h ⊢
  simp only [statistics]
  repeat' split
  all_goals simp [onlyAfter_cons, onlyAfter_nil, holdsAt_cons, holdsAt_nil, never_cons,
    never_nil, applyEvent, isResyncOk, isResyncFailed, isMempoolOp, isMempoolResyncOk,
    isSyncLoop, isGoSyncIndexLoop, isGoSyncMempoolLoop, isInitialSyncStep, isClearInitialSync,
    h]

theorem syncOrder_checkDbState (env : Env) (st : InternalState) :
    syncOrder (some st) (checkDbState env st) := by
  have h := fun st => syncOrder_statistics env st
  simp only [syncOrder] at h ⊢
  simp only [checkDbState]
  repeat' split
  all_goals simp [onlyAfter_cons, onlyAfter_nil, holdsAt_cons, holdsAt_nil, never_cons,
    never_nil, applyEvent, isResyncOk, isResyncFailed, isMempoolOp, isMempoolResyncOk,
    isSyncLoop, isGoSyncIndexLoop, isGoSyncMempoolLoop, isInitialSyncStep, isClearInitialSync,
    h]

theorem syncOrder_sortAddressContracts (env : Env) (st : InternalState) :
    syncOrder (some st) (sortAddressContracts env st) := by
  have h := fun st => syncOrder_checkDbState env st
  simp only [syncOrder] at h ⊢
  simp only [sortAddressContracts]
  repeat' split
  all_goals simp [onlyAfter_cons, onlyAfter_nil, holdsAt_cons, holdsAt_nil, never_cons,
    never_nil, applyEvent, isResyncOk, isResyncFailed, isMempoolOp, isMempoolResyncOk,
    isSyncLoop, isGoSyncIndexLoop, isGoSyncMempoolLoop, isInitialSyncStep, isClearInitialSync,
    h]

theorem syncOrder_fixUtxos (env : Env) (st : InternalState) :
    syncOrder (some st) (fixUtxos env st) := by
  have h := fun st => syncOrder_sortAddressContracts env st
  simp only [syncOrder] at h ⊢
  simp only [fixUtxos]
  repeat' split
  all_goals simp [onlyAfter_cons, onlyAfter_nil, holdsAt_cons, holdsAt_nil, never_cons,
    never_nil, applyEvent, isResyncOk, isResyncFailed, isMempoolOp, isMempoolResyncOk,
    isSyncLoop, isGoSyncIndexLoop, isGoSyncMempoolLoop, isInitialSyncStep, isClearInitialSync,
    h]

theorem syncOrder_mainWithExitCode (env : Env) : syncOrder none (mainWithExitCode env) := by
  have h := fun st => syncOrder_fixUtxos env st
  simp only [syncOrder] at h ⊢
  simp only [mainWithExitCode, repairOrStartup, startup, withIndex, RepairRocksDB]
  repeat' split
  all_goals simp [onlyAfter_cons, onlyAfter_nil, holdsAt_cons, holdsAt_nil, never_cons,
    never_nil, applyEvent, isResyncOk, isResyncFailed, isMempoolOp, isMempoolResyncOk,
    isSyncLoop, isGoSyncIndexLoop, isGoSyncMempoolLoop, isInitialSyncStep, isClearInitialSync,
    h]

/-- C9: in a run whose start-up succeeds and that gets with `-sync` to the
synchronisation, `ResyncIndex(nil, true)` is called; `InitializeMempool` is
called exactly when `ResyncIndex` returned nil, and `mempool.Resync` exactly
when `InitializeMempool` then returned nil too; `syncIndexLoop` and
`syncMempoolLoop` are started, and `InitialSync` set to false, exactly when
`mempool.Resync` then returned without error; each recorded call carries what
the call returned. After an error of `ResyncIndex` the run returns
`exitCodeOK` for the interrupted error and `exitCodeFatal` otherwise, after an
error of `InitializeMempool` or `mempool.Resync` it returns `exitCodeFatal`.
In the trace, the mempool calls come only after `ResyncIndex` returned nil, the
loops only after `mempool.Resync` returned without error, `InitialSync` is true
in memory at the call of `ResyncIndex` and at every step up to the start of
the two loops, is set to false only after both loops were started, and is false
at return once they were. -/
theorem C9_mempool_after_initial_sync (env : Env) (st0 : InternalState)
    (hu : startsUp env st0) (hg : getsToSync env st0) :
    env.synchronize = true ∧
      (∀ q, Event.ResyncIndex q ∈ (mainWithExitCode env).trace ↔ q = env.ResyncIndex) ∧
      (∀ b q, Event.InitializeMempool b q ∈ (mainWithExitCode env).trace ↔
        (b = env.chainIsBitcoinType ∧ q = env.InitializeMempool ∧
          env.ResyncIndex = none)) ∧
      (∀ q, Event.mempoolResync q ∈ (mainWithExitCode env).trace ↔
        (q = env.mempoolResync ∧ env.ResyncIndex = none ∧ env.InitializeMempool = none)) ∧
      (Event.goSyncIndexLoop ∈ (mainWithExitCode env).trace ↔ mempoolSynced env) ∧
      (Event.goSyncMempoolLoop ∈ (mainWithExitCode env).trace ↔ mempoolSynced env) ∧
      (∀ b, Event.setInitialSync b ∈ (mainWithExitCode env).trace ↔
        (b = true ∨ mempoolSynced env)) ∧
      (∀ e, env.ResyncIndex = some e →
        (mainWithExitCode env).exit =
            (if e = Err.ErrOperationInterrupted then exitCodeOK else exitCodeFatal) ∧
          never isMempoolOp (mainWithExitCode env).trace ∧
          never isSyncLoop (mainWithExitCode env).trace) ∧
      (env.ResyncIndex = none → ∀ e, env.InitializeMempool = some e →
        (mainWithExitCode env).exit = exitCodeFatal) ∧
      (env.ResyncIndex = none → env.InitializeMempool = none →
        ∀ e, env.mempoolResync = .error e → (mainWithExitCode env).exit = exitCodeFatal) ∧
      onlyAfter isResyncOk isMempoolOp (mainWithExitCode env).trace ∧
      onlyAfter isMempoolResyncOk isSyncLoop (mainWithExitCode env).trace ∧
      holdsAt isInitialSyncStep (fun st => st.InitialSync = true) none
        (mainWithExitCode env).trace ∧
      onlyAfter isGoSyncIndexLoop isClearInitialSync (mainWithExitCode env).trace ∧
      onlyAfter isGoSyncMempoolLoop isClearInitialSync (mainWithExitCode env).trace ∧
      (mempoolSynced env →
        ∃ st, (mainWithExitCode env).is = some st ∧ st.InitialSync = false) := by
  obtain ⟨c1, c2, c3, c4, c5, c6, c7, c8, c9⟩ := syncCalls_mainWithExitCode env st0 hu
  obtain ⟨o1, o2, o3, o4, o5, -, o7⟩ := syncOrder_mainWithExitCode env
  have hs : env.synchronize = true := hg.2.2.2.2.2.2.2.2.2.2.2.2
  refine ⟨hs, fun q => ?_, fun b q => ?_, fun q => ?_, ?_, ?_, fun b => ?_, fun e he => ?_,
    c8 hg, c9 hg, o1, o2, o3, o4, o5, fun hm => ?_⟩
  · rw [c1 q]
    exact ⟨fun h => h.1, fun h => ⟨h, hg⟩⟩
  · rw [c2 b q]
    exact ⟨fun h => ⟨h.1, h.2.1, h.2.2.2⟩, fun h => ⟨h.1, h.2.1, hg, h.2.2⟩⟩
  · rw [c3 q]
    exact ⟨fun h => ⟨h.1, h.2.2⟩, fun h => ⟨h.1, hg, h.2⟩⟩
  · rw [c4]
    exact ⟨fun h => h.2, fun h => ⟨hg, h⟩⟩
  · rw [c5]
    exact ⟨fun h => h.2, fun h => ⟨hg, h⟩⟩
  · rw [c6 b]
    exact ⟨fun h => h.2, fun h => ⟨hg, h⟩⟩
  · refine ⟨c7 hg e he, ?_, ?_⟩
    · intro x hx
      cases x with
      | InitializeMempool b q => exact absurd ((c2 b q).mp hx).2.2.2 (by rw [he]; simp)
      | mempoolResync q => exact absurd ((c3 q).mp hx).2.2.1 (by rw [he]; simp)
      | _ => rfl
    · intro x hx
      cases x with
      | goSyncIndexLoop => exact absurd (c4.mp hx).2.1 (by rw [he]; simp)
      | goSyncMempoolLoop => exact absurd (c5.mp hx).2.1 (by rw [he]; simp)
      | _ => rfl
  · rcases o7 with h | h
    · have := h _ (c4.mpr ⟨hg, hm⟩)
      simp [isSyncLoop] at this
    · exact h

theorem C9_mempool_after_initial_sync_witness :
    (startsUp envSync stFresh ∧ getsToSync envSync stFresh ∧ mempoolSynced envSync ∧
        Event.ResyncIndex none ∈ (mainWithExitCode envSync).trace ∧
        Event.goSyncIndexLoop ∈ (mainWithExitCode envSync).trace ∧
        Event.goSyncMempoolLoop ∈ (mainWithExitCode envSync).trace ∧
        ∃ st, (mainWithExitCode envSync).is = some st ∧ st.InitialSync = false) ∧
      (startsUp envResyncFails stFresh ∧ getsToSync envResyncFails stFresh ∧
        (mainWithExitCode envResyncFails).exit = exitCodeFatal ∧
        never isMempoolOp (mainWithExitCode envResyncFails).trace ∧
        never isSyncLoop (mainWithExitCode envResyncFails).trace) ∧
      (startsUp envResyncInterrupted stFresh ∧ getsToSync envResyncInterrupted stFresh ∧
        (mainWithExitCode envResyncInterrupted).exit = exitCodeOK ∧
        never isMempoolOp (mainWithExitCode envResyncInterrupted).trace) ∧
      (startsUp envMempoolFails stFresh ∧ getsToSync envMempoolFails stFresh ∧
        (mainWithExitCode envMempoolFails).exit = exitCodeFatal ∧
        Event.goSyncIndexLoop ∉ (mainWithExitCode envMempoolFails).trace ∧
        Event.goSyncMempoolLoop ∉ (mainWithExitCode envMempoolFails).trace) := by
  have u1 : startsUp envSync stFresh := ⟨rfl, by decide, rfl, rfl, rfl, rfl, rfl, rfl⟩
  have u2 : startsUp envResyncFails stFresh := ⟨rfl, by decide, rfl, rfl, rfl, rfl, rfl, rfl⟩
  have u3 : startsUp envResyncInterrupted stFresh :=
    ⟨rfl, by decide, rfl, rfl, rfl, rfl, rfl, rfl⟩
  have u4 : startsUp envMempoolFails stFresh := ⟨rfl, by decide, rfl, rfl, rfl, rfl, rfl, rfl⟩
  have g1 : getsToSync envSync stFresh := by
    simp [getsToSync, fixUtxosOk, syncFromSort, syncFromCheck, syncFromStatistics, statsFlag,
      syncFromOpenDb, syncFromCaches, syncFromInternal, syncFromPublic, envSync, envDefault,
      stFresh]
  have g2 : getsToSync envResyncFails stFresh := by
    simp [getsToSync, fixUtxosOk, syncFromSort, syncFromCheck, syncFromStatistics, statsFlag,
      syncFromOpenDb, syncFromCaches, syncFromInternal, syncFromPublic, envResyncFails,
      envDefault, stFresh]
  have g3 : getsToSync envResyncInterrupted stFresh := by
    simp [getsToSync, fixUtxosOk, syncFromSort, syncFromCheck, syncFromStatistics, statsFlag,
      syncFromOpenDb, syncFromCaches, syncFromInternal, syncFromPublic, envResyncInterrupted,
      envDefault, stFresh]
  have g4 : getsToSync envMempoolFails stFresh := by
    simp [getsToSync, fixUtxosOk, syncFromSort, syncFromCheck, syncFromStatistics, statsFlag,
      syncFromOpenDb, syncFromCaches, syncFromInternal, syncFromPublic, envMempoolFails,
      envDefault, stFresh]
  have m1 : mempoolSynced envSync := ⟨rfl, rfl, 0, rfl⟩
  have m4 : ¬ mempoolSynced envMempoolFails := by
    rintro ⟨-, -, n, hn⟩
    simp [envMempoolFails] at hn
  have h1 := C9_mempool_after_initial_sync envSync stFresh u1 g1
  have h2 := C9_mempool_after_initial_sync envResyncFails stFresh u2 g2
  have h3 := C9_mempool_after_initial_sync envResyncInterrupted stFresh u3 g3
  have h4 := C9_mempool_after_initial_sync envMempoolFails stFresh u4 g4
  refine ⟨⟨u1, g1, m1, ?_, ?_, ?_, ?_⟩, ⟨u2, g2, ?_, ?_, ?_⟩, ⟨u3, g3, ?_, ?_⟩,
    ⟨u4, g4, ?_, ?_, ?_⟩⟩
  · exact (h1.2.1 none).mpr rfl
  · exact h1.2.2.2.2.1.mpr m1
  · exact h1.2.2.2.2.2.1.mpr m1
  · exact h1.2.2.2.2.2.2.2.2.2.2.2.2.2.2.2 m1
  · simpa using (h2.2.2.2.2.2.2.2.1 _ rfl).1
  · exact (h2.2.2.2.2.2.2.2.1 _ rfl).2.1
  · exact (h2.2.2.2.2.2.2.2.1 _ rfl).2.2
  · simpa using (h3.2.2.2.2.2.2.2.1 _ rfl).1
  · exact (h3.2.2.2.2.2.2.2.1 _ rfl).2.1
  · exact h4.2.2.2.2.2.2.2.2.2.1 rfl rfl _ rfl
  · exact fun hm => m4 (h4.2.2.2.2.1.mp hm)
  · exact fun hm => m4 (h4.2.2.2.2.2.1.mp hm)

/-- A run of `-sync` on a fresh store in which every call succeeds: the whole
trace, in order. -/
theorem sync_run_trace :
    (mainWithExitCode envSync).trace =
      [Event.ReadFile "cfg.json" none, Event.GetCoinNameFromConfig none, Event.GetMetrics none,
        Event.getBlockChainWithRetry none, Event.NewRocksDB "./mydb" none,
        Event.newInternalState (.ok ⟨DbState.DbStateClosed, false, false, false, false⟩),
        Event.FixUtxos none, Event.setUtxoChecked true, Event.SortAddressContracts none,
        Event.setSortedAddressContracts true,
        Event.SetInternalState ⟨DbState.DbStateClosed, true, true, false, false⟩,
        Event.NewSyncWorker none, Event.setDbState DbState.DbStateOpen,
        Event.StoreInternalState ⟨DbState.DbStateOpen, true, true, false, false⟩ none,
        Event.NewTxCache none, Event.NewFiatRates none, Event.blockbookAppInfoMetric none,
        Event.setSyncMode true, Event.setInitialSync true, Event.ResyncIndex none,
        Event.InitializeMempool true none, Event.mempoolResync (.ok 0),
        Event.FinishedMempoolSync 0, Event.goSyncIndexLoop, Event.goSyncMempoolLoop,
        Event.setInitialSync false, Event.goStoreInternalStateLoop, Event.initDownloaders,
        Event.waitForSignalAndShutdown, Event.close Chan.chanSyncIndex,
        Event.close Chan.chanSyncMempool, Event.close Chan.chanStoreInternalState,
        Event.recv Chan.chanSyncIndexDone, Event.recv Chan.chanSyncMempoolDone,
        Event.recv Chan.chanStoreInternalStateDone, Event.indexClose] ∧
      (mainWithExitCode envSync).exit = exitCodeOK ∧
      (mainWithExitCode envSync).is = some ⟨DbState.DbStateOpen, true, true, true, false⟩ := by
  decide

/-! ## C10: the range connect -/

theorem late_notin_shutdown (env : Env) (st : InternalState) (i p : Bool) :
    (∀ a b q, Event.ConnectBlocksParallel a b q ∉ (shutdown env st i p).trace) ∧
      Event.goStoreInternalStateLoop ∉ (shutdown env st i p).trace ∧
      never isMempoolOp (shutdown env st i p).trace := by
  have hl := line_shutdown env st i p
  refine ⟨fun a b q => not_mem_of_fromLine 360 _ _ hl (by simp [Event.line]),
    not_mem_of_fromLine 360 _ _ hl (by simp [Event.line]), ?_⟩
  exact never_of_fromLine _ 360 _
    (by intro x hx; cases x <;> simp_all [isMempoolOp, Event.line]) hl

theorem rangeCall_rangeConnect (env : Env) (st : InternalState) (i p : Bool) :
    rangeCall env (rangeConnect env st i p) ∧
      (env.blockFrom ≥ 0 → env.synchronize = false →
        ∃ a b q, Event.ConnectBlocksParallel a b q ∈ (rangeConnect env st i p).trace) := by
  have h := fun st i p => late_notin_shutdown env st i p
  simp only [rangeCall, rangeArgs, rangeConnect]
  repeat' split
  all_goals simp_all [-Bool.forall_bool, never_cons, never_nil, isMempoolOp]

theorem rangeCall_storeLoop (env : Env) (st : InternalState) (i p : Bool) :
    rangeCall env (storeLoop env st i p) ∧ rangeCalled env (storeLoop env st i p) := by
  have h := fun st i p => rangeCall_rangeConnect env st i p
  simp only [rangeCall, rangeCalled] at h ⊢
  refine ⟨⟨?_, fun c => ?_⟩, fun _ c1 c2 => ?_⟩
  · have hh := fun st i p => (h st i p).1.1
    simp only [storeLoop]
    repeat' split
    all_goals simp [hh]
    all_goals exact hh _ _ _
  · have hh := fun st i p => (h st i p).1.2 c
    simp only [storeLoop]
    repeat' split
    all_goals simp [never_cons, isMempoolOp, hh]
  · have hh := fun st i p => (h st i p).2 c1 c2
    simp only [storeLoop]
    repeat' split
    all_goals simp [hh]

theorem rangeCall_initialSync (env : Env) (st : InternalState) (i p : Bool) :
    rangeCall env (initialSync env st i p) ∧ rangeCalled env (initialSync env st i p) := by
  have h := fun st i p => rangeCall_storeLoop env st i p
  simp only [rangeCall, rangeCalled] at h ⊢
  refine ⟨⟨?_, fun c => ?_⟩, fun hg c1 c2 => ?_⟩
  · have hh := fun st i p => (h st i p).1.1
    simp only [initialSync]
    repeat' split
    all_goals first
      | exact hh _ _ _
      | (simp [hh]; done)
      | (simp; exact hh _ _ _)
  · have hh := fun st i p => (h st i p).1.2 c
    simp only [initialSync]
    repeat' split
    all_goals simp_all [-Bool.forall_bool, never_cons, never_nil, isMempoolOp]
  · have hh := fun st i p => (h st i p).2
    revert hg
    simp only [initialSync]
    repeat' split
    all_goals simp_all [-Bool.forall_bool]

theorem rangeCall_publicServerStart (env : Env) (st : InternalState) (i : Bool) :
    rangeCall env (publicServerStart env st i) ∧ rangeCalled env (publicServerStart env st i) := by
  have h := fun st i p => rangeCall_initialSync env st i p
  simp only [rangeCall, rangeCalled] at h ⊢
  refine ⟨⟨?_, fun c => ?_⟩, fun hg c1 c2 => ?_⟩
  · have hh := fun st i p => (h st i p).1.1
    simp only [publicServerStart]
    repeat' split
    all_goals first
      | exact hh _ _ _
      | (simp [hh]; done)
      | (simp; exact hh _ _ _)
  · have hh := fun st i p => (h st i p).1.2 c
    simp only [publicServerStart]
    repeat' split
    all_goals simp_all [-Bool.forall_bool, never_cons, never_nil, isMempoolOp]
  · have hh := fun st i p => (h st i p).2
    revert hg
    simp only [publicServerStart]
    repeat' split
    all_goals simp_all [-Bool.forall_bool]

theorem rangeCall_internalServerStart (env : Env) (st : InternalState) :
    rangeCall env (internalServerStart env st) ∧ rangeCalled env (internalServerStart env st) := by
  have h := fun st i => rangeCall_publicServerStart env st i
  simp only [rangeCall, rangeCalled] at h ⊢
  refine ⟨⟨?_, fun c => ?_⟩, fun hg c1 c2 => ?_⟩
  · have hh := fun st i => (h st i).1.1
    simp only [internalServerStart]
    repeat' split
    all_goals first
      | exact hh _ _
      | (simp [hh]; done)
      | (simp; exact hh _ _)
  · have hh := fun st i => (h st i).1.2 c
    simp only [internalServerStart]
    repeat' split
    all_goals simp_all [-Bool.forall_bool, never_cons, never_nil, isMempoolOp]
  · have hh := fun st i => (h st i).2
    revert hg
    simp only [internalServerStart]
    repeat' split
    all_goals simp_all [-Bool.forall_bool]

theorem rangeCall_rollbackOrCaches (env : Env) (st : InternalState) :
    rangeCall env (rollbackOrCaches env st) ∧ rangeCalled env (rollbackOrCaches env st) := by
  have h := fun st => rangeCall_internalServerStart env st
  simp only [rangeCall, rangeCalled] at h ⊢
  refine ⟨⟨?_, fun c => ?_⟩, fun hg c1 c2 => ?_⟩
  · have hh := fun st => (h st).1.1
    simp only [rollbackOrCaches]
    repeat' split
    all_goals first
      | exact hh _
      | (simp [hh]; done)
      | (simp; exact hh _)
  · have hh := fun st => (h st).1.2 c
    simp only [rollbackOrCaches]
    repeat' split
    all_goals simp_all [-Bool.forall_bool, never_cons, never_nil, isMempoolOp]
  · have hh := fun st => (h st).2
    revert hg
    simp only [rollbackOrCaches]
    repeat' split
    all_goals simp_all [-Bool.forall_bool]

theorem rangeCall_openDb (env : Env) (st : InternalState) :
    rangeCall env (openDb env st) ∧ rangeCalled env (openDb env st) := by
  have h := fun st => rangeCall_rollbackOrCaches env st
  simp only [rangeCall, rangeCalled] at h ⊢
  refine ⟨⟨?_, fun c => ?_⟩, fun hg c1 c2 => ?_⟩
  · have hh := fun st => (h st).1.1
    simp only [openDb]
    repeat' split
    all_goals first
      | exact hh _
      | (simp [hh]; done)
      | (simp; exact hh _)
  · have hh := fun st => (h st).1.2 c
    simp only [openDb]
    repeat' split
    all_goals simp_all [-Bool.forall_bool, never_cons, never_nil, isMempoolOp]
  · have hh := fun st => (h st).2
    revert hg
    simp only [openDb]
    repeat' split
    all_goals simp_all [-Bool.forall_bool]

theorem rangeCall_statistics (env : Env) (st : InternalState) :
    rangeCall env (statistics env st) ∧ rangeCalled env (statistics env st) := by
  have h := fun st => rangeCall_openDb env st
  simp only [rangeCall, rangeCalled] at h ⊢
  refine ⟨⟨?_, fun c => ?_⟩, fun hg c1 c2 => ?_⟩
  · have hh := fun st => (h st).1.1
    simp only [statistics]
    repeat' split
    all_goals first
      | exact hh _
      | (simp [hh]; done)
      | (simp; exact hh _)
  · have hh := fun st => (h st).1.2 c
    simp only [statistics]
    repeat' split
    all_goals simp_all [-Bool.forall_bool, never_cons, never_nil, isMempoolOp]
  · have hh := fun st => (h st).2
    revert hg
    simp only [statistics]
    repeat' split
    all_goals simp_all [-Bool.forall_bool]

theorem rangeCall_checkDbState (env : Env) (st : InternalState) :
    rangeCall env (checkDbState env st) ∧ rangeCalled env (checkDbState env st) := by
  have h := fun st => rangeCall_statistics env st
  simp only [rangeCall, rangeCalled] at h ⊢
  refine ⟨⟨?_, fun c => ?_⟩, fun hg c1 c2 => ?_⟩
  · have hh := fun st => (h st).1.1
    simp only [checkDbState]
    repeat' split
    all_goals first
      | exact hh _
      | (simp [hh]; done)
      | (simp; exact hh _)
  · have hh := fun st => (h st).1.2 c
    simp only [checkDbState]
    repeat' split
    all_goals simp_all [-Bool.forall_bool, never_cons, never_nil, isMempoolOp]
  · have hh := fun st => (h st).2
    revert hg
    simp only [checkDbState]
    repeat' split
    all_goals simp_all [-Bool.forall_bool]

theorem rangeCall_sortAddressContracts (env : Env) (st : InternalState) :
    rangeCall env (sortAddressContracts env st) ∧ rangeCalled env (sortAddressContracts env st) := by
  have h := fun st => rangeCall_checkDbState env st
  simp only [rangeCall, rangeCalled] at h ⊢
  refine ⟨⟨?_, fun c => ?_⟩, fun hg c1 c2 => ?_⟩
  · have hh := fun st => (h st).1.1
    simp only [sortAddressContracts]
    repeat' split
    all_goals first
      | exact hh _
      | (simp [hh]; done)
      | (simp; exact hh _)
  · have hh := fun st => (h st).1.2 c
    simp only [sortAddressContracts]
    repeat' split
    all_goals simp_all [-Bool.forall_bool, never_cons, never_nil, isMempoolOp]
  · have hh := fun st => (h st).2
    revert hg
    simp only [sortAddressContracts]
    repeat' split
    all_goals simp_all [-Bool.forall_bool]

theorem rangeCall_fixUtxos (env : Env) (st : InternalState) :
    rangeCall env (fixUtxos env st) ∧ rangeCalled env (fixUtxos env st) := by
  have h := fun st => rangeCall_sortAddressContracts env st
  simp only [rangeCall, rangeCalled] at h ⊢
  refine ⟨⟨?_, fun c => ?_⟩, fun hg c1 c2 => ?_⟩
  · have hh := fun st => (h st).1.1
    simp only [fixUtxos]
    repeat' split
    all_goals first
      | exact hh _
      | (simp [hh]; done)
      | (simp; exact hh _)
  · have hh := fun st => (h st).1.2 c
    simp only [fixUtxos]
    repeat' split
    all_goals simp_all [-Bool.forall_bool, never_cons, never_nil, isMempoolOp]
  · have hh := fun st => (h st).2
    revert hg
    simp only [fixUtxos]
    repeat' split
    all_goals simp_all [-Bool.forall_bool]

theorem rangeCall_mainWithExitCode (env : Env) :
    rangeCall env (mainWithExitCode env) ∧ rangeCalled env (mainWithExitCode env) := by
  have h := fun st => rangeCall_fixUtxos env st
  simp only [rangeCall, rangeCalled] at h ⊢
  refine ⟨⟨?_, fun c => ?_⟩, fun hg c1 c2 => ?_⟩
  · have hh := fun st => (h st).1.1
    simp only [mainWithExitCode, repairOrStartup, startup, withIndex, RepairRocksDB]
    repeat' split
    all_goals first
      | exact hh _
      | (simp [hh]; done)
      | (simp; exact hh _)
  · have hh := fun st => (h st).1.2 c
    simp only [mainWithExitCode, repairOrStartup, startup, withIndex, RepairRocksDB]
    repeat' split
    all_goals simp_all [-Bool.forall_bool, never_cons, never_nil, isMempoolOp]
  · have hh := fun st => (h st).2
    revert hg
    simp only [mainWithExitCode, repairOrStartup, startup, withIndex, RepairRocksDB]
    repeat' split
    all_goals first
      | (simp; done)
      | (simp; intro hg; exact hh _ hg c1 c2)

/-- C10, as the code has it: in a run that gets to the range connect,
`ConnectBlocksParallel` is called if and only if `-blockheight` is not negative
and `-sync` is not set; its arguments are `uint32(blockheight)` and
`uint32(blockuntil)`, or twice `uint32(blockheight)` when `-blockuntil` is
negative; the run then never calls `InitializeMempool` or `mempool.Resync`;
and `from <= until` holds when `-blockuntil` is negative or when
`blockheight <= blockuntil < 2^32`. -/
theorem C10_range_connect (env : Env)
    (hg : Event.goStoreInternalStateLoop ∈ (mainWithExitCode env).trace) :
    ((∃ a b q, Event.ConnectBlocksParallel a b q ∈ (mainWithExitCode env).trace) ↔
        (env.blockFrom ≥ 0 ∧ env.synchronize = false)) ∧
      ∀ a b q, Event.ConnectBlocksParallel a b q ∈ (mainWithExitCode env).trace →
        a = uint32 env.blockFrom ∧
          (env.blockUntil ≥ 0 → b = uint32 env.blockUntil) ∧
          (env.blockUntil < 0 → b = a) ∧
          q = env.ConnectBlocksParallel a b ∧
          never isMempoolOp (mainWithExitCode env).trace ∧
          (env.blockUntil < 0 ∨ (env.blockFrom ≤ env.blockUntil ∧ env.blockUntil < 4294967296) →
            a ≤ b) := by
  obtain ⟨⟨h1, h2⟩, h3⟩ := rangeCall_mainWithExitCode env
  refine ⟨⟨?_, fun c => h3 hg c.1 c.2⟩, ?_⟩
  · rintro ⟨a, b, q, hm⟩
    exact ⟨(h1 a b q hm).1, (h1 a b q hm).2.1⟩
  · intro a b q hm
    obtain ⟨c1, c2, ca, cb, cq⟩ := h1 a b q hm
    refine ⟨ca, ?_, ?_, cq, h2 c2, ?_⟩
    · intro hu
      rw [cb, if_neg (by omega)]
    · intro hu
      rw [cb, ca, if_pos hu]
    · intro hu
      rw [ca, cb]
      unfold uint32
      split <;> omega

/-- C10 as stated fails: `-blockheight 10 -blockuntil 5` without `-sync`, on a
fresh store and with every call succeeding, gets to the range connect and calls
`ConnectBlocksParallel(10, 5)`, a range with `from > until`. -/
theorem C10_range_not_bounded :
    Event.goStoreInternalStateLoop ∈ (mainWithExitCode envRange).trace ∧
      Event.ConnectBlocksParallel 10 5 none ∈ (mainWithExitCode envRange).trace ∧
      ¬ ((10 : Nat) ≤ 5) := by
  decide

theorem C10_range_connect_witness :
    Event.goStoreInternalStateLoop ∈ (mainWithExitCode envRangeUp).trace ∧
      (∃ a b q, Event.ConnectBlocksParallel a b q ∈ (mainWithExitCode envRangeUp).trace) ∧
      never isMempoolOp (mainWithExitCode envRangeUp).trace := by
  have hg : Event.goStoreInternalStateLoop ∈ (mainWithExitCode envRangeUp).trace := by decide
  have h := C10_range_connect envRangeUp hg
  have hc : Event.ConnectBlocksParallel 5 10 none ∈ (mainWithExitCode envRangeUp).trace := by
    decide
  exact ⟨hg, h.1.mpr ⟨by decide, rfl⟩, (h.2 5 10 none hc).2.2.2.2.1⟩

/-! ## C1: the interrupted error -/

theorem interruptExit_closeLoops (env : Env) (st : InternalState) :
    interruptExit (closeLoops env st) := by
  simp only [interruptExit, closeLoops]
  repeat' split
  all_goals simp [never_cons, never_nil, isInterruptedTested, isFailedUntested]

theorem interruptExit_shutdown (env : Env) (st : InternalState) (i p : Bool) :
    interruptExit (shutdown env st i p) := by
  have h := fun st => interruptExit_closeLoops env st
  simp only [interruptExit] at h ⊢
  simp only [shutdown]
  repeat' split
  all_goals simp_all [-Bool.forall_bool, never_cons, never_nil, isInterruptedTested,
    isFailedUntested]

theorem interruptExit_rangeConnect (env : Env) (st : InternalState) (i p : Bool) :
    interruptExit (rangeConnect env st i p) := by
  have h := fun st i p => interruptExit_shutdown env st i p
  simp only [interruptExit] at h ⊢
  simp only [rangeConnect]
  repeat' split
  all_goals simp_all [-Bool.forall_bool, never_cons, never_nil, isInterruptedTested,
    isFailedUntested]

theorem interruptExit_storeLoop (env : Env) (st : InternalState) (i p : Bool) :
    interruptExit (storeLoop env st i p) := by
  have h := fun st i p => interruptExit_rangeConnect env st i p
  simp only [interruptExit] at h ⊢
  simp only [storeLoop]
  repeat' split
  all_goals simp_all [-Bool.forall_bool, never_cons, never_nil, isInterruptedTested,
    isFailedUntested]

theorem interruptExit_initialSync (env : Env) (st : InternalState) (i p : Bool) :
    interruptExit (initialSync env st i p) := by
  have h := fun st i p => interruptExit_storeLoop env st i p
  simp only [interruptExit] at h ⊢
  simp only [initialSync]
  repeat' split
  all_goals simp_all [-Bool.forall_bool, never_cons, never_nil, isInterruptedTested,
    isFailedUntested]

theorem interruptExit_publicServerStart (env : Env) (st : InternalState) (i : Bool) :
    interruptExit (publicServerStart env st i) := by
  have h := fun st i p => interruptExit_initialSync env st i p
  simp only [interruptExit] at h ⊢
  simp only [publicServerStart]
  repeat' split
  all_goals simp_all [-Bool.forall_bool, never_cons, never_nil, isInterruptedTested,
    isFailedUntested]

theorem interruptExit_internalServerStart (env : Env) (st : InternalState) :
    interruptExit (internalServerStart env st) := by
  have h := fun st i => interruptExit_publicServerStart env st i
  simp only [interruptExit] at h ⊢
  simp only [internalServerStart]
  repeat' split
  all_goals simp_all [-Bool.forall_bool, never_cons, never_nil, isInterruptedTested,
    isFailedUntested]

theorem interruptExit_rollbackOrCaches (env : Env) (st : InternalState) :
    interruptExit (rollbackOrCaches env st) := by
  have h := fun st => interruptExit_internalServerStart env st
  simp only [interruptExit] at h ⊢
  simp only [rollbackOrCaches]
  repeat' split
  all_goals simp_all [-Bool.forall_bool, never_cons, never_nil, isInterruptedTested,
    isFailedUntested]

theorem interruptExit_openDb (env : Env) (st : InternalState) :
    interruptExit (openDb env st) := by
  have h := fun st => interruptExit_rollbackOrCaches env st
  simp only [interruptExit] at h ⊢
  simp only [openDb]
  repeat' split
  all_goals simp_all [-Bool.forall_bool, never_cons, never_nil, isInterruptedTested,
    isFailedUntested]

theorem interruptExit_statistics (env : Env) (st : InternalState) :
    interruptExit (statistics env st) := by
  have h := fun st => interruptExit_openDb env st
  simp only [interruptExit] at h ⊢
  simp only [statistics]
  repeat' split
  all_goals simp_all [-Bool.forall_bool, never_cons, never_nil, isInterruptedTested,
    isFailedUntested]

theorem interruptExit_checkDbState (env : Env) (st : InternalState) :
    interruptExit (checkDbState env st) := by
  have h := fun st => interruptExit_statistics env st
  simp only [interruptExit] at h ⊢
  simp only [checkDbState]
  repeat' split
  all_goals simp_all [-Bool.forall_bool, never_cons, never_nil, isInterruptedTested,
    isFailedUntested]

theorem interruptExit_sortAddressContracts (env : Env) (st : InternalState) :
    interruptExit (sortAddressContracts env st) := by
  have h := fun st => interruptExit_checkDbState env st
  simp only [interruptExit] at h ⊢
  simp only [sortAddressContracts]
  repeat' split
  all_goals simp_all [-Bool.forall_bool, never_cons, never_nil, isInterruptedTested,
    isFailedUntested]

theorem interruptExit_fixUtxos (env : Env) (st : InternalState) :
    interruptExit (fixUtxos env st) := by
  have h := fun st => interruptExit_sortAddressContracts env st
  simp only [interruptExit] at h ⊢
  simp only [fixUtxos]
  repeat' split
  all_goals simp_all [-Bool.forall_bool, never_cons, never_nil, isInterruptedTested,
    isFailedUntested]

theorem interruptExit_mainWithExitCode (env : Env) : interruptExit (mainWithExitCode env) := by
  have h := fun st => interruptExit_fixUtxos env st
  simp only [interruptExit] at h ⊢
  simp only [mainWithExitCode, repairOrStartup, startup, withIndex, RepairRocksDB]
  repeat' split
  all_goals simp_all [-Bool.forall_bool, never_cons, never_nil, isInterruptedTested,
    isFailedUntested]

/-- Where `mainWithExitCode` tests for the interrupted error, it returns
`exitCodeOK`: `computeFeeStats`, `ResyncIndex`, `ConnectBlocksParallel`. -/
theorem interrupted_tested_is_clean (env : Env) (x : Event)
    (hx : x ∈ (mainWithExitCode env).trace) (hi : isInterruptedTested x = true) :
    (mainWithExitCode env).exit = exitCodeOK := by
  rcases (interruptExit_mainWithExitCode env).1 with h | h
  · have := h x hx
    simp [hi] at this
  · exact h

/-- Where `mainWithExitCode` does not test for the interrupted error, every
error of the pass, the interrupted one included, gives `exitCodeFatal`:
`FixUtxos`, `SortAddressContracts`, `ComputeInternalStateColumnStats`,
`performRollback`. -/
theorem failed_untested_is_fatal (env : Env) (x : Event)
    (hx : x ∈ (mainWithExitCode env).trace) (hi : isFailedUntested x = true) :
    (mainWithExitCode env).exit = exitCodeFatal := by
  rcases (interruptExit_mainWithExitCode env).2 with h | h
  · have := h x hx
    simp [hi] at this
  · exact h

/-- C1 fails on the code: when `FixUtxos`, `SortAddressContracts`,
`ComputeInternalStateColumnStats` or `performRollback` returns
`db.ErrOperationInterrupted`, `mainWithExitCode` returns `exitCodeFatal` (255)
and not `exitCodeOK`, whereas an interrupted `ResyncIndex` gives `exitCodeOK`. -/
theorem C1_interrupted_pass_is_fatal :
    Event.FixUtxos (some Err.ErrOperationInterrupted) ∈
        (mainWithExitCode envFixUtxosInterrupted).trace ∧
      (mainWithExitCode envFixUtxosInterrupted).exit = exitCodeFatal ∧
      Event.SortAddressContracts (some Err.ErrOperationInterrupted) ∈
        (mainWithExitCode envSortInterrupted).trace ∧
      (mainWithExitCode envSortInterrupted).exit = exitCodeFatal ∧
      Event.ComputeInternalStateColumnStats (some Err.ErrOperationInterrupted) ∈
        (mainWithExitCode envColumnStatsInterrupted).trace ∧
      (mainWithExitCode envColumnStatsInterrupted).exit = exitCodeFatal ∧
      Event.performRollback (some Err.ErrOperationInterrupted) ∈
        (mainWithExitCode envRollbackInterrupted).trace ∧
      (mainWithExitCode envRollbackInterrupted).exit = exitCodeFatal ∧
      Event.ResyncIndex (some Err.ErrOperationInterrupted) ∈
        (mainWithExitCode envResyncInterrupted).trace ∧
      (mainWithExitCode envResyncInterrupted).exit = exitCodeOK ∧
      exitCodeFatal ≠ exitCodeOK := by
  decide

/-! ## C7: the shutdown of the loops -/

theorem followedBy_nil (P : Event → Bool) (rest : List Event) : followedBy P rest [] := by
  intro l e r h; simp at h

theorem followedBy_cons (P : Event → Bool) (rest : List Event) (x : Event) (tr : List Event) :
    followedBy P rest (x :: tr) ↔ (P x = false ∨ tr = rest) ∧ followedBy P rest tr := by
  constructor
  · intro h
    refine ⟨?_, ?_⟩
    · by_cases hp : P x = false
      · exact Or.inl hp
      · exact Or.inr (h [] x tr rfl (by simpa using hp))
    · intro l e r hl he
      exact h (x :: l) e r (by simp [hl]) he
  · rintro ⟨h1, h2⟩ l e r hl he
    rcases List.cons_eq_append_iff.mp hl with ⟨rfl, h3⟩ | ⟨l2, rfl, h3⟩
    · injection h3 with h4 h5
      subst h4 h5
      rcases h1 with h1 | h1
      · simp [h1] at he
      · exact h1
    · exact h2 l2 e r h3 he

theorem followedBy_of_never (P : Event → Bool) (rest : List Event) (tr : List Event)
    (h : never P tr) : followedBy P rest tr := by
  intro l e r hl he
  have := h e (by simp [hl])
  simp [this] at he

theorem trace_closeLoops (env : Env) (st : InternalState) :
    (closeLoops env st).trace = closing env := by
  simp only [closeLoops, closing]
  split <;> simp

theorem exit_ok_closeLoops (env : Env) (st : InternalState) :
    (closeLoops env st).exit = exitCodeOK := by
  simp only [closeLoops]
  split <;> simp

theorem noWait_closing (env : Env) : never isWaitForSignalAndShutdown (closing env) := by
  simp only [closing]
  split <;> simp [never_cons, never_nil, isWaitForSignalAndShutdown]

theorem shutdownOrder_shutdown (env : Env) (st : InternalState) (i p : Bool) :
    (followedBy isWaitForSignalAndShutdown (closing env) (shutdown env st i p).trace ∧
      (never isWaitForSignalAndShutdown (shutdown env st i p).trace ∨
        (shutdown env st i p).exit = exitCodeOK)) ∧
      (shutdown env st i p).exit = exitCodeOK := by
  have h1 := noWait_closing env
  have h2 := followedBy_of_never _ (closing env) _ h1
  simp only [shutdown]
  split <;>
    simp [followedBy_cons, never_cons, isWaitForSignalAndShutdown, trace_closeLoops,
      exit_ok_closeLoops, h1, h2]

theorem shutdownOrder_rangeConnect (env : Env) (st : InternalState) (i p : Bool) :
    followedBy isWaitForSignalAndShutdown (closing env) (rangeConnect env st i p).trace ∧
      (never isWaitForSignalAndShutdown (rangeConnect env st i p).trace ∨
        (rangeConnect env st i p).exit = exitCodeOK) := by
  have h := fun st i p => (shutdownOrder_shutdown env st i p).1
  have h3 := fun st i p => (shutdownOrder_shutdown env st i p).2
  simp only [rangeConnect]
  repeat' split
  all_goals simp [followedBy_cons, followedBy_nil, never_cons, never_nil,
    isWaitForSignalAndShutdown, h, h3]

theorem shutdownOrder_storeLoop (env : Env) (st : InternalState) (i p : Bool) :
    shutdownOrder env (storeLoop env st i p) := by
  have h := fun st i p => shutdownOrder_rangeConnect env st i p
  simp only [shutdownOrder]
  simp only [storeLoop]
  repeat' split
  all_goals simp [followedBy_cons, followedBy_nil, onlyAfter_cons, never_cons, never_nil,
    isWaitForSignalAndShutdown, isGoStoreInternalStateLoop, h]

theorem shutdownOrder_initialSync (env : Env) (st : InternalState) (i p : Bool) :
    shutdownOrder env (initialSync env st i p) := by
  have h := fun st i p => shutdownOrder_storeLoop env st i p
  simp only [shutdownOrder] at h ⊢
  simp only [initialSync]
  repeat' split
  all_goals simp [followedBy_cons, followedBy_nil, onlyAfter_cons, onlyAfter_nil, never_cons,
    never_nil, isWaitForSignalAndShutdown, isGoStoreInternalStateLoop, h]

theorem shutdownOrder_publicServerStart (env : Env) (st : InternalState) (i : Bool) :
    shutdownOrder env (publicServerStart env st i) := by
  have h := fun st i p => shutdownOrder_initialSync env st i p
  simp only [shutdownOrder] at h ⊢
  simp only [publicServerStart]
  repeat' split
  all_goals simp [followedBy_cons, followedBy_nil, onlyAfter_cons, onlyAfter_nil, never_cons,
    never_nil, isWaitForSignalAndShutdown, isGoStoreInternalStateLoop, h]

theorem shutdownOrder_internalServerStart (env : Env) (st : InternalState) :
    shutdownOrder env (internalServerStart env st) := by
  have h := fun st i => shutdownOrder_publicServerStart env st i
  simp only [shutdownOrder] at h ⊢
  simp only [internalServerStart]
  repeat' split
  all_goals simp [followedBy_cons, followedBy_nil, onlyAfter_cons, onlyAfter_nil, never_cons,
    never_nil, isWaitForSignalAndShutdown, isGoStoreInternalStateLoop, h]

theorem shutdownOrder_rollbackOrCaches (env : Env) (st : InternalState) :
    shutdownOrder env (rollbackOrCaches env st) := by
  have h := fun st => shutdownOrder_internalServerStart env st
  simp only [shutdownOrder] at h ⊢
  simp only [rollbackOrCaches]
  repeat' split
  all_goals simp [followedBy_cons, followedBy_nil, onlyAfter_cons, onlyAfter_nil, never_cons,
    never_nil, isWaitForSignalAndShutdown, isGoStoreInternalStateLoop, h]

theorem shutdownOrder_openDb (env : Env) (st : InternalState) :
    shutdownOrder env (openDb env st) := by
  have h := fun st => shutdownOrder_rollbackOrCaches env st
  simp only [shutdownOrder] at h ⊢
  simp only [openDb]
  repeat' split
  all_goals simp [followedBy_cons, followedBy_nil, onlyAfter_cons, onlyAfter_nil, never_cons,
    never_nil, isWaitForSignalAndShutdown, isGoStoreInternalStateLoop, h]

theorem shutdownOrder_statistics (env : Env) (st : InternalState) :
    shutdownOrder env (statistics env st) := by
  have h := fun st => shutdownOrder_openDb env st
  simp only [shutdownOrder] at h ⊢
  simp only [statistics]
  repeat' split
  all_goals simp [followedBy_cons, followedBy_nil, onlyAfter_cons, onlyAfter_nil, never_cons,
    never_nil, isWaitForSignalAndShutdown, isGoStoreInternalStateLoop, h]

theorem shutdownOrder_checkDbState (env : Env) (st : InternalState) :
    shutdownOrder env (checkDbState env st) := by
  have h := fun st => shutdownOrder_statistics env st
  simp only [shutdownOrder] at h ⊢
  simp only [checkDbState]
  repeat' split
  all_goals simp [followedBy_cons, followedBy_nil, onlyAfter_cons, onlyAfter_nil, never_cons,
    never_nil, isWaitForSignalAndShutdown, isGoStoreInternalStateLoop, h]

theorem shutdownOrder_sortAddressContracts (env : Env) (st : InternalState) :
    shutdownOrder env (sortAddressContracts env st) := by
  have h := fun st => shutdownOrder_checkDbState env st
  simp only [shutdownOrder] at h ⊢
  simp only [sortAddressContracts]
  repeat' split
  all_goals simp [followedBy_cons, followedBy_nil, onlyAfter_cons, onlyAfter_nil, never_cons,
    never_nil, isWaitForSignalAndShutdown, isGoStoreInternalStateLoop, h]

theorem shutdownOrder_fixUtxos (env : Env) (st : InternalState) :
    shutdownOrder env (fixUtxos env st) := by
  have h := fun st => shutdownOrder_sortAddressContracts env st
  simp only [shutdownOrder] at h ⊢
  simp only [fixUtxos]
  repeat' split
  all_goals simp [followedBy_cons, followedBy_nil, onlyAfter_cons, onlyAfter_nil, never_cons,
    never_nil, isWaitForSignalAndShutdown, isGoStoreInternalStateLoop, h]

theorem shutdownOrder_mainWithExitCode (env : Env) : shutdownOrder env (mainWithExitCode env) := by
  have h := fun st => shutdownOrder_fixUtxos env st
  simp only [shutdownOrder] at h ⊢
  simp only [mainWithExitCode, repairOrStartup, startup, withIndex, RepairRocksDB]
  repeat' split
  all_goals simp [followedBy_cons, followedBy_nil, onlyAfter_cons, onlyAfter_nil, never_cons,
    never_nil, isWaitForSignalAndShutdown, isGoStoreInternalStateLoop, h]

/-- The shutdown as the code has it: whatever follows the return of
`waitForSignalAndShutdown` is `closing env`, the three closes and the three
acknowledgements with `-sync` and nothing but the return without it;
`storeInternalStateLoop` was started before in either case, and the run
returns `exitCodeOK`. -/
theorem shutdown_sequence (env : Env) (l r : List Event)
    (h : (mainWithExitCode env).trace = l ++ Event.waitForSignalAndShutdown :: r) :
    r = closing env ∧ Event.goStoreInternalStateLoop ∈ l ∧
      (mainWithExitCode env).exit = exitCodeOK := by
  obtain ⟨h1, h2, h3⟩ := shutdownOrder_mainWithExitCode env
  refine ⟨h1 l _ r h rfl, ?_, ?_⟩
  · obtain ⟨x, hx, hg⟩ := h2 l _ r h rfl
    cases x <;> simp_all [isGoStoreInternalStateLoop]
  · rcases h3 with h3 | h3
    · have := h3 Event.waitForSignalAndShutdown (by simp [h])
      simp [isWaitForSignalAndShutdown] at this
    · exact h3

/-- C7 fails on the code: without `-sync` (a fresh store, every call
succeeding) `storeInternalStateLoop` is started and the run gets to the
shutdown and returns `exitCodeOK`, but `chanStoreInternalState` is never closed
and `chanStoreInternalStateDone` never received from; with `-sync` the same
loop is closed and acknowledged. -/
theorem C7_store_loop_not_closed :
    Event.goStoreInternalStateLoop ∈ (mainWithExitCode envDefault).trace ∧
      Event.waitForSignalAndShutdown ∈ (mainWithExitCode envDefault).trace ∧
      (mainWithExitCode envDefault).exit = exitCodeOK ∧
      Event.close Chan.chanStoreInternalState ∉ (mainWithExitCode envDefault).trace ∧
      Event.recv Chan.chanStoreInternalStateDone ∉ (mainWithExitCode envDefault).trace ∧
      Event.goStoreInternalStateLoop ∈ (mainWithExitCode envSync).trace ∧
      Event.close Chan.chanStoreInternalState ∈ (mainWithExitCode envSync).trace ∧
      Event.recv Chan.chanStoreInternalStateDone ∈ (mainWithExitCode envSync).trace := by
  decide

end GoBlock
